import Mathlib

/-!
# The 8085 engine of `cpu8085.cpp`

A shallow embedding of the class `CPU8085` (`src/cpu8085.h`, `src/8085_bios/cpu8085.cpp`)
and machine-checked properties of its arithmetic unit, its stack, its banked memory and
its instruction dispatch.

Conventions of the embedding.

* `uint8_t` and `uint16_t` values are natural numbers; every place where the C++ code
  stores into a `uint8_t` / `uint16_t` (assignment, parameter passing, return) is an
  explicit `% 256` / `% 65536`.  Expressions that C++ evaluates in `int` and that may be
  negative are evaluated in `Int` and brought back with `wrap8` / `wrap16`.
* `memory_banks` is a function from bank index and byte index to the byte stored there.
  Only the cells with bank in `0..7` and index in `0..65535` exist in the C++ object.
  An access outside of them is undefined behaviour in C++, which has no bounds check: the
  store or load hits whatever lies past the array.  The embedding cannot say what that is;
  it records the event by setting the sticky field `fault`, drops the store and reads 0.
  Once `fault` is set the state says nothing about the C++ object.  The properties of an
  arbitrary step (the range of the bank index, the banks that are not active) and of the
  registers after `loadProgram` therefore assume that `fault` stays clear.
* The read slot is a function from port to byte.  The write slot is external to the
  engine: `ioWriteCallback` says whether one is registered and `ioWritten` lists the
  calls made to it (most recent first).
-/

/-- Condition flags, `struct Flags` of `cpu8085.h`. -/
structure Flags where
  S : Bool
  Z : Bool
  AC : Bool
  P : Bool
  CY : Bool
deriving DecidableEq

/-- The data members of `class CPU8085`, with the two bookkeeping fields `ioWritten`
and `fault` described in the header of this file. -/
structure CPU8085 where
  A : Nat
  B : Nat
  C : Nat
  D : Nat
  E : Nat
  H : Nat
  L : Nat
  SP : Nat
  PC : Nat
  flags : Flags
  memory_banks : Int → Nat → Nat
  current_bank : Int
  halted : Bool
  interruptEnabled : Bool
  ioReadCallback : Option (Nat → Nat)
  ioWriteCallback : Bool
  ioWritten : List (Nat × Nat)
  fault : Bool

namespace CPU8085

/-- The constant `NUM_BANKS` of `cpu8085.h`. -/
def NUM_BANKS : Int := 8

/-- Conversion of an `int` value to `uint8_t`. -/
def wrap8 (i : Int) : Nat := (i % 256).toNat

/-- Conversion of an `int` value to `uint16_t`. -/
def wrap16 (i : Int) : Nat := (i % 65536).toNat

/-- Whether `memory_banks[bank][idx]` is an element of the allocated arrays. -/
def inBounds (bank : Int) (idx : Nat) : Bool :=
  decide (0 ≤ bank) && decide (bank < NUM_BANKS) && decide (idx < 65536)

/-- The read `memory_banks[bank][idx]`.  The source has no bounds check; for an index outside
the arrays the value read is unknown, and the 0 returned together with `fault` set is a
placeholder, not the value the C++ code sees. -/
def readMem (s : CPU8085) (bank : Int) (idx : Nat) : Nat × CPU8085 :=
  if inBounds bank idx then (s.memory_banks bank idx, s)
  else (0, { s with fault := true })

/-- The store `memory_banks[bank][idx] = v`.  The source has no bounds check; for an index
outside the arrays the store lands past the array, which the embedding does not track: it
only sets `fault`. -/
def writeMem (s : CPU8085) (bank : Int) (idx : Nat) (v : Nat) : CPU8085 :=
  if inBounds bank idx then
    { s with memory_banks := fun b i => if b = bank ∧ i = idx then v % 256 else s.memory_banks b i }
  else { s with fault := true }

def getBC (s : CPU8085) : Nat := ((s.B <<< 8) ||| s.C) % 65536

def getDE (s : CPU8085) : Nat := ((s.D <<< 8) ||| s.E) % 65536

def getHL (s : CPU8085) : Nat := ((s.H <<< 8) ||| s.L) % 65536

def setBC (s : CPU8085) (val : Nat) : CPU8085 :=
  let val := val % 65536
  { s with B := ((val >>> 8) &&& 0xFF) % 256, C := (val &&& 0xFF) % 256 }

def setDE (s : CPU8085) (val : Nat) : CPU8085 :=
  let val := val % 65536
  { s with D := ((val >>> 8) &&& 0xFF) % 256, E := (val &&& 0xFF) % 256 }

def setHL (s : CPU8085) (val : Nat) : CPU8085 :=
  let val := val % 65536
  { s with H := ((val >>> 8) &&& 0xFF) % 256, L := (val &&& 0xFF) % 256 }

/-- The method `reset`. -/
def reset (s : CPU8085) : CPU8085 :=
  { s with
    A := 0, B := 0, C := 0, D := 0, E := 0, H := 0, L := 0
    SP := 0xFFFF
    PC := 0x0000
    flags := { S := false, Z := false, AC := false, P := false, CY := false }
    memory_banks := fun b i =>
      if 0 ≤ b ∧ b < NUM_BANKS ∧ i < 65536 then 0 else s.memory_banks b i
    current_bank := 0
    halted := false
    interruptEnabled := false }

/-- The constructor `CPU8085()`: zeroed banks, bank 0, then `reset`; no slot registered. -/
def init : CPU8085 :=
  reset
    { A := 0, B := 0, C := 0, D := 0, E := 0, H := 0, L := 0, SP := 0, PC := 0
      flags := { S := false, Z := false, AC := false, P := false, CY := false }
      memory_banks := fun _ _ => 0
      current_bank := 0
      halted := false
      interruptEnabled := false
      ioReadCallback := none
      ioWriteCallback := false
      ioWritten := []
      fault := false }

/-- The method `fetchByte`: `memory_banks[current_bank][PC++]`. -/
def fetchByte (s : CPU8085) : Nat × CPU8085 :=
  let (v, s) := readMem s s.current_bank s.PC
  (v, { s with PC := (s.PC + 1) % 65536 })

/-- The method `fetchWord`. -/
def fetchWord (s : CPU8085) : Nat × CPU8085 :=
  let (low, s) := fetchByte s
  let (high, s) := fetchByte s
  (((high <<< 8) ||| low) % 65536, s)

/-- The bit-counting loop of `updateFlags` and `updateFlagsLogical`. -/
def countBits (result : Nat) : Nat :=
  (List.range 8).foldl (fun bits i => if result &&& (1 <<< i) ≠ 0 then bits + 1 else bits) 0

/-- The method `updateFlags`. -/
def updateFlags (s : CPU8085) (result : Nat) : CPU8085 :=
  let result := result % 256
  { s with flags :=
    { s.flags with
      Z := decide (result = 0)
      S := decide (result &&& 0x80 ≠ 0)
      P := decide (countBits result % 2 = 0) } }

/-- The method `updateFlagsLogical`. -/
def updateFlagsLogical (s : CPU8085) (result : Nat) : CPU8085 :=
  let result := result % 256
  { s with flags :=
    { Z := decide (result = 0)
      S := decide (result &&& 0x80 ≠ 0)
      CY := false
      AC := false
      P := decide (countBits result % 2 = 0) } }

/-- The method `add`: the returned byte and the engine with its flags updated. -/
def add (s : CPU8085) (value : Nat) (withCarry : Bool) : Nat × CPU8085 :=
  let value := value % 256
  let result := (s.A + value + (if withCarry && s.flags.CY then 1 else 0)) % 65536
  let s := { s with flags := { s.flags with CY := decide (result > 0xFF) } }
  let s := { s with flags := { s.flags with
    AC := decide ((s.A &&& 0x0F) + (value &&& 0x0F) + (if withCarry && s.flags.CY then 1 else 0) > 0x0F) } }
  let s := updateFlags s (result &&& 0xFF)
  ((result &&& 0xFF) % 256, s)

/-- The method `sub`: the returned byte and the engine with its flags updated. -/
def sub (s : CPU8085) (value : Nat) (withBorrow : Bool) : Nat × CPU8085 :=
  let value := value % 256
  let result := wrap16 ((s.A : Int) - (value : Int) - (if withBorrow && s.flags.CY then 1 else 0))
  let s := { s with flags := { s.flags with CY := decide (result > 0xFF) } }
  let s := { s with flags := { s.flags with
    AC := decide ((s.A &&& 0x0F) < (value &&& 0x0F) + (if withBorrow && s.flags.CY then 1 else 0)) } }
  let s := updateFlags s (result &&& 0xFF)
  ((result &&& 0xFF) % 256, s)

/-- The method `push`. -/
def push (s : CPU8085) (value : Nat) : CPU8085 :=
  let value := value % 65536
  let s := { s with SP := wrap16 ((s.SP : Int) - 1) }
  let s := writeMem s s.current_bank s.SP ((value >>> 8) &&& 0xFF)
  let s := { s with SP := wrap16 ((s.SP : Int) - 1) }
  writeMem s s.current_bank s.SP (value &&& 0xFF)

/-- The method `pop`. -/
def pop (s : CPU8085) : Nat × CPU8085 :=
  let (low, s) := readMem s s.current_bank s.SP
  let s := { s with SP := (s.SP + 1) % 65536 }
  let (high, s) := readMem s s.current_bank s.SP
  let s := { s with SP := (s.SP + 1) % 65536 }
  (((high <<< 8) ||| low) % 65536, s)

/-- The method `getMemory`. -/
def getMemory (s : CPU8085) (address : Nat) : Nat × CPU8085 :=
  readMem s s.current_bank (address % 65536)

/-- The method `setMemory`. -/
def setMemory (s : CPU8085) (address : Nat) (value : Nat) : CPU8085 :=
  writeMem s s.current_bank (address % 65536) (value % 256)

/-- The method `switchBank`. -/
def switchBank (s : CPU8085) (bank : Int) : CPU8085 :=
  if 0 ≤ bank ∧ bank < NUM_BANKS then { s with current_bank := bank } else s

/-- The method `getCurrentBank`. -/
def getCurrentBank (s : CPU8085) : Int := s.current_bank

/-- The method `getMemoryFromBank`. -/
def getMemoryFromBank (s : CPU8085) (bank : Int) (address : Nat) : Nat × CPU8085 :=
  if 0 ≤ bank ∧ bank < NUM_BANKS then readMem s bank (address % 65536) else (0, s)

/-- The method `setMemoryInBank`. -/
def setMemoryInBank (s : CPU8085) (bank : Int) (address : Nat) (value : Nat) : CPU8085 :=
  if 0 ≤ bank ∧ bank < NUM_BANKS then writeMem s bank (address % 65536) (value % 256) else s

/-- The `memcpy` of `loadProgram`: byte `k` of `program` goes to index `start + k`. -/
def copyBytes (s : CPU8085) (bank : Int) (start : Nat) : List Nat → CPU8085
  | [] => s
  | b :: rest => copyBytes (writeMem s bank start b) bank (start + 1) rest

/-- The method `loadProgram`; `size` is the length of `program`. -/
def loadProgram (s : CPU8085) (program : List Nat) (startAddress : Nat) : CPU8085 :=
  let startAddress := startAddress % 65536
  let s := copyBytes s s.current_bank startAddress program
  { s with PC := startAddress }

/-- A hexadecimal digit; `nK` is the digit `K`. -/
inductive Nibble where
  | n0 | n1 | n2 | n3 | n4 | n5 | n6 | n7 | n8 | n9 | nA | nB | nC | nD | nE | nF
deriving DecidableEq

/-- The hexadecimal digit with value `n` (for `n` in 0..15). -/
def nibble : Nat → Nibble
  | 0 => .n0 | 1 => .n1 | 2 => .n2 | 3 => .n3 | 4 => .n4 | 5 => .n5 | 6 => .n6 | 7 => .n7
  | 8 => .n8 | 9 => .n9 | 10 => .nA | 11 => .nB | 12 => .nC | 13 => .nD | 14 => .nE | _ => .nF

/-- The `case` labels `0x00` to `0x0F` of the `switch` of `executeInstruction`, by
their low digit. -/
def execRow0 (memory : Int) (s : CPU8085) : Nibble → CPU8085
  | .n0 => s  -- case 0x00: NOP
  | .n1 => let (w, s) := fetchWord s; setBC s w  -- case 0x01: LXI B
  | .n2 => writeMem s memory (getBC s) s.A  -- case 0x02: STAX B
  | .n3 => setBC s (getBC s + 1)  -- case 0x03: INX B
  | .n4 => let s := { s with B := (s.B + 1) % 256 }; updateFlags s s.B  -- case 0x04: INR B
  | .n5 => let s := { s with B := wrap8 ((s.B : Int) - 1) }; updateFlags s s.B  -- case 0x05: DCR B
  | .n6 => let (v, s) := fetchByte s; { s with B := v }  -- case 0x06: MVI B
  | .n7 => let s := { s with flags := { s.flags with CY := decide (s.A &&& 0x80 ≠ 0) } }; { s with A := ((s.A <<< 1) ||| (if s.flags.CY then 1 else 0)) % 256 }  -- case 0x07: RLC
  | .n8 => s  -- case 0x08: undefined
  | .n9 => let temp16 := (getHL s + getBC s) % 65536; let s := { s with flags := { s.flags with CY := decide (temp16 < getHL s) } }; setHL s temp16  -- case 0x09: DAD B
  | .nA => let (v, s) := readMem s memory (getBC s); { s with A := v }  -- case 0x0A: LDAX B
  | .nB => setBC s (wrap16 ((getBC s : Int) - 1))  -- case 0x0B: DCX B
  | .nC => let s := { s with C := (s.C + 1) % 256 }; updateFlags s s.C  -- case 0x0C: INR C
  | .nD => let s := { s with C := wrap8 ((s.C : Int) - 1) }; updateFlags s s.C  -- case 0x0D: DCR C
  | .nE => let (v, s) := fetchByte s; { s with C := v }  -- case 0x0E: MVI C
  | .nF => let s := { s with flags := { s.flags with CY := decide (s.A &&& 0x01 ≠ 0) } }; { s with A := ((s.A >>> 1) ||| (if s.flags.CY then 0x80 else 0)) % 256 }  -- case 0x0F: RRC

/-- The `case` labels `0x10` to `0x1F` of the `switch` of `executeInstruction`, by
their low digit. -/
def execRow1 (memory : Int) (s : CPU8085) : Nibble → CPU8085
  | .n0 => s  -- case 0x10: undefined
  | .n1 => let (w, s) := fetchWord s; setDE s w  -- case 0x11: LXI D
  | .n2 => writeMem s memory (getDE s) s.A  -- case 0x12: STAX D
  | .n3 => setDE s (getDE s + 1)  -- case 0x13: INX D
  | .n4 => let s := { s with D := (s.D + 1) % 256 }; updateFlags s s.D  -- case 0x14: INR D
  | .n5 => let s := { s with D := wrap8 ((s.D : Int) - 1) }; updateFlags s s.D  -- case 0x15: DCR D
  | .n6 => let (v, s) := fetchByte s; { s with D := v }  -- case 0x16: MVI D
  | .n7 => let temp8 := if s.flags.CY then 1 else 0; let s := { s with flags := { s.flags with CY := decide (s.A &&& 0x80 ≠ 0) } }; { s with A := ((s.A <<< 1) ||| temp8) % 256 }  -- case 0x17: RAL
  | .n8 => s  -- case 0x18: undefined
  | .n9 => let temp16 := (getHL s + getDE s) % 65536; let s := { s with flags := { s.flags with CY := decide (temp16 < getHL s) } }; setHL s temp16  -- case 0x19: DAD D
  | .nA => let (v, s) := readMem s memory (getDE s); { s with A := v }  -- case 0x1A: LDAX D
  | .nB => setDE s (wrap16 ((getDE s : Int) - 1))  -- case 0x1B: DCX D
  | .nC => let s := { s with E := (s.E + 1) % 256 }; updateFlags s s.E  -- case 0x1C: INR E
  | .nD => let s := { s with E := wrap8 ((s.E : Int) - 1) }; updateFlags s s.E  -- case 0x1D: DCR E
  | .nE => let (v, s) := fetchByte s; { s with E := v }  -- case 0x1E: MVI E
  | .nF => let temp8 := if s.flags.CY then 0x80 else 0; let s := { s with flags := { s.flags with CY := decide (s.A &&& 0x01 ≠ 0) } }; { s with A := ((s.A >>> 1) ||| temp8) % 256 }  -- case 0x1F: RAR

/-- The `case` labels `0x20` to `0x2F` of the `switch` of `executeInstruction`, by
their low digit. -/
def execRow2 (memory : Int) (s : CPU8085) : Nibble → CPU8085
  | .n0 => { s with A := 0 }  -- case 0x20: RIM
  | .n1 => let (w, s) := fetchWord s; setHL s w  -- case 0x21: LXI H
  | .n2 => let (addr, s) := fetchWord s; let s := writeMem s memory addr s.L; writeMem s memory (addr + 1) s.H  -- case 0x22: SHLD
  | .n3 => setHL s (getHL s + 1)  -- case 0x23: INX H
  | .n4 => let s := { s with H := (s.H + 1) % 256 }; updateFlags s s.H  -- case 0x24: INR H
  | .n5 => let s := { s with H := wrap8 ((s.H : Int) - 1) }; updateFlags s s.H  -- case 0x25: DCR H
  | .n6 => let (v, s) := fetchByte s; { s with H := v }  -- case 0x26: MVI H
  | .n7 =>  -- case 0x27: DAA
    let correction := 0
    let correction := if (s.A &&& 0x0F) > 9 ∨ s.flags.AC then (correction + 0x06) % 256 else correction
    let (correction, s) :=
      if (s.A >>> 4) > 9 ∨ s.flags.CY ∨ ((s.A >>> 4) ≥ 9 ∧ (s.A &&& 0x0F) > 9) then
        ((correction + 0x60) % 256, { s with flags := { s.flags with CY := true } })
      else (correction, s)
    let s := { s with A := (s.A + correction) % 256 }
    updateFlags s s.A
  | .n8 => s  -- case 0x28: undefined
  | .n9 => let temp16 := (getHL s + getHL s) % 65536; let s := { s with flags := { s.flags with CY := decide (temp16 < getHL s) } }; setHL s temp16  -- case 0x29: DAD H
  | .nA => let (addr, s) := fetchWord s; let (v, s) := readMem s memory addr; let s := { s with L := v }; let (v, s) := readMem s memory (addr + 1); { s with H := v }  -- case 0x2A: LHLD
  | .nB => setHL s (wrap16 ((getHL s : Int) - 1))  -- case 0x2B: DCX H
  | .nC => let s := { s with L := (s.L + 1) % 256 }; updateFlags s s.L  -- case 0x2C: INR L
  | .nD => let s := { s with L := wrap8 ((s.L : Int) - 1) }; updateFlags s s.L  -- case 0x2D: DCR L
  | .nE => let (v, s) := fetchByte s; { s with L := v }  -- case 0x2E: MVI L
  | .nF => { s with A := wrap8 (-(s.A : Int) - 1) }  -- case 0x2F: CMA

/-- The `case` labels `0x30` to `0x3F` of the `switch` of `executeInstruction`, by
their low digit. -/
def execRow3 (memory : Int) (s : CPU8085) : Nibble → CPU8085
  | .n0 => s  -- case 0x30: SIM
  | .n1 => let (w, s) := fetchWord s; { s with SP := w }  -- case 0x31: LXI SP
  | .n2 => let (addr, s) := fetchWord s; writeMem s memory addr s.A  -- case 0x32: STA
  | .n3 => { s with SP := (s.SP + 1) % 65536 }  -- case 0x33: INX SP
  | .n4 => let (v, s) := readMem s memory (getHL s); let temp8 := (v + 1) % 256; let s := writeMem s memory (getHL s) temp8; updateFlags s temp8  -- case 0x34: INR M
  | .n5 => let (v, s) := readMem s memory (getHL s); let temp8 := wrap8 ((v : Int) - 1); let s := writeMem s memory (getHL s) temp8; updateFlags s temp8  -- case 0x35: DCR M
  | .n6 => let (v, s) := fetchByte s; writeMem s memory (getHL s) v  -- case 0x36: MVI M
  | .n7 => { s with flags := { s.flags with CY := true } }  -- case 0x37: STC
  | .n8 => s  -- case 0x38: undefined
  | .n9 => let temp16 := (getHL s + s.SP) % 65536; let s := { s with flags := { s.flags with CY := decide (temp16 < getHL s) } }; setHL s temp16  -- case 0x39: DAD SP
  | .nA => let (addr, s) := fetchWord s; let (v, s) := readMem s memory addr; { s with A := v }  -- case 0x3A: LDA
  | .nB => { s with SP := wrap16 ((s.SP : Int) - 1) }  -- case 0x3B: DCX SP
  | .nC => let s := { s with A := (s.A + 1) % 256 }; updateFlags s s.A  -- case 0x3C: INR A
  | .nD => let s := { s with A := wrap8 ((s.A : Int) - 1) }; updateFlags s s.A  -- case 0x3D: DCR A
  | .nE => let (v, s) := fetchByte s; { s with A := v }  -- case 0x3E: MVI A
  | .nF => { s with flags := { s.flags with CY := !s.flags.CY } }  -- case 0x3F: CMC

/-- The `case` labels `0x40` to `0x4F` of the `switch` of `executeInstruction`, by
their low digit. -/
def execRow4 (memory : Int) (s : CPU8085) : Nibble → CPU8085
  | .n0 => { s with B := s.B }  -- case 0x40: MOV B,B
  | .n1 => { s with B := s.C }  -- case 0x41: MOV B,C
  | .n2 => { s with B := s.D }  -- case 0x42: MOV B,D
  | .n3 => { s with B := s.E }  -- case 0x43: MOV B,E
  | .n4 => { s with B := s.H }  -- case 0x44: MOV B,H
  | .n5 => { s with B := s.L }  -- case 0x45: MOV B,L
  | .n6 => let (v, s) := readMem s memory (getHL s); { s with B := v }  -- case 0x46: MOV B,M
  | .n7 => { s with B := s.A }  -- case 0x47: MOV B,A
  | .n8 => { s with C := s.B }  -- case 0x48: MOV C,B
  | .n9 => { s with C := s.C }  -- case 0x49: MOV C,C
  | .nA => { s with C := s.D }  -- case 0x4A: MOV C,D
  | .nB => { s with C := s.E }  -- case 0x4B: MOV C,E
  | .nC => { s with C := s.H }  -- case 0x4C: MOV C,H
  | .nD => { s with C := s.L }  -- case 0x4D: MOV C,L
  | .nE => let (v, s) := readMem s memory (getHL s); { s with C := v }  -- case 0x4E: MOV C,M
  | .nF => { s with C := s.A }  -- case 0x4F: MOV C,A

/-- The `case` labels `0x50` to `0x5F` of the `switch` of `executeInstruction`, by
their low digit. -/
def execRow5 (memory : Int) (s : CPU8085) : Nibble → CPU8085
  | .n0 => { s with D := s.B }  -- case 0x50: MOV D,B
  | .n1 => { s with D := s.C }  -- case 0x51: MOV D,C
  | .n2 => { s with D := s.D }  -- case 0x52: MOV D,D
  | .n3 => { s with D := s.E }  -- case 0x53: MOV D,E
  | .n4 => { s with D := s.H }  -- case 0x54: MOV D,H
  | .n5 => { s with D := s.L }  -- case 0x55: MOV D,L
  | .n6 => let (v, s) := readMem s memory (getHL s); { s with D := v }  -- case 0x56: MOV D,M
  | .n7 => { s with D := s.A }  -- case 0x57: MOV D,A
  | .n8 => { s with E := s.B }  -- case 0x58: MOV E,B
  | .n9 => { s with E := s.C }  -- case 0x59: MOV E,C
  | .nA => { s with E := s.D }  -- case 0x5A: MOV E,D
  | .nB => { s with E := s.E }  -- case 0x5B: MOV E,E
  | .nC => { s with E := s.H }  -- case 0x5C: MOV E,H
  | .nD => { s with E := s.L }  -- case 0x5D: MOV E,L
  | .nE => let (v, s) := readMem s memory (getHL s); { s with E := v }  -- case 0x5E: MOV E,M
  | .nF => { s with E := s.A }  -- case 0x5F: MOV E,A

/-- The `case` labels `0x60` to `0x6F` of the `switch` of `executeInstruction`, by
their low digit. -/
def execRow6 (memory : Int) (s : CPU8085) : Nibble → CPU8085
  | .n0 => { s with H := s.B }  -- case 0x60: MOV H,B
  | .n1 => { s with H := s.C }  -- case 0x61: MOV H,C
  | .n2 => { s with H := s.D }  -- case 0x62: MOV H,D
  | .n3 => { s with H := s.E }  -- case 0x63: MOV H,E
  | .n4 => { s with H := s.H }  -- case 0x64: MOV H,H
  | .n5 => { s with H := s.L }  -- case 0x65: MOV H,L
  | .n6 => let (v, s) := readMem s memory (getHL s); { s with H := v }  -- case 0x66: MOV H,M
  | .n7 => { s with H := s.A }  -- case 0x67: MOV H,A
  | .n8 => { s with L := s.B }  -- case 0x68: MOV L,B
  | .n9 => { s with L := s.C }  -- case 0x69: MOV L,C
  | .nA => { s with L := s.D }  -- case 0x6A: MOV L,D
  | .nB => { s with L := s.E }  -- case 0x6B: MOV L,E
  | .nC => { s with L := s.H }  -- case 0x6C: MOV L,H
  | .nD => { s with L := s.L }  -- case 0x6D: MOV L,L
  | .nE => let (v, s) := readMem s memory (getHL s); { s with L := v }  -- case 0x6E: MOV L,M
  | .nF => { s with L := s.A }  -- case 0x6F: MOV L,A

/-- The `case` labels `0x70` to `0x7F` of the `switch` of `executeInstruction`, by
their low digit. -/
def execRow7 (memory : Int) (s : CPU8085) : Nibble → CPU8085
  | .n0 => writeMem s memory (getHL s) s.B  -- case 0x70: MOV M,B
  | .n1 => writeMem s memory (getHL s) s.C  -- case 0x71: MOV M,C
  | .n2 => writeMem s memory (getHL s) s.D  -- case 0x72: MOV M,D
  | .n3 => writeMem s memory (getHL s) s.E  -- case 0x73: MOV M,E
  | .n4 => writeMem s memory (getHL s) s.H  -- case 0x74: MOV M,H
  | .n5 => writeMem s memory (getHL s) s.L  -- case 0x75: MOV M,L
  | .n6 => { s with halted := true }  -- case 0x76: HLT
  | .n7 => writeMem s memory (getHL s) s.A  -- case 0x77: MOV M,A
  | .n8 => { s with A := s.B }  -- case 0x78: MOV A,B
  | .n9 => { s with A := s.C }  -- case 0x79: MOV A,C
  | .nA => { s with A := s.D }  -- case 0x7A: MOV A,D
  | .nB => { s with A := s.E }  -- case 0x7B: MOV A,E
  | .nC => { s with A := s.H }  -- case 0x7C: MOV A,H
  | .nD => { s with A := s.L }  -- case 0x7D: MOV A,L
  | .nE => let (v, s) := readMem s memory (getHL s); { s with A := v }  -- case 0x7E: MOV A,M
  | .nF => { s with A := s.A }  -- case 0x7F: MOV A,A

/-- The `case` labels `0x80` to `0x8F` of the `switch` of `executeInstruction`, by
their low digit. -/
def execRow8 (memory : Int) (s : CPU8085) : Nibble → CPU8085
  | .n0 => let (r, s) := add s s.B false; { s with A := r }  -- case 0x80: ADD B
  | .n1 => let (r, s) := add s s.C false; { s with A := r }  -- case 0x81: ADD C
  | .n2 => let (r, s) := add s s.D false; { s with A := r }  -- case 0x82: ADD D
  | .n3 => let (r, s) := add s s.E false; { s with A := r }  -- case 0x83: ADD E
  | .n4 => let (r, s) := add s s.H false; { s with A := r }  -- case 0x84: ADD H
  | .n5 => let (r, s) := add s s.L false; { s with A := r }  -- case 0x85: ADD L
  | .n6 => let (v, s) := readMem s memory (getHL s); let (r, s) := add s v false; { s with A := r }  -- case 0x86: ADD M
  | .n7 => let (r, s) := add s s.A false; { s with A := r }  -- case 0x87: ADD A
  | .n8 => let (r, s) := add s s.B true; { s with A := r }  -- case 0x88: ADC B
  | .n9 => let (r, s) := add s s.C true; { s with A := r }  -- case 0x89: ADC C
  | .nA => let (r, s) := add s s.D true; { s with A := r }  -- case 0x8A: ADC D
  | .nB => let (r, s) := add s s.E true; { s with A := r }  -- case 0x8B: ADC E
  | .nC => let (r, s) := add s s.H true; { s with A := r }  -- case 0x8C: ADC H
  | .nD => let (r, s) := add s s.L true; { s with A := r }  -- case 0x8D: ADC L
  | .nE => let (v, s) := readMem s memory (getHL s); let (r, s) := add s v true; { s with A := r }  -- case 0x8E: ADC M
  | .nF => let (r, s) := add s s.A true; { s with A := r }  -- case 0x8F: ADC A

/-- The `case` labels `0x90` to `0x9F` of the `switch` of `executeInstruction`, by
their low digit. -/
def execRow9 (memory : Int) (s : CPU8085) : Nibble → CPU8085
  | .n0 => let (r, s) := sub s s.B false; { s with A := r }  -- case 0x90: SUB B
  | .n1 => let (r, s) := sub s s.C false; { s with A := r }  -- case 0x91: SUB C
  | .n2 => let (r, s) := sub s s.D false; { s with A := r }  -- case 0x92: SUB D
  | .n3 => let (r, s) := sub s s.E false; { s with A := r }  -- case 0x93: SUB E
  | .n4 => let (r, s) := sub s s.H false; { s with A := r }  -- case 0x94: SUB H
  | .n5 => let (r, s) := sub s s.L false; { s with A := r }  -- case 0x95: SUB L
  | .n6 => let (v, s) := readMem s memory (getHL s); let (r, s) := sub s v false; { s with A := r }  -- case 0x96: SUB M
  | .n7 => let (r, s) := sub s s.A false; { s with A := r }  -- case 0x97: SUB A
  | .n8 => let (r, s) := sub s s.B true; { s with A := r }  -- case 0x98: SBB B
  | .n9 => let (r, s) := sub s s.C true; { s with A := r }  -- case 0x99: SBB C
  | .nA => let (r, s) := sub s s.D true; { s with A := r }  -- case 0x9A: SBB D
  | .nB => let (r, s) := sub s s.E true; { s with A := r }  -- case 0x9B: SBB E
  | .nC => let (r, s) := sub s s.H true; { s with A := r }  -- case 0x9C: SBB H
  | .nD => let (r, s) := sub s s.L true; { s with A := r }  -- case 0x9D: SBB L
  | .nE => let (v, s) := readMem s memory (getHL s); let (r, s) := sub s v true; { s with A := r }  -- case 0x9E: SBB M
  | .nF => let (r, s) := sub s s.A true; { s with A := r }  -- case 0x9F: SBB A

/-- The `case` labels `0xA0` to `0xAF` of the `switch` of `executeInstruction`, by
their low digit. -/
def execRowA (memory : Int) (s : CPU8085) : Nibble → CPU8085
  | .n0 => let s := { s with A := (s.A &&& s.B) % 256 }; updateFlagsLogical s s.A  -- case 0xA0: ANA B
  | .n1 => let s := { s with A := (s.A &&& s.C) % 256 }; updateFlagsLogical s s.A  -- case 0xA1: ANA C
  | .n2 => let s := { s with A := (s.A &&& s.D) % 256 }; updateFlagsLogical s s.A  -- case 0xA2: ANA D
  | .n3 => let s := { s with A := (s.A &&& s.E) % 256 }; updateFlagsLogical s s.A  -- case 0xA3: ANA E
  | .n4 => let s := { s with A := (s.A &&& s.H) % 256 }; updateFlagsLogical s s.A  -- case 0xA4: ANA H
  | .n5 => let s := { s with A := (s.A &&& s.L) % 256 }; updateFlagsLogical s s.A  -- case 0xA5: ANA L
  | .n6 => let (v, s) := readMem s memory (getHL s); let s := { s with A := (s.A &&& v) % 256 }; updateFlagsLogical s s.A  -- case 0xA6: ANA M
  | .n7 => let s := { s with A := (s.A &&& s.A) % 256 }; updateFlagsLogical s s.A  -- case 0xA7: ANA A
  | .n8 => let s := { s with A := (s.A ^^^ s.B) % 256 }; updateFlagsLogical s s.A  -- case 0xA8: XRA B
  | .n9 => let s := { s with A := (s.A ^^^ s.C) % 256 }; updateFlagsLogical s s.A  -- case 0xA9: XRA C
  | .nA => let s := { s with A := (s.A ^^^ s.D) % 256 }; updateFlagsLogical s s.A  -- case 0xAA: XRA D
  | .nB => let s := { s with A := (s.A ^^^ s.E) % 256 }; updateFlagsLogical s s.A  -- case 0xAB: XRA E
  | .nC => let s := { s with A := (s.A ^^^ s.H) % 256 }; updateFlagsLogical s s.A  -- case 0xAC: XRA H
  | .nD => let s := { s with A := (s.A ^^^ s.L) % 256 }; updateFlagsLogical s s.A  -- case 0xAD: XRA L
  | .nE => let (v, s) := readMem s memory (getHL s); let s := { s with A := (s.A ^^^ v) % 256 }; updateFlagsLogical s s.A  -- case 0xAE: XRA M
  | .nF => let s := { s with A := (s.A ^^^ s.A) % 256 }; updateFlagsLogical s s.A  -- case 0xAF: XRA A

/-- The `case` labels `0xB0` to `0xBF` of the `switch` of `executeInstruction`, by
their low digit. -/
def execRowB (memory : Int) (s : CPU8085) : Nibble → CPU8085
  | .n0 => let s := { s with A := (s.A ||| s.B) % 256 }; updateFlagsLogical s s.A  -- case 0xB0: ORA B
  | .n1 => let s := { s with A := (s.A ||| s.C) % 256 }; updateFlagsLogical s s.A  -- case 0xB1: ORA C
  | .n2 => let s := { s with A := (s.A ||| s.D) % 256 }; updateFlagsLogical s s.A  -- case 0xB2: ORA D
  | .n3 => let s := { s with A := (s.A ||| s.E) % 256 }; updateFlagsLogical s s.A  -- case 0xB3: ORA E
  | .n4 => let s := { s with A := (s.A ||| s.H) % 256 }; updateFlagsLogical s s.A  -- case 0xB4: ORA H
  | .n5 => let s := { s with A := (s.A ||| s.L) % 256 }; updateFlagsLogical s s.A  -- case 0xB5: ORA L
  | .n6 => let (v, s) := readMem s memory (getHL s); let s := { s with A := (s.A ||| v) % 256 }; updateFlagsLogical s s.A  -- case 0xB6: ORA M
  | .n7 => let s := { s with A := (s.A ||| s.A) % 256 }; updateFlagsLogical s s.A  -- case 0xB7: ORA A
  | .n8 => (sub s s.B false).2  -- case 0xB8: CMP B
  | .n9 => (sub s s.C false).2  -- case 0xB9: CMP C
  | .nA => (sub s s.D false).2  -- case 0xBA: CMP D
  | .nB => (sub s s.E false).2  -- case 0xBB: CMP E
  | .nC => (sub s s.H false).2  -- case 0xBC: CMP H
  | .nD => (sub s s.L false).2  -- case 0xBD: CMP L
  | .nE => let (v, s) := readMem s memory (getHL s); (sub s v false).2  -- case 0xBE: CMP M
  | .nF => (sub s s.A false).2  -- case 0xBF: CMP A

/-- The `case` labels `0xC0` to `0xCF` of the `switch` of `executeInstruction`, by
their low digit. -/
def execRowC (s : CPU8085) : Nibble → CPU8085
  | .n0 => if !s.flags.Z then (let (w, s) := pop s; { s with PC := w }) else s  -- case 0xC0: RNZ
  | .n1 => let (w, s) := pop s; setBC s w  -- case 0xC1: POP B
  | .n2 => let (addr, s) := fetchWord s; if !s.flags.Z then { s with PC := addr } else s  -- case 0xC2: JNZ
  | .n3 => let (w, s) := fetchWord s; { s with PC := w }  -- case 0xC3: JMP
  | .n4 => let (addr, s) := fetchWord s; if !s.flags.Z then (let s := push s s.PC; { s with PC := addr }) else s  -- case 0xC4: CNZ
  | .n5 => push s (getBC s)  -- case 0xC5: PUSH B
  | .n6 => let (v, s) := fetchByte s; let (r, s) := add s v false; { s with A := r }  -- case 0xC6: ADI
  | .n7 => let s := push s s.PC; { s with PC := 0x00 }  -- case 0xC7: RST 0
  | .n8 => if s.flags.Z then (let (w, s) := pop s; { s with PC := w }) else s  -- case 0xC8: RZ
  | .n9 => let (w, s) := pop s; { s with PC := w }  -- case 0xC9: RET
  | .nA => let (addr, s) := fetchWord s; if s.flags.Z then { s with PC := addr } else s  -- case 0xCA: JZ
  | .nB => s  -- case 0xCB: undefined
  | .nC => let (addr, s) := fetchWord s; if s.flags.Z then (let s := push s s.PC; { s with PC := addr }) else s  -- case 0xCC: CZ
  | .nD => let (addr, s) := fetchWord s; let s := push s s.PC; { s with PC := addr }  -- case 0xCD: CALL
  | .nE => let (v, s) := fetchByte s; let (r, s) := add s v true; { s with A := r }  -- case 0xCE: ACI
  | .nF => let s := push s s.PC; { s with PC := 0x08 }  -- case 0xCF: RST 1

/-- The `case` labels `0xD0` to `0xDF` of the `switch` of `executeInstruction`, by
their low digit. -/
def execRowD (s : CPU8085) : Nibble → CPU8085
  | .n0 => if !s.flags.CY then (let (w, s) := pop s; { s with PC := w }) else s  -- case 0xD0: RNC
  | .n1 => let (w, s) := pop s; setDE s w  -- case 0xD1: POP D
  | .n2 => let (addr, s) := fetchWord s; if !s.flags.CY then { s with PC := addr } else s  -- case 0xD2: JNC
  | .n3 =>  -- case 0xD3: OUT
    let (temp8, s) := fetchByte s
    if temp8 = 254 then switchBank s ((s.A &&& 0x07 : Nat) : Int)
    else if s.ioWriteCallback then { s with ioWritten := (temp8, s.A) :: s.ioWritten }
    else s
  | .n4 => let (addr, s) := fetchWord s; if !s.flags.CY then (let s := push s s.PC; { s with PC := addr }) else s  -- case 0xD4: CNC
  | .n5 => push s (getDE s)  -- case 0xD5: PUSH D
  | .n6 => let (v, s) := fetchByte s; let (r, s) := sub s v false; { s with A := r }  -- case 0xD6: SUI
  | .n7 => let s := push s s.PC; { s with PC := 0x10 }  -- case 0xD7: RST 2
  | .n8 => if s.flags.CY then (let (w, s) := pop s; { s with PC := w }) else s  -- case 0xD8: RC
  | .n9 => s  -- case 0xD9: undefined
  | .nA => let (addr, s) := fetchWord s; if s.flags.CY then { s with PC := addr } else s  -- case 0xDA: JC
  | .nB =>  -- case 0xDB: IN
    let (temp8, s) := fetchByte s
    match s.ioReadCallback with
    | some cb => { s with A := cb temp8 % 256 }
    | none => { s with A := 0xFF }
  | .nC => let (addr, s) := fetchWord s; if s.flags.CY then (let s := push s s.PC; { s with PC := addr }) else s  -- case 0xDC: CC
  | .nD => s  -- case 0xDD: undefined
  | .nE => let (v, s) := fetchByte s; let (r, s) := sub s v true; { s with A := r }  -- case 0xDE: SBI
  | .nF => let s := push s s.PC; { s with PC := 0x18 }  -- case 0xDF: RST 3

/-- The `case` labels `0xE0` to `0xEF` of the `switch` of `executeInstruction`, by
their low digit. -/
def execRowE (memory : Int) (s : CPU8085) : Nibble → CPU8085
  | .n0 => if !s.flags.P then (let (w, s) := pop s; { s with PC := w }) else s  -- case 0xE0: RPO
  | .n1 => let (w, s) := pop s; setHL s w  -- case 0xE1: POP H
  | .n2 => let (addr, s) := fetchWord s; if !s.flags.P then { s with PC := addr } else s  -- case 0xE2: JPO
  | .n3 =>  -- case 0xE3: XTHL
    let (temp8, s) := readMem s memory s.SP
    let s := writeMem s memory s.SP s.L
    let s := { s with L := temp8 }
    let (temp8, s) := readMem s memory (s.SP + 1)
    let s := writeMem s memory (s.SP + 1) s.H
    { s with H := temp8 }
  | .n4 => let (addr, s) := fetchWord s; if !s.flags.P then (let s := push s s.PC; { s with PC := addr }) else s  -- case 0xE4: CPO
  | .n5 => push s (getHL s)  -- case 0xE5: PUSH H
  | .n6 => let (v, s) := fetchByte s; let s := { s with A := (s.A &&& v) % 256 }; updateFlagsLogical s s.A  -- case 0xE6: ANI
  | .n7 => let s := push s s.PC; { s with PC := 0x20 }  -- case 0xE7: RST 4
  | .n8 => if s.flags.P then (let (w, s) := pop s; { s with PC := w }) else s  -- case 0xE8: RPE
  | .n9 => { s with PC := getHL s }  -- case 0xE9: PCHL
  | .nA => let (addr, s) := fetchWord s; if s.flags.P then { s with PC := addr } else s  -- case 0xEA: JPE
  | .nB => let temp8 := s.D; let s := { s with D := s.H }; let s := { s with H := temp8 }; let temp8 := s.E; let s := { s with E := s.L }; { s with L := temp8 }  -- case 0xEB: XCHG
  | .nC => let (addr, s) := fetchWord s; if s.flags.P then (let s := push s s.PC; { s with PC := addr }) else s  -- case 0xEC: CPE
  | .nD => s  -- case 0xED: undefined
  | .nE => let (v, s) := fetchByte s; let s := { s with A := (s.A ^^^ v) % 256 }; updateFlagsLogical s s.A  -- case 0xEE: XRI
  | .nF => let s := push s s.PC; { s with PC := 0x28 }  -- case 0xEF: RST 5

/-- The `case` labels `0xF0` to `0xFF` of the `switch` of `executeInstruction`, by
their low digit. -/
def execRowF (s : CPU8085) : Nibble → CPU8085
  | .n0 => if !s.flags.S then (let (w, s) := pop s; { s with PC := w }) else s  -- case 0xF0: RP
  | .n1 =>  -- case 0xF1: POP PSW
    let (temp16, s) := pop s
    let s := { s with A := ((temp16 >>> 8) &&& 0xFF) % 256 }
    { s with flags :=
      { S := decide (temp16 &&& 0x80 ≠ 0)
        Z := decide (temp16 &&& 0x40 ≠ 0)
        AC := decide (temp16 &&& 0x10 ≠ 0)
        P := decide (temp16 &&& 0x04 ≠ 0)
        CY := decide (temp16 &&& 0x01 ≠ 0) } }
  | .n2 => let (addr, s) := fetchWord s; if !s.flags.S then { s with PC := addr } else s  -- case 0xF2: JP
  | .n3 => { s with interruptEnabled := false }  -- case 0xF3: DI
  | .n4 => let (addr, s) := fetchWord s; if !s.flags.S then (let s := push s s.PC; { s with PC := addr }) else s  -- case 0xF4: CP
  | .n5 => push s ((s.A <<< 8) ||| (if s.flags.S then 0x80 else 0) ||| (if s.flags.Z then 0x40 else 0) ||| (if s.flags.AC then 0x10 else 0) ||| (if s.flags.P then 0x04 else 0) ||| 0x02 ||| (if s.flags.CY then 0x01 else 0))  -- case 0xF5: PUSH PSW
  | .n6 => let (v, s) := fetchByte s; let s := { s with A := (s.A ||| v) % 256 }; updateFlagsLogical s s.A  -- case 0xF6: ORI
  | .n7 => let s := push s s.PC; { s with PC := 0x30 }  -- case 0xF7: RST 6
  | .n8 => if s.flags.S then (let (w, s) := pop s; { s with PC := w }) else s  -- case 0xF8: RM
  | .n9 => { s with SP := getHL s }  -- case 0xF9: SPHL
  | .nA => let (addr, s) := fetchWord s; if s.flags.S then { s with PC := addr } else s  -- case 0xFA: JM
  | .nB => { s with interruptEnabled := true }  -- case 0xFB: EI
  | .nC => let (addr, s) := fetchWord s; if s.flags.S then (let s := push s s.PC; { s with PC := addr }) else s  -- case 0xFC: CM
  | .nD => s  -- case 0xFD: undefined
  | .nE => let (v, s) := fetchByte s; (sub s v false).2  -- case 0xFE: CPI
  | .nF => let s := push s s.PC; { s with PC := 0x38 }  -- case 0xFF: RST 7

/-- The method `executeInstruction`.  The parameter is a `uint8_t`; the `case` labels of the
`switch` are looked up by their high and low hexadecimal digit.  All 256 byte values have
a `case`, so `default` is never reached.  `memory` is the local
`uint8_t* memory = memory_banks[current_bank]`, kept as the index of the bank it points
to. -/
def executeInstruction (opcode : Nat) (s : CPU8085) : CPU8085 :=
  let memory := s.current_bank
  let opcode := opcode % 256
  match nibble (opcode / 16) with
  | .n0 => execRow0 memory s (nibble (opcode % 16))
  | .n1 => execRow1 memory s (nibble (opcode % 16))
  | .n2 => execRow2 memory s (nibble (opcode % 16))
  | .n3 => execRow3 memory s (nibble (opcode % 16))
  | .n4 => execRow4 memory s (nibble (opcode % 16))
  | .n5 => execRow5 memory s (nibble (opcode % 16))
  | .n6 => execRow6 memory s (nibble (opcode % 16))
  | .n7 => execRow7 memory s (nibble (opcode % 16))
  | .n8 => execRow8 memory s (nibble (opcode % 16))
  | .n9 => execRow9 memory s (nibble (opcode % 16))
  | .nA => execRowA memory s (nibble (opcode % 16))
  | .nB => execRowB memory s (nibble (opcode % 16))
  | .nC => execRowC s (nibble (opcode % 16))
  | .nD => execRowD s (nibble (opcode % 16))
  | .nE => execRowE memory s (nibble (opcode % 16))
  | .nF => execRowF s (nibble (opcode % 16))

/-- The method `step`. -/
def step (s : CPU8085) : CPU8085 :=
  if s.halted then s
  else
    let (opcode, s) := fetchByte s
    executeInstruction opcode s

/-! ## Vocabulary of the properties -/

/-- Number of 1 bits among bits 0..7 of `r`. -/
def bitCount8 (r : Nat) : Nat := ((List.range 8).filter (fun i => r.testBit i)).length

/-- The engine right after construction with accumulator `a` and Carry `cy`. -/
def accState (a : Nat) (cy : Bool) : CPU8085 :=
  { init with A := a, flags := { init.flags with CY := cy } }

/-- Every stored value of the engine fits its C++ type and the active bank exists. -/
structure WF (s : CPU8085) : Prop where
  hA : s.A < 256
  hB : s.B < 256
  hC : s.C < 256
  hD : s.D < 256
  hE : s.E < 256
  hH : s.H < 256
  hL : s.L < 256
  hSP : s.SP < 65536
  hPC : s.PC < 65536
  hbank : 0 ≤ s.current_bank ∧ s.current_bank < 8
  hmem : ∀ b i, 0 ≤ b → b < 8 → i < 65536 → s.memory_banks b i < 256

/-- The byte of the active bank at address `a`. -/
def cur (s : CPU8085) (a : Nat) : Nat := s.memory_banks s.current_bank a

/-- The value held by addressable location `r`, where 0..7 denote B, C, D, E, H, L,
memory-at-HL, A. -/
def loc (s : CPU8085) (r : Nat) : Nat :=
  match r with
  | 0 => s.B
  | 1 => s.C
  | 2 => s.D
  | 3 => s.E
  | 4 => s.H
  | 5 => s.L
  | 6 => cur s (s.H * 256 + s.L)
  | _ => s.A

/-- The flags Zero, Sign and Parity of `t` are those of the byte `result`: Zero iff it is
0, Sign iff its bit 7 is set, Parity iff it has an even number of 1 bits. -/
def FlagsZSP (t : CPU8085) (result : Nat) : Prop :=
  (t.flags.Z = true ↔ result = 0) ∧
  (t.flags.S = true ↔ result.testBit 7 = true) ∧
  (t.flags.P = true ↔ bitCount8 result % 2 = 0)

/-- The engine `t` holds `result` in the accumulator with the flags of a logical
operation: Carry and Auxiliary Carry clear, Zero, Sign and Parity those of `result`. -/
def LogicalOutcome (t : CPU8085) (result : Nat) : Prop :=
  t.A = result ∧ t.flags.CY = false ∧ t.flags.AC = false ∧ FlagsZSP t result

/-- The engine after construction with `bytes` stored from address 0 of bank 0. -/
def withCode (bytes : List Nat) : CPU8085 :=
  { init with memory_banks := fun b i => if b = 0 then bytes.getD i 0 else 0 }

/-- The byte `x` is packed BCD: both nibbles are decimal digits. -/
def BcdValid (x : Nat) : Prop := x % 16 ≤ 9 ∧ x / 16 ≤ 9

/-- The number denoted by the packed-BCD byte `x`. -/
def bcdDec (x : Nat) : Nat := 10 * (x / 16) + x % 16

/-- The packed-BCD byte denoting the two-digit number `n`. -/
def bcdEnc (n : Nat) : Nat := 16 * (n / 10) + n % 10

instance (x : Nat) : Decidable (BcdValid x) := by
  unfold BcdValid
  infer_instance

/-- The engine after construction with accumulator 0x15 and the bytes of `ADI 0x27`, `DAA`
at address 0. -/
def bcdDemo : CPU8085 := { withCode [0xC6, 0x27, 0x27] with A := 0x15 }

/-- The accumulator that case 0x27 of `executeInstruction` leaves, as a function of the
incoming accumulator, Auxiliary Carry and Carry. -/
def daaAcc (x : Nat) (ac cy : Bool) : Nat :=
  (x + ((if x % 16 > 9 ∨ ac = true then 6 else 0) +
    (if x / 16 > 9 ∨ cy = true ∨ (x / 16 ≥ 9 ∧ x % 16 > 9) then 0x60 else 0))) % 256

/-- The Carry that case 0x27 of `executeInstruction` leaves. -/
def daaCarry (x : Nat) (cy : Bool) : Bool :=
  if x / 16 > 9 ∨ cy = true ∨ (x / 16 ≥ 9 ∧ x % 16 > 9) then true else cy

/-- The check of `daa_sum_table` for one pair of digit sums. -/
def daaSumOK (hi lo : Nat) : Bool :=
  decide (daaAcc ((16 * hi + lo) % 256) (decide (lo > 15)) (decide (16 * hi + lo > 255)) =
      bcdEnc ((10 * hi + lo) % 100)) &&
    (daaCarry ((16 * hi + lo) % 256) (decide (16 * hi + lo > 255)) == decide (10 * hi + lo ≥ 100))

/-- The flag byte of the PSW: bit 7 = S, bit 6 = Z, bit 4 = AC, bit 2 = P, bit 1 = 1,
bit 0 = CY, bits 5 and 3 = 0. -/
def flagByte (f : Flags) : Nat :=
  (if f.S then 128 else 0) + (if f.Z then 64 else 0) + (if f.AC then 16 else 0) +
    (if f.P then 4 else 0) + 2 + (if f.CY then 1 else 0)

/-- The engine after `reset`, with the bytes of `MVI A,5 ; MVI B,3 ; ADD B ; HLT` loaded at
address 0 of the active bank and PC set to 0. -/
def demoLoaded (s : CPU8085) : CPU8085 :=
  { loadProgram (reset s) [0x3E, 0x05, 0x06, 0x03, 0x80, 0x76] 0 with PC := 0 }

/-- The engine after construction with H = 0x12, L = 0x34 and the bytes of `SHLD 0xFFFF` at
address 0. -/
def shldAtTop : CPU8085 := { withCode [0x22, 0xFF, 0xFF] with H := 0x12, L := 0x34 }

/-- The register pair `k` of a DAD instruction: 0..3 denote BC, DE, HL and SP. -/
def pairValue (s : CPU8085) (k : Nat) : Nat :=
  match k with
  | 0 => s.B * 256 + s.C
  | 1 => s.D * 256 + s.E
  | 2 => s.H * 256 + s.L
  | _ => s.SP

/-- Whether condition code `c` holds for the flags `f`: 0..7 denote NZ, Z, NC, C, PO, PE, P
and M, tested as Z = 0, Z = 1, CY = 0, CY = 1, P = 0, P = 1, S = 0, S = 1. -/
def condHolds (f : Flags) (c : Nat) : Bool :=
  match c with
  | 0 => !f.Z
  | 1 => f.Z
  | 2 => !f.CY
  | 3 => f.CY
  | 4 => !f.P
  | 5 => f.P
  | 6 => !f.S
  | _ => f.S

/-- The 16-bit operand of the instruction at PC: low byte at PC + 1, high byte at PC + 2. -/
def operand16 (s : CPU8085) : Nat :=
  cur s ((s.PC + 2) % 65536) * 256 + cur s ((s.PC + 1) % 65536)

/-- The 16-bit value on top of the stack: low byte at SP, high byte at SP + 1. -/
def stackTop (s : CPU8085) : Nat := cur s ((s.SP + 1) % 65536) * 256 + cur s s.SP

/-- The engine `s` with the 16-bit value `v` stored on its stack: high byte at SP - 1, low
byte at SP - 2 (addresses modulo 65536, in the active bank) and SP lowered by 2. -/
def withPushed (s : CPU8085) (v : Nat) : CPU8085 :=
  { s with
    SP := (s.SP + 65534) % 65536
    memory_banks := fun b i =>
      if b = s.current_bank ∧ i = (s.SP + 65534) % 65536 then v % 256
      else if b = s.current_bank ∧ i = (s.SP + 65535) % 65536 then v / 256 % 256
      else s.memory_banks b i }

/-- The engine `s` with `v` stored in addressable location `d`, where 0..7 denote B, C, D,
E, H, L, memory-at-HL, A. -/
def setLoc (s : CPU8085) (d : Nat) (v : Nat) : CPU8085 :=
  match d with
  | 0 => { s with B := v }
  | 1 => { s with C := v }
  | 2 => { s with D := v }
  | 3 => { s with E := v }
  | 4 => { s with H := v }
  | 5 => { s with L := v }
  | 6 => { s with memory_banks := fun b i =>
            if b = s.current_bank ∧ i = s.H * 256 + s.L then v else s.memory_banks b i }
  | _ => { s with A := v }

/-- The byte `a` shifted left by one place, with `cin` entering bit 0 and bit 7 dropped. -/
def rotl8 (a : Nat) (cin : Bool) : Nat := (a * 2) % 256 + (if cin then 1 else 0)

/-- The byte `a` shifted right by one place, with `cin` entering bit 7 and bit 0 dropped. -/
def rotr8 (a : Nat) (cin : Bool) : Nat := a / 2 + (if cin then 128 else 0)

/-- The check of `rot_table` for one byte and one incoming bit. -/
def rotOK (a : Nat) (c : Bool) : Bool :=
  decide (rotl8 a c = ((a <<< 1) % 256) ||| (if c then 1 else 0)) &&
  decide (rotr8 a c = (a >>> 1) ||| ((if c then 1 else 0) <<< 7)) &&
  decide (rotl8 a c = ((a <<< 1) ||| (if c then 1 else 0)) % 256) &&
  decide (rotr8 a c = ((a >>> 1) ||| (if c then 0x80 else 0)) % 256) &&
  (List.range 8).all (fun i =>
    ((rotl8 a c).testBit i == (if i = 0 then c else a.testBit (i - 1))) &&
    ((rotr8 a c).testBit i == (if i = 7 then c else a.testBit (i + 1))))

/-- The two-stage decimal adjustment as the specification words it, for the byte `a`, the
incoming Auxiliary Carry `ac` and the incoming Carry `cy`.  First stage: add 0x06 if the low
nibble exceeds 9 or `ac` is set.  Second stage, looking at the high nibble of the value
after the first stage: add 0x60 and force Carry if that nibble exceeds 9, or `cy` is set, or
the original high nibble is at least 9 while the original low nibble exceeds 9; otherwise
Carry keeps its incoming value.  The result is the adjusted byte and the Carry. -/
def daaTwoStage (a : Nat) (ac cy : Bool) : Nat × Bool :=
  let afterFirst := if a % 16 > 9 ∨ ac = true then (a + 0x06) % 256 else a
  if afterFirst / 16 > 9 ∨ cy = true ∨ (a / 16 ≥ 9 ∧ a % 16 > 9) then
    ((afterFirst + 0x60) % 256, true)
  else (afterFirst, cy)

/-- The check of `daa_two_stage_table` for one byte and one pair of incoming flags. -/
def daaTwoStageOK (a : Nat) (ac cy : Bool) : Bool :=
  decide (daaAcc a ac cy = (daaTwoStage a ac cy).1) &&
    (daaCarry a cy == (daaTwoStage a ac cy).2)

/-- The engine `s` with the banks other than `n` replaced by those of `g`. -/
def withOtherBanks (s : CPU8085) (n : Int) (g : Int → Nat → Nat) : CPU8085 :=
  { s with memory_banks := fun b i => if b = n then s.memory_banks b i else g b i }

/-! ## Bit-level lemmas -/

theorem and_one_shiftLeft_ne_zero (r i : Nat) : (r &&& (1 <<< i) ≠ 0) ↔ r.testBit i = true := by
  rw [Nat.one_shiftLeft, Nat.and_two_pow]
  cases h : r.testBit i <;> simp

theorem foldl_count (p : Nat → Bool) (l : List Nat) (n : Nat) :
    l.foldl (fun bits i => if p i = true then bits + 1 else bits) n = n + (l.filter p).length := by
  induction l generalizing n with
  | nil => simp
  | cons a l ih =>
    simp only [List.foldl_cons, ih, List.filter_cons]
    cases p a
    · simp
    · simp; omega

theorem countBits_eq_bitCount8 (r : Nat) : countBits r = bitCount8 r := by
  have h : ∀ i, (r &&& (1 <<< i) ≠ 0) ↔ r.testBit i = true := and_one_shiftLeft_ne_zero r
  unfold countBits bitCount8
  simp only [h]
  rw [foldl_count]
  simp

theorem and_255 (x : Nat) : x &&& 255 = x % 256 := Nat.and_pow_two_sub_one_eq_mod x 8

theorem and_15 (x : Nat) : x &&& 15 = x % 16 := Nat.and_pow_two_sub_one_eq_mod x 4

theorem and_7 (x : Nat) : x &&& 7 = x % 8 := Nat.and_pow_two_sub_one_eq_mod x 3

theorem and_128_ne_zero (x : Nat) : (x &&& 128 ≠ 0) ↔ x.testBit 7 = true := by
  have h := and_one_shiftLeft_ne_zero x 7
  simpa using h

/-! ## The arithmetic unit -/

/-- C1: for every accumulator byte, operand byte, `withCarry` and incoming flags, `add`
returns `(A + v + c) mod 256` with `c = 1` exactly when `withCarry` holds and the incoming
Carry is set; Carry is set iff `A + v + c > 0xFF`, Zero iff the result is 0, Sign iff bit 7
of the result is set, Parity iff the result has an even number of 1 bits; and
`add(0xFF, 0x01, false)` returns 0 with Carry and Auxiliary Carry set. -/
theorem add_result_and_flags (s : CPU8085) (v : Nat) (withCarry : Bool)
    (hA : s.A < 256) (hv : v < 256) :
    (add s v withCarry).1 = (s.A + v + (if withCarry && s.flags.CY then 1 else 0)) % 256 ∧
    ((add s v withCarry).2.flags.CY = true ↔
      s.A + v + (if withCarry && s.flags.CY then 1 else 0) > 0xFF) ∧
    ((add s v withCarry).2.flags.Z = true ↔ (add s v withCarry).1 = 0) ∧
    ((add s v withCarry).2.flags.S = true ↔ ((add s v withCarry).1).testBit 7 = true) ∧
    ((add s v withCarry).2.flags.P = true ↔ bitCount8 (add s v withCarry).1 % 2 = 0) ∧
    (s.A = 0xFF → (add s 0x01 false).1 = 0x00 ∧ (add s 0x01 false).2.flags.CY = true ∧
      (add s 0x01 false).2.flags.AC = true) := by
  have hc : (if (withCarry && s.flags.CY) = true then 1 else 0) ≤ 1 := by split <;> omega
  refine ⟨?_, ?_, ?_, ?_, ?_, ?_⟩
  · simp only [add, and_255, Nat.mod_mod, Nat.mod_eq_of_lt hv]
    omega
  · simp only [add, updateFlags, decide_eq_true_eq, Nat.mod_eq_of_lt hv]
    omega
  · simp [add, updateFlags, and_255]
  · simp [add, updateFlags, and_255, and_128_ne_zero]
  · simp [add, updateFlags, and_255, countBits_eq_bitCount8]
  · intro h
    simp [add, updateFlags, h, and_255, and_15]

/-- Witness of C1 on the engine with accumulator 0xFF and Carry set, adding 0x01 with carry. -/
theorem add_result_and_flags_witness :
    ((accState 0xFF true).A < 256 ∧ 0x01 < 256) ∧
    (add (accState 0xFF true) 0x01 true).1 =
      ((accState 0xFF true).A + 0x01 +
        (if true && (accState 0xFF true).flags.CY then 1 else 0)) % 256 :=
  ⟨⟨by decide, by decide⟩,
    (add_result_and_flags (accState 0xFF true) 0x01 true (by decide) (by decide)).1⟩

/-- C2: for every accumulator byte, operand byte, `withBorrow` and incoming flags, `sub`
returns `(A - v - b) mod 256` with `b = 1` exactly when `withBorrow` holds and the incoming
Carry is set; Carry is set iff `A < v + b`; Zero, Sign and Parity are those of the 8-bit
result; and `sub(0x00, 0x01, false)` returns 0xFF with Carry and Auxiliary Carry set. -/
theorem sub_result_and_flags (s : CPU8085) (v : Nat) (withBorrow : Bool)
    (hA : s.A < 256) (hv : v < 256) :
    ((sub s v withBorrow).1 : Int) =
      ((s.A : Int) - (v : Int) - (if withBorrow && s.flags.CY then 1 else 0)) % 256 ∧
    ((sub s v withBorrow).2.flags.CY = true ↔
      s.A < v + (if withBorrow && s.flags.CY then 1 else 0)) ∧
    ((sub s v withBorrow).2.flags.Z = true ↔ (sub s v withBorrow).1 = 0) ∧
    ((sub s v withBorrow).2.flags.S = true ↔ ((sub s v withBorrow).1).testBit 7 = true) ∧
    ((sub s v withBorrow).2.flags.P = true ↔ bitCount8 (sub s v withBorrow).1 % 2 = 0) ∧
    (s.A = 0x00 → (sub s 0x01 false).1 = 0xFF ∧ (sub s 0x01 false).2.flags.CY = true ∧
      (sub s 0x01 false).2.flags.AC = true) := by
  refine ⟨?_, ?_, ?_, ?_, ?_, ?_⟩
  · simp only [sub, wrap16, and_255, Nat.mod_mod, Nat.mod_eq_of_lt hv]
    split <;> omega
  · simp only [sub, updateFlags, wrap16, decide_eq_true_eq, Nat.mod_eq_of_lt hv]
    split <;> omega
  · simp [sub, updateFlags, and_255]
  · simp [sub, updateFlags, and_255, and_128_ne_zero]
  · simp [sub, updateFlags, and_255, countBits_eq_bitCount8]
  · intro h
    simp [sub, updateFlags, wrap16, h, and_255, and_15]

/-- Witness of C2 on the engine with accumulator 0x00 and Carry set, subtracting 0x01 with
borrow. -/
theorem sub_result_and_flags_witness :
    ((accState 0x00 true).A < 256 ∧ 0x01 < 256) ∧
    ((sub (accState 0x00 true) 0x01 true).2.flags.CY = true ↔
      (accState 0x00 true).A < 0x01 +
        (if true && (accState 0x00 true).flags.CY then 1 else 0)) :=
  ⟨⟨by decide, by decide⟩,
    (sub_result_and_flags (accState 0x00 true) 0x01 true (by decide) (by decide)).2.1⟩

/-! ## Fetching and dispatch -/

theorem shl8_or (h l : Nat) (hl : l < 256) : (h <<< 8) ||| l = h * 256 + l := by
  rw [Nat.shiftLeft_eq, Nat.mul_comm]
  exact (Nat.mul_add_lt_is_or (i := 8) hl h).symm

theorem getHL_eq (s : CPU8085) (hH : s.H < 256) (hL : s.L < 256) :
    getHL s = s.H * 256 + s.L := by
  unfold getHL
  rw [shl8_or _ _ hL]
  omega

theorem inBounds_of (bank : Int) (idx : Nat) (h0 : 0 ≤ bank) (h8 : bank < 8)
    (hi : idx < 65536) : inBounds bank idx = true := by
  simp [inBounds, NUM_BANKS, h0, h8, hi]

theorem readMem_of (s : CPU8085) (bank : Int) (idx : Nat) (h : inBounds bank idx = true) :
    readMem s bank idx = (s.memory_banks bank idx, s) := by
  simp [readMem, h]

theorem fetchByte_of (s : CPU8085) (h : inBounds s.current_bank s.PC = true) :
    fetchByte s = (cur s s.PC, { s with PC := (s.PC + 1) % 65536 }) := by
  simp [fetchByte, readMem, h, cur]

theorem step_running (s : CPU8085) (hrun : s.halted = false)
    (h : inBounds s.current_bank s.PC = true) :
    step s = executeInstruction (cur s s.PC) { s with PC := (s.PC + 1) % 65536 } := by
  simp [step, hrun, fetchByte_of s h]

theorem WF.inBounds_PC {s : CPU8085} (hwf : WF s) : inBounds s.current_bank s.PC = true :=
  inBounds_of _ _ hwf.hbank.1 hwf.hbank.2 hwf.hPC

theorem and_mod256 (a b : Nat) (ha : a < 256) : (a &&& b) % 256 = a &&& b :=
  Nat.mod_eq_of_lt (Nat.lt_of_le_of_lt Nat.and_le_left ha)

theorem or_mod256 (a b : Nat) (ha : a < 256) (hb : b < 256) : (a ||| b) % 256 = a ||| b :=
  Nat.mod_eq_of_lt (Nat.or_lt_two_pow (n := 8) ha hb)

theorem xor_mod256 (a b : Nat) (ha : a < 256) (hb : b < 256) : (a ^^^ b) % 256 = a ^^^ b :=
  Nat.mod_eq_of_lt (Nat.xor_lt_two_pow (n := 8) ha hb)

theorem WF.loc_lt {s : CPU8085} (hwf : WF s) (r : Nat) : loc s r < 256 := by
  have hHL : s.H * 256 + s.L < 65536 := by have := hwf.hH; have := hwf.hL; omega
  unfold loc
  split
  · exact hwf.hB
  · exact hwf.hC
  · exact hwf.hD
  · exact hwf.hE
  · exact hwf.hH
  · exact hwf.hL
  · exact hwf.hmem _ _ hwf.hbank.1 hwf.hbank.2 hHL
  · exact hwf.hA

theorem logicalOutcome_update (s : CPU8085) (x : Nat) (hx : x < 256) :
    LogicalOutcome (updateFlagsLogical { s with A := x } x) x := by
  simp [LogicalOutcome, FlagsZSP, updateFlagsLogical, Nat.mod_eq_of_lt hx, and_128_ne_zero,
    countBits_eq_bitCount8]

theorem withCode_WF (bytes : List Nat) (h : ∀ x ∈ bytes, x < 256) : WF (withCode bytes) := by
  have h0 : (0 : Nat) < 256 := by decide
  refine ⟨h0, h0, h0, h0, h0, h0, h0, ?_, ?_, ?_, ?_⟩
  · show (0xFFFF : Nat) < 65536
    decide
  · show (0 : Nat) < 65536
    decide
  · show (0 : Int) ≤ 0 ∧ (0 : Int) < 8
    decide
  intro b i _ _ _
  simp only [withCode]
  split
  · rw [List.getD_eq_getElem?_getD]
    cases hi : bytes[i]? with
    | none => simp
    | some x => exact h x (List.getElem?_mem hi)
  · decide

/-! ## Logical instructions -/

theorem WF.advance {s : CPU8085} (hwf : WF s) : WF { s with PC := (s.PC + 1) % 65536 } :=
  { hA := hwf.hA, hB := hwf.hB, hC := hwf.hC, hD := hwf.hD, hE := hwf.hE, hH := hwf.hH,
    hL := hwf.hL, hSP := hwf.hSP, hPC := Nat.mod_lt _ (by decide), hbank := hwf.hbank,
    hmem := hwf.hmem }

theorem WF.inBounds_HL {s : CPU8085} (hwf : WF s) :
    inBounds s.current_bank (s.H * 256 + s.L) = true :=
  inBounds_of _ _ hwf.hbank.1 hwf.hbank.2 (by have := hwf.hH; have := hwf.hL; omega)

theorem WF.cur_lt {s : CPU8085} (hwf : WF s) (a : Nat) (ha : a < 65536) : cur s a < 256 :=
  hwf.hmem _ _ hwf.hbank.1 hwf.hbank.2 ha

theorem exec_logical_reg (s : CPU8085) (r : Nat) (hr : r < 8) (hwf : WF s) :
    LogicalOutcome (executeInstruction (0xA0 + r) s) (s.A &&& loc s r) ∧
    LogicalOutcome (executeInstruction (0xA8 + r) s) (s.A ^^^ loc s r) ∧
    LogicalOutcome (executeInstruction (0xB0 + r) s) (s.A ||| loc s r) := by
  have hHL := getHL_eq s hwf.hH hwf.hL
  have hb := hwf.inBounds_HL
  have hand := fun r => logicalOutcome_update s (s.A &&& loc s r)
    (Nat.lt_of_le_of_lt Nat.and_le_left hwf.hA)
  have hxor := fun r => logicalOutcome_update s (s.A ^^^ loc s r)
    (Nat.xor_lt_two_pow (n := 8) hwf.hA (hwf.loc_lt r))
  have hor := fun r => logicalOutcome_update s (s.A ||| loc s r)
    (Nat.or_lt_two_pow (n := 8) hwf.hA (hwf.loc_lt r))
  have mand := fun r => and_mod256 s.A (loc s r) hwf.hA
  have mxor := fun r => xor_mod256 s.A (loc s r) hwf.hA (hwf.loc_lt r)
  have mor := fun r => or_mod256 s.A (loc s r) hwf.hA (hwf.loc_lt r)
  refine ⟨?_, ?_, ?_⟩
  · have h := hand r
    have m := mand r
    interval_cases r <;> simp only [loc, cur] at m h ⊢ <;>
      simpa [executeInstruction, nibble, execRowA, execRowB,
        cur, hHL, readMem, hb, m, Nat.mod_eq_of_lt hwf.hA] using h
  · have h := hxor r
    have m := mxor r
    interval_cases r <;> simp only [loc, cur] at m h ⊢ <;>
      simpa [executeInstruction, nibble, execRowA, execRowB,
        cur, hHL, readMem, hb, m, Nat.mod_eq_of_lt hwf.hA] using h
  · have h := hor r
    have m := mor r
    interval_cases r <;> simp only [loc, cur] at m h ⊢ <;>
      simpa [executeInstruction, nibble, execRowA, execRowB,
        cur, hHL, readMem, hb, m, Nat.mod_eq_of_lt hwf.hA] using h

theorem exec_logical_imm (s : CPU8085) (hwf : WF s) :
    LogicalOutcome (executeInstruction 0xE6 s) (s.A &&& cur s s.PC) ∧
    LogicalOutcome (executeInstruction 0xEE s) (s.A ^^^ cur s s.PC) ∧
    LogicalOutcome (executeInstruction 0xF6 s) (s.A ||| cur s s.PC) := by
  have hv := hwf.cur_lt s.PC hwf.hPC
  have hf := fetchByte_of s hwf.inBounds_PC
  have hand := logicalOutcome_update { s with PC := (s.PC + 1) % 65536 } (s.A &&& cur s s.PC)
    (Nat.lt_of_le_of_lt Nat.and_le_left hwf.hA)
  have hxor := logicalOutcome_update { s with PC := (s.PC + 1) % 65536 } (s.A ^^^ cur s s.PC)
    (Nat.xor_lt_two_pow (n := 8) hwf.hA hv)
  have hor := logicalOutcome_update { s with PC := (s.PC + 1) % 65536 } (s.A ||| cur s s.PC)
    (Nat.or_lt_two_pow (n := 8) hwf.hA hv)
  have mand := and_mod256 s.A (cur s s.PC) hwf.hA
  have mxor := xor_mod256 s.A (cur s s.PC) hwf.hA hv
  have mor := or_mod256 s.A (cur s s.PC) hwf.hA hv
  refine ⟨?_, ?_, ?_⟩
  · simpa [executeInstruction, nibble, execRowE, execRowF, hf,
      mand] using hand
  · simpa [executeInstruction, nibble, execRowE, execRowF, hf,
      mxor] using hxor
  · simpa [executeInstruction, nibble, execRowE, execRowF, hf,
      mor] using hor

/-- C3: from every running well-formed state, one step whose opcode is ANA / XRA / ORA on
any of the 8 addressable locations (0xA0-0xB7), or ANI / XRI / ORI (0xE6, 0xEE, 0xF6, the
operand being the byte after the opcode), stores the bitwise AND / XOR / OR of the old
accumulator and the operand in A, clears Carry and Auxiliary Carry whatever the prior
flags, and sets Zero, Sign and Parity (even bit count) from that result. -/
theorem logical_instructions (s : CPU8085) (hwf : WF s) (hrun : s.halted = false) :
    (∀ r, r < 8 → cur s s.PC = 0xA0 + r → LogicalOutcome (step s) (s.A &&& loc s r)) ∧
    (∀ r, r < 8 → cur s s.PC = 0xA8 + r → LogicalOutcome (step s) (s.A ^^^ loc s r)) ∧
    (∀ r, r < 8 → cur s s.PC = 0xB0 + r → LogicalOutcome (step s) (s.A ||| loc s r)) ∧
    (cur s s.PC = 0xE6 →
      LogicalOutcome (step s) (s.A &&& cur s ((s.PC + 1) % 65536))) ∧
    (cur s s.PC = 0xEE →
      LogicalOutcome (step s) (s.A ^^^ cur s ((s.PC + 1) % 65536))) ∧
    (cur s s.PC = 0xF6 →
      LogicalOutcome (step s) (s.A ||| cur s ((s.PC + 1) % 65536))) := by
  rw [step_running s hrun hwf.inBounds_PC]
  have hreg := fun r hr => exec_logical_reg { s with PC := (s.PC + 1) % 65536 } r hr hwf.advance
  have himm := exec_logical_imm { s with PC := (s.PC + 1) % 65536 } hwf.advance
  refine ⟨?_, ?_, ?_, ?_, ?_, ?_⟩
  · intro r hr hop
    rw [hop]
    exact (hreg r hr).1
  · intro r hr hop
    rw [hop]
    exact (hreg r hr).2.1
  · intro r hr hop
    rw [hop]
    exact (hreg r hr).2.2
  · intro hop
    rw [hop]
    exact himm.1
  · intro hop
    rw [hop]
    exact himm.2.1
  · intro hop
    rw [hop]
    exact himm.2.2

/-- Witness of C3: the engine after construction with `XRA A` (0xAF) at address 0. -/
theorem logical_instructions_witness :
    (WF (withCode [0xAF]) ∧ (withCode [0xAF]).halted = false ∧ 7 < 8 ∧
      cur (withCode [0xAF]) (withCode [0xAF]).PC = 0xA8 + 7) ∧
    LogicalOutcome (step (withCode [0xAF])) ((withCode [0xAF]).A ^^^ loc (withCode [0xAF]) 7) :=
  ⟨⟨withCode_WF _ (by decide), rfl, by decide, by decide⟩,
    (logical_instructions (withCode [0xAF]) (withCode_WF _ (by decide)) rfl).2.1 7
      (by decide) (by decide)⟩

/-! ## Increment and decrement -/

theorem wrap8_lt (i : Int) : wrap8 i < 256 := by
  unfold wrap8
  omega

theorem wrap16_lt (i : Int) : wrap16 i < 65536 := by
  unfold wrap16
  omega

theorem wrap8_cast (i : Int) : ((wrap8 i : Nat) : Int) = i % 256 := by
  unfold wrap8
  omega

theorem flagsZSP_updateFlags (s : CPU8085) (x : Nat) : FlagsZSP (updateFlags s x) (x % 256) := by
  simp [FlagsZSP, updateFlags, and_128_ne_zero, countBits_eq_bitCount8]

theorem exec_inr (s : CPU8085) (r : Nat) (hr : r < 8) (hwf : WF s) :
    loc (executeInstruction (0x04 + 8 * r) s) r = (loc s r + 1) % 256 ∧
    (executeInstruction (0x04 + 8 * r) s).flags.CY = s.flags.CY ∧
    FlagsZSP (executeInstruction (0x04 + 8 * r) s) ((loc s r + 1) % 256) := by
  have hHL := getHL_eq s hwf.hH hwf.hL
  have hb := hwf.inBounds_HL
  have hf := fun t => flagsZSP_updateFlags t ((loc s r + 1) % 256)
  rw [Nat.mod_mod] at hf
  interval_cases r <;> simp only [loc, cur] at hf ⊢ <;>
    simp [executeInstruction, nibble, execRow0, execRow1, execRow2, execRow3, cur, hHL, readMem,
      writeMem, hb, hf] <;> simp [updateFlags]

theorem exec_dcr (s : CPU8085) (r : Nat) (hr : r < 8) (hwf : WF s) :
    loc (executeInstruction (0x05 + 8 * r) s) r = wrap8 ((loc s r : Int) - 1) ∧
    (executeInstruction (0x05 + 8 * r) s).flags.CY = s.flags.CY ∧
    FlagsZSP (executeInstruction (0x05 + 8 * r) s) (wrap8 ((loc s r : Int) - 1)) := by
  have hHL := getHL_eq s hwf.hH hwf.hL
  have hb := hwf.inBounds_HL
  have hf := fun t => flagsZSP_updateFlags t (wrap8 ((loc s r : Int) - 1))
  have hw := Nat.mod_eq_of_lt (wrap8_lt ((loc s r : Int) - 1))
  rw [hw] at hf
  interval_cases r <;> simp only [loc, cur] at hf hw ⊢ <;>
    simp [executeInstruction, nibble, execRow0, execRow1, execRow2, execRow3, cur, hHL, readMem,
      writeMem, hb, hf, hw] <;> simp [updateFlags]

/-- C4: from every running well-formed state and for each of the 8 addressable locations
`r` (B, C, D, E, H, L, memory-at-HL, A), one step whose opcode is INR (0x04 + 8r) sets the
location to (old value + 1) mod 256, and one whose opcode is DCR (0x05 + 8r) sets it to
(old value - 1) mod 256; both leave Carry unchanged and set Zero, Sign and Parity from the
new value. -/
theorem inr_dcr_instructions (s : CPU8085) (hwf : WF s) (hrun : s.halted = false)
    (r : Nat) (hr : r < 8) :
    (cur s s.PC = 0x04 + 8 * r →
      loc (step s) r = (loc s r + 1) % 256 ∧
      (step s).flags.CY = s.flags.CY ∧
      FlagsZSP (step s) (loc (step s) r)) ∧
    (cur s s.PC = 0x05 + 8 * r →
      (loc (step s) r : Int) = ((loc s r : Int) - 1) % 256 ∧
      (step s).flags.CY = s.flags.CY ∧
      FlagsZSP (step s) (loc (step s) r)) := by
  rw [step_running s hrun hwf.inBounds_PC]
  constructor
  · intro hop
    rw [hop]
    have h := exec_inr { s with PC := (s.PC + 1) % 65536 } r hr hwf.advance
    refine ⟨h.1, h.2.1, ?_⟩
    rw [h.1]
    exact h.2.2
  · intro hop
    rw [hop]
    have h := exec_dcr { s with PC := (s.PC + 1) % 65536 } r hr hwf.advance
    refine ⟨?_, h.2.1, ?_⟩
    · rw [h.1]
      exact wrap8_cast _
    · rw [h.1]
      exact h.2.2

/-- Witness of C4: the engine after construction with `DCR M` (0x35) at address 0; HL is 0,
so the location is the opcode byte itself. -/
theorem inr_dcr_instructions_witness :
    (WF (withCode [0x35]) ∧ (withCode [0x35]).halted = false ∧ 6 < 8 ∧
      cur (withCode [0x35]) (withCode [0x35]).PC = 0x05 + 8 * 6) ∧
    (loc (step (withCode [0x35])) 6 : Int) = ((loc (withCode [0x35]) 6 : Int) - 1) % 256 :=
  ⟨⟨withCode_WF _ (by decide), rfl, by decide, by decide⟩,
    ((inr_dcr_instructions (withCode [0x35]) (withCode_WF _ (by decide)) rfl 6 (by decide)).2
      (by decide)).1⟩

/-! ## Decimal adjustment -/

theorem shr4 (x : Nat) : x >>> 4 = x / 16 := Nat.shiftRight_eq_div_pow x 4

theorem exec_daa (s : CPU8085) :
    (executeInstruction 0x27 s).A = daaAcc s.A s.flags.AC s.flags.CY ∧
    (executeInstruction 0x27 s).flags.CY = daaCarry s.A s.flags.CY := by
  simp only [executeInstruction, nibble, execRow2]
  simp only [and_15, shr4, daaAcc, daaCarry]
  by_cases h1 : s.A % 16 > 9 ∨ s.flags.AC = true <;>
    by_cases h2 : s.A / 16 > 9 ∨ s.flags.CY = true ∨ (s.A / 16 ≥ 9 ∧ s.A % 16 > 9) <;>
    simp [h1, h2, updateFlags]

theorem daa_sum_table : ∀ hi : Fin 19, ∀ lo : Fin 19, daaSumOK hi.val lo.val = true := by
  decide

theorem daa_core (t : CPU8085) (a b : Nat) (ha : BcdValid a) (hb : BcdValid b)
    (hA : t.A = (a + b) % 256) (hAC : t.flags.AC = decide (a % 16 + b % 16 > 15))
    (hCY : t.flags.CY = decide (a + b > 255)) :
    (executeInstruction 0x27 t).A = bcdEnc ((bcdDec a + bcdDec b) % 100) ∧
    ((executeInstruction 0x27 t).flags.CY = true ↔ bcdDec a + bcdDec b ≥ 100) := by
  obtain ⟨ha1, ha2⟩ := ha
  obtain ⟨hb1, hb2⟩ := hb
  have h := daa_sum_table ⟨a / 16 + b / 16, by omega⟩ ⟨a % 16 + b % 16, by omega⟩
  have e1 : 16 * (a / 16 + b / 16) + (a % 16 + b % 16) = a + b := by omega
  have e2 : 10 * (a / 16 + b / 16) + (a % 16 + b % 16) = bcdDec a + bcdDec b := by
    unfold bcdDec
    omega
  simp only [daaSumOK, e1, e2, Bool.and_eq_true, decide_eq_true_eq, beq_iff_eq] at h
  obtain ⟨hacc, hcy⟩ := h
  rw [(exec_daa _).1, (exec_daa _).2, hA, hAC, hCY]
  refine ⟨hacc, ?_⟩
  rw [hcy]
  simp

theorem add_plain (s : CPU8085) (v : Nat) (hA : s.A < 256) (hv : v < 256) :
    (add s v false).1 = (s.A + v) % 256 ∧
    (add s v false).2.flags.AC = decide (s.A % 16 + v % 16 > 15) ∧
    (add s v false).2.flags.CY = decide (s.A + v > 255) ∧
    (add s v false).2.halted = s.halted ∧
    (add s v false).2.PC = s.PC ∧
    (add s v false).2.current_bank = s.current_bank ∧
    (add s v false).2.memory_banks = s.memory_banks := by
  have e : (s.A + v) % 65536 = s.A + v := by omega
  simp [add, updateFlags, and_255, and_15, Nat.mod_eq_of_lt hv, e]

theorem exec_add_reg (s : CPU8085) (r : Nat) (hr : r < 8) (hwf : WF s) :
    executeInstruction (0x80 + r) s =
      { (add s (loc s r) false).2 with A := (add s (loc s r) false).1 } := by
  have hHL := getHL_eq s hwf.hH hwf.hL
  have hb := hwf.inBounds_HL
  interval_cases r <;> simp only [loc, cur] <;>
    simp [executeInstruction, nibble, execRow8, hHL, readMem, hb]

theorem exec_adi (s : CPU8085) (hwf : WF s) :
    executeInstruction 0xC6 s =
      { (add { s with PC := (s.PC + 1) % 65536 } (cur s s.PC) false).2 with
        A := (add { s with PC := (s.PC + 1) % 65536 } (cur s s.PC) false).1 } := by
  simp [executeInstruction, nibble, execRowC, fetchByte_of s hwf.inBounds_PC]

theorem BcdValid.lt {x : Nat} (h : BcdValid x) : x < 256 := by
  obtain ⟨h1, h2⟩ := h
  omega

theorem step_then_daa (s t : CPU8085) (v daaAt : Nat) (hwf : WF s) (hrun : s.halted = false)
    (hat : daaAt < 65536) (hdaa : cur s daaAt = 0x27)
    (ha : BcdValid s.A) (hb : BcdValid v)
    (ht : t = { (add { s with PC := daaAt } v false).2 with
      A := (add { s with PC := daaAt } v false).1 }) :
    t.A = (s.A + v) % 256 ∧
    (step t).A = bcdEnc ((bcdDec s.A + bcdDec v) % 100) ∧
    ((step t).flags.CY = true ↔ bcdDec s.A + bcdDec v ≥ 100) := by
  obtain ⟨h1, h2, h3, h4, h5, h6, h7⟩ := add_plain { s with PC := daaAt } v hwf.hA hb.lt
  have htA : t.A = (s.A + v) % 256 := by rw [ht]; exact h1
  have htAC : t.flags.AC = decide (s.A % 16 + v % 16 > 15) := by rw [ht]; exact h2
  have htCY : t.flags.CY = decide (s.A + v > 255) := by rw [ht]; exact h3
  have hth : t.halted = false := by rw [ht]; exact h4.trans hrun
  have htPC : t.PC = daaAt := by rw [ht]; exact h5
  have htb : t.current_bank = s.current_bank := by rw [ht]; exact h6
  have htm : t.memory_banks = s.memory_banks := by rw [ht]; exact h7
  have hin : inBounds t.current_bank t.PC = true := by
    rw [htb, htPC]
    exact inBounds_of _ _ hwf.hbank.1 hwf.hbank.2 hat
  have hop : cur t t.PC = 0x27 := by
    rw [← hdaa]
    simp only [cur, htb, htPC, htm]
  rw [step_running t hth hin, hop]
  exact ⟨htA, daa_core _ s.A v ha hb htA htAC htCY⟩

/-- C5: from every running well-formed state whose accumulator is a valid packed-BCD byte,
executing ADD r (0x80 + r, any of the 8 addressable locations holding a valid packed-BCD
byte) or ADI (0xC6, with a valid packed-BCD operand byte) and then DAA (0x27) leaves the
accumulator equal to the packed-BCD encoding of (dec(a) + dec(b)) mod 100, with Carry set
iff dec(a) + dec(b) >= 100.  In particular 0x15 + 0x27 then DAA gives 0x42 with Carry
clear, and 0x07 + 0x04 gives 0x0B, which DAA turns into 0x11. -/
theorem add_then_daa (s : CPU8085) (hwf : WF s) (hrun : s.halted = false)
    (ha : BcdValid s.A) :
    (∀ r, r < 8 → cur s s.PC = 0x80 + r → cur s ((s.PC + 1) % 65536) = 0x27 →
      BcdValid (loc s r) →
      (step (step s)).A = bcdEnc ((bcdDec s.A + bcdDec (loc s r)) % 100) ∧
      ((step (step s)).flags.CY = true ↔ bcdDec s.A + bcdDec (loc s r) ≥ 100)) ∧
    (cur s s.PC = 0xC6 → cur s ((s.PC + 1 + 1) % 65536) = 0x27 →
      BcdValid (cur s ((s.PC + 1) % 65536)) →
      (step (step s)).A = bcdEnc ((bcdDec s.A + bcdDec (cur s ((s.PC + 1) % 65536))) % 100) ∧
      ((step (step s)).flags.CY = true ↔
        bcdDec s.A + bcdDec (cur s ((s.PC + 1) % 65536)) ≥ 100)) ∧
    (∀ r, r < 8 → cur s s.PC = 0x80 + r → cur s ((s.PC + 1) % 65536) = 0x27 →
      s.A = 0x15 → loc s r = 0x27 →
      (step (step s)).A = 0x42 ∧ (step (step s)).flags.CY = false) ∧
    (∀ r, r < 8 → cur s s.PC = 0x80 + r → cur s ((s.PC + 1) % 65536) = 0x27 →
      s.A = 0x07 → loc s r = 0x04 →
      (step s).A = 0x0B ∧ (step (step s)).A = 0x11) := by
  have hreg : ∀ r, r < 8 → cur s s.PC = 0x80 + r → cur s ((s.PC + 1) % 65536) = 0x27 →
      BcdValid (loc s r) →
      (step s).A = (s.A + loc s r) % 256 ∧
      (step (step s)).A = bcdEnc ((bcdDec s.A + bcdDec (loc s r)) % 100) ∧
      ((step (step s)).flags.CY = true ↔ bcdDec s.A + bcdDec (loc s r) ≥ 100) := by
    intro r hr hop hdaa hb
    have hs : step s = { (add { s with PC := (s.PC + 1) % 65536 } (loc s r) false).2 with
        A := (add { s with PC := (s.PC + 1) % 65536 } (loc s r) false).1 } := by
      rw [step_running s hrun hwf.inBounds_PC, hop]
      exact exec_add_reg { s with PC := (s.PC + 1) % 65536 } r hr hwf.advance
    exact step_then_daa s (step s) (loc s r) _ hwf hrun (Nat.mod_lt _ (by decide)) hdaa ha hb hs
  refine ⟨fun r hr hop hdaa hb => (hreg r hr hop hdaa hb).2, ?_, ?_, ?_⟩
  · intro hop hdaa hb
    have hs : step s =
        { (add { s with PC := (s.PC + 1 + 1) % 65536 } (cur s ((s.PC + 1) % 65536)) false).2 with
          A := (add { s with PC := (s.PC + 1 + 1) % 65536 }
            (cur s ((s.PC + 1) % 65536)) false).1 } := by
      rw [step_running s hrun hwf.inBounds_PC, hop, exec_adi _ hwf.advance]
      simp [cur]
    exact (step_then_daa s (step s) _ _ hwf hrun (Nat.mod_lt _ (by decide)) hdaa ha hb hs).2
  · intro r hr hop hdaa hA hv
    have hb : BcdValid (loc s r) := by rw [hv]; decide
    have h := (hreg r hr hop hdaa hb).2
    rw [hA, hv] at h
    refine ⟨h.1.trans (by decide), ?_⟩
    cases hc : (step (step s)).flags.CY
    · rfl
    · exact absurd (h.2.mp hc) (by decide)
  · intro r hr hop hdaa hA hv
    have hb : BcdValid (loc s r) := by rw [hv]; decide
    have h := hreg r hr hop hdaa hb
    rw [hA, hv] at h
    exact ⟨h.1.trans (by decide), h.2.1.trans (by decide)⟩

/-- Witness of C5: accumulator 0x15, `ADI 0x27` and `DAA` at address 0. -/
theorem add_then_daa_witness :
    (WF bcdDemo ∧ bcdDemo.halted = false ∧ BcdValid bcdDemo.A ∧ cur bcdDemo bcdDemo.PC = 0xC6 ∧
      cur bcdDemo ((bcdDemo.PC + 1 + 1) % 65536) = 0x27 ∧
      BcdValid (cur bcdDemo ((bcdDemo.PC + 1) % 65536))) ∧
    (step (step bcdDemo)).A =
      bcdEnc ((bcdDec bcdDemo.A + bcdDec (cur bcdDemo ((bcdDemo.PC + 1) % 65536))) % 100) :=
  have hwf : WF bcdDemo :=
    { withCode_WF [0xC6, 0x27, 0x27] (by decide) with hA := by decide }
  ⟨⟨hwf, rfl, by decide, by decide, by decide, by decide⟩,
    ((add_then_daa bcdDemo hwf rfl (by decide)).2.1 (by decide) (by decide) (by decide)).1⟩

/-! ## The stack -/

theorem shr8 (x : Nat) : x >>> 8 = x / 256 := Nat.shiftRight_eq_div_pow x 8

theorem word_of_bytes (h l : Nat) (hl : l < 256) : ((h <<< 8) ||| l) % 65536 = (h * 256 + l) % 65536 := by
  rw [shl8_or h l hl]

theorem push_eq (s : CPU8085) (v : Nat)
    (hbank : 0 ≤ s.current_bank ∧ s.current_bank < 8) :
    push s v =
      { s with
        SP := (s.SP + 65534) % 65536
        memory_banks := fun b i =>
          if b = s.current_bank ∧ i = (s.SP + 65534) % 65536 then v % 256
          else if b = s.current_bank ∧ i = (s.SP + 65535) % 65536 then v / 256 % 256
          else s.memory_banks b i } := by
  have e1 : wrap16 ((s.SP : Int) - 1) = (s.SP + 65535) % 65536 := by
    unfold wrap16
    omega
  have e2 : wrap16 (((((s.SP + 65535) % 65536 : Nat)) : Int) - 1) = (s.SP + 65534) % 65536 := by
    unfold wrap16
    omega
  have b1 : inBounds s.current_bank ((s.SP + 65535) % 65536) = true :=
    inBounds_of _ _ hbank.1 hbank.2 (Nat.mod_lt _ (by decide))
  have b2 : inBounds s.current_bank ((s.SP + 65534) % 65536) = true :=
    inBounds_of _ _ hbank.1 hbank.2 (Nat.mod_lt _ (by decide))
  have e3 : v % 65536 / 256 % 256 = v / 256 % 256 := by omega
  have e4 : v % 65536 % 256 = v % 256 := by omega
  simp only [push, writeMem, e1, e2, b1, b2, if_true, and_255, shr8, Nat.mod_mod, e3, e4]

theorem pop_eq (s : CPU8085) (hSP : s.SP < 65536)
    (hbank : 0 ≤ s.current_bank ∧ s.current_bank < 8) :
    pop s =
      (((cur s ((s.SP + 1) % 65536) <<< 8) ||| cur s s.SP) % 65536,
        { s with SP := (s.SP + 2) % 65536 }) := by
  have b1 : inBounds s.current_bank s.SP = true := inBounds_of _ _ hbank.1 hbank.2 hSP
  have b2 : inBounds s.current_bank ((s.SP + 1) % 65536) = true :=
    inBounds_of _ _ hbank.1 hbank.2 (Nat.mod_lt _ (by decide))
  have e : ((s.SP + 1) % 65536 + 1) % 65536 = (s.SP + 2) % 65536 := by omega
  simp only [pop, readMem, b1, b2, if_true, cur, e]

/-- C6: for every 16-bit value `v`, every stack pointer (0 and 1 included, where the
decrement wraps past 0) and every active bank 0..7, `push(v)` followed immediately by
`pop()` returns `v` and restores SP to its value before the push, with no access outside
the bank arrays. -/
theorem push_pop_roundtrip (s : CPU8085) (v : Nat) (hv : v < 65536) (hSP : s.SP < 65536)
    (hbank : 0 ≤ s.current_bank ∧ s.current_bank < 8) :
    (pop (push s v)).1 = v ∧ (pop (push s v)).2.SP = s.SP ∧
    (pop (push s v)).2.fault = s.fault := by
  have hp := push_eq s v hbank
  have hSP2 : (push s v).SP < 65536 := by
    rw [hp]
    exact Nat.mod_lt _ (by decide)
  have hb2 : 0 ≤ (push s v).current_bank ∧ (push s v).current_bank < 8 := by
    rw [hp]
    exact hbank
  rw [pop_eq (push s v) hSP2 hb2, hp]
  have n1 : ((s.SP + 65534) % 65536 + 1) % 65536 = (s.SP + 65535) % 65536 := by omega
  have n2 : (s.SP + 65535) % 65536 ≠ (s.SP + 65534) % 65536 := by omega
  have n3 : ((s.SP + 65534) % 65536 + 2) % 65536 = s.SP := by omega
  have hl : v % 256 < 256 := Nat.mod_lt _ (by decide)
  simp only [cur, n1, n2, n3, and_true, and_false, if_true, if_false]
  rw [word_of_bytes _ _ hl]
  omega

/-- Witness of C6: pushing 0xBEEF on the freshly built engine with SP set to 0. -/
theorem push_pop_roundtrip_witness :
    ((0xBEEF : Nat) < 65536 ∧ ({ init with SP := 0 } : CPU8085).SP < 65536 ∧
      (0 ≤ ({ init with SP := 0 } : CPU8085).current_bank ∧
        ({ init with SP := 0 } : CPU8085).current_bank < 8)) ∧
    (pop (push { init with SP := 0 } 0xBEEF)).1 = 0xBEEF ∧
    (pop (push { init with SP := 0 } 0xBEEF)).2.SP = ({ init with SP := 0 } : CPU8085).SP ∧
    (pop (push { init with SP := 0 } 0xBEEF)).2.fault = ({ init with SP := 0 } : CPU8085).fault :=
  ⟨⟨by decide, by decide, by decide⟩,
    push_pop_roundtrip { init with SP := 0 } 0xBEEF (by decide) (by decide) (by decide)⟩

/-! ## PUSH PSW and POP PSW -/

theorem flagByte_lt (f : Flags) : flagByte f < 256 := by
  unfold flagByte
  split <;> split <;> split <;> split <;> split <;> omega

theorem and_bit (x i : Nat) : (x &&& 2 ^ i ≠ 0) ↔ x / 2 ^ i % 2 = 1 := by
  rw [Nat.and_two_pow]
  have h := @Nat.testBit_to_div_mod i x
  cases hb : x.testBit i
  · rw [hb] at h
    have h2 : ¬ (x / 2 ^ i % 2 = 1) := by simpa using h.symm
    simp [h2]
  · rw [hb] at h
    have h2 : x / 2 ^ i % 2 = 1 := by simpa using h.symm
    simp [h2]

theorem and_128 (x : Nat) : (x &&& 128 ≠ 0) ↔ x / 128 % 2 = 1 := and_bit x 7

theorem and_64 (x : Nat) : (x &&& 64 ≠ 0) ↔ x / 64 % 2 = 1 := and_bit x 6

theorem and_16 (x : Nat) : (x &&& 16 ≠ 0) ↔ x / 16 % 2 = 1 := and_bit x 4

theorem and_4 (x : Nat) : (x &&& 4 ≠ 0) ↔ x / 4 % 2 = 1 := and_bit x 2

theorem and_1 (x : Nat) : (x &&& 1 ≠ 0) ↔ x % 2 = 1 := by
  have h := and_bit x 0
  simp only [Nat.pow_zero, Nat.div_one] at h
  exact h

theorem exec_push_psw (s : CPU8085) :
    executeInstruction 0xF5 s =
      push s ((s.A <<< 8) ||| (if s.flags.S then 0x80 else 0) ||| (if s.flags.Z then 0x40 else 0) |||
        (if s.flags.AC then 0x10 else 0) ||| (if s.flags.P then 0x04 else 0) ||| 0x02 |||
        (if s.flags.CY then 0x01 else 0)) := by
  simp [executeInstruction, nibble, execRowF]

theorem exec_pop_psw (s : CPU8085) :
    executeInstruction 0xF1 s =
      { (pop s).2 with
        A := (((pop s).1 >>> 8) &&& 0xFF) % 256
        flags :=
          { S := decide ((pop s).1 &&& 0x80 ≠ 0)
            Z := decide ((pop s).1 &&& 0x40 ≠ 0)
            AC := decide ((pop s).1 &&& 0x10 ≠ 0)
            P := decide ((pop s).1 &&& 0x04 ≠ 0)
            CY := decide ((pop s).1 &&& 0x01 ≠ 0) } } := by
  simp [executeInstruction, nibble, execRowF]

theorem psw_word (a : Nat) (f : Flags) :
    ((a <<< 8) ||| (if f.S then 0x80 else 0) ||| (if f.Z then 0x40 else 0) |||
        (if f.AC then 0x10 else 0) ||| (if f.P then 0x04 else 0) ||| 0x02 |||
        (if f.CY then 0x01 else 0)) = a * 256 + flagByte f := by
  have hlt := flagByte_lt f
  rw [← shl8_or a (flagByte f) hlt]
  obtain ⟨fS, fZ, fAC, fP, fCY⟩ := f
  cases fS <;> cases fZ <;> cases fAC <;> cases fP <;> cases fCY <;>
    simp [flagByte, Nat.lor_assoc]

theorem unpack_psw (a : Nat) (f : Flags) (ha : a < 256) :
    (((a * 256 + flagByte f) >>> 8) &&& 0xFF) % 256 = a ∧
    ({ S := decide ((a * 256 + flagByte f) &&& 0x80 ≠ 0)
       Z := decide ((a * 256 + flagByte f) &&& 0x40 ≠ 0)
       AC := decide ((a * 256 + flagByte f) &&& 0x10 ≠ 0)
       P := decide ((a * 256 + flagByte f) &&& 0x04 ≠ 0)
       CY := decide ((a * 256 + flagByte f) &&& 0x01 ≠ 0) } : Flags) = f := by
  have hlt := flagByte_lt f
  constructor
  · rw [shr8, and_255]
    omega
  · simp only [and_128, and_64, and_16, and_4, and_1]
    obtain ⟨fS, fZ, fAC, fP, fCY⟩ := f
    cases fS <;> cases fZ <;> cases fAC <;> cases fP <;> cases fCY <;>
      simp [flagByte] <;> omega

/-- C7: from every running well-formed state (every accumulator byte, all 32 flag
combinations), executing PUSH PSW (0xF5) and then POP PSW (0xF1), where the two pushed
bytes do not overwrite the POP opcode, gives back exactly the same accumulator, the same
five flags and the same SP. -/
theorem push_pop_psw_roundtrip (s : CPU8085) (hwf : WF s) (hrun : s.halted = false)
    (hpush : cur s s.PC = 0xF5) (hpop : cur s ((s.PC + 1) % 65536) = 0xF1)
    (hhi : (s.SP + 65535) % 65536 ≠ (s.PC + 1) % 65536)
    (hlo : (s.SP + 65534) % 65536 ≠ (s.PC + 1) % 65536) :
    (step (step s)).A = s.A ∧ (step (step s)).flags = s.flags ∧
    (step (step s)).SP = s.SP := by
  have hs : step s = push { s with PC := (s.PC + 1) % 65536 } (s.A * 256 + flagByte s.flags) := by
    rw [step_running s hrun hwf.inBounds_PC, hpush, exec_push_psw, psw_word]
  rw [push_eq _ _ hwf.advance.hbank] at hs
  have hth : (step s).halted = false := by rw [hs]; exact hrun
  have hin : inBounds (step s).current_bank (step s).PC = true := by
    rw [hs]
    exact inBounds_of _ _ hwf.hbank.1 hwf.hbank.2 (Nat.mod_lt _ (by decide))
  have hop : cur (step s) (step s).PC = 0xF1 := by
    rw [hs, ← hpop]
    simp [cur, Ne.symm hhi, Ne.symm hlo]
  rw [step_running _ hth hin, hop, exec_pop_psw]
  have hSP2 : ({ step s with PC := ((step s).PC + 1) % 65536 } : CPU8085).SP < 65536 := by
    rw [hs]
    exact Nat.mod_lt _ (by decide)
  have hb2 : 0 ≤ ({ step s with PC := ((step s).PC + 1) % 65536 } : CPU8085).current_bank ∧
      ({ step s with PC := ((step s).PC + 1) % 65536 } : CPU8085).current_bank < 8 := by
    rw [hs]
    exact hwf.hbank
  rw [pop_eq _ hSP2 hb2, hs]
  have hA := hwf.hA
  have hSP := hwf.hSP
  have hlt := flagByte_lt s.flags
  have n1 : ((s.SP + 65534) % 65536 + 1) % 65536 = (s.SP + 65535) % 65536 := by omega
  have n2 : (s.SP + 65535) % 65536 ≠ (s.SP + 65534) % 65536 := by omega
  have n3 : ((s.SP + 65534) % 65536 + 2) % 65536 = s.SP := by omega
  have hl : (s.A * 256 + flagByte s.flags) % 256 < 256 := Nat.mod_lt _ (by decide)
  have hw : ((s.A * 256 + flagByte s.flags) / 256 % 256 * 256 +
      (s.A * 256 + flagByte s.flags) % 256) % 65536 = s.A * 256 + flagByte s.flags := by omega
  simp only [cur, n1, n2, n3, and_true, and_false, if_true, if_false, word_of_bytes _ _ hl, hw]
  exact ⟨(unpack_psw s.A s.flags hA).1, (unpack_psw s.A s.flags hA).2⟩

/-- Witness of C7: the engine after construction with `PUSH PSW`, `POP PSW` at address 0
(SP is 0xFFFF, so the PSW goes to 0xFFFE and 0xFFFD). -/
theorem push_pop_psw_roundtrip_witness :
    (WF (withCode [0xF5, 0xF1]) ∧ (withCode [0xF5, 0xF1]).halted = false ∧
      cur (withCode [0xF5, 0xF1]) (withCode [0xF5, 0xF1]).PC = 0xF5 ∧
      cur (withCode [0xF5, 0xF1]) (((withCode [0xF5, 0xF1]).PC + 1) % 65536) = 0xF1 ∧
      ((withCode [0xF5, 0xF1]).SP + 65535) % 65536 ≠ ((withCode [0xF5, 0xF1]).PC + 1) % 65536 ∧
      ((withCode [0xF5, 0xF1]).SP + 65534) % 65536 ≠ ((withCode [0xF5, 0xF1]).PC + 1) % 65536) ∧
    (step (step (withCode [0xF5, 0xF1]))).A = (withCode [0xF5, 0xF1]).A ∧
    (step (step (withCode [0xF5, 0xF1]))).flags = (withCode [0xF5, 0xF1]).flags ∧
    (step (step (withCode [0xF5, 0xF1]))).SP = (withCode [0xF5, 0xF1]).SP :=
  ⟨⟨withCode_WF _ (by decide), rfl, by decide, by decide, by decide, by decide⟩,
    push_pop_psw_roundtrip (withCode [0xF5, 0xF1]) (withCode_WF _ (by decide)) rfl
      (by decide) (by decide) (by decide) (by decide)⟩

/-! ## Banked memory -/

/-- C8: for all banks `n ≠ m` in 0..7, every 16-bit address `a` and byte `v`: with bank
`n` active, `setMemory(a, v)` changes no byte of any bank other than `n`; after
`switchBank(m)`, `getMemory(a)` returns the byte bank `m` held at `a` before the write;
after `switchBank(n)` it returns `v` again.  No access leaves the bank arrays. -/
theorem bank_isolation (s : CPU8085) (n m : Int) (a v : Nat)
    (hn : 0 ≤ n ∧ n < 8) (hm : 0 ≤ m ∧ m < 8) (hnm : n ≠ m)
    (ha : a < 65536) (hv : v < 256) (hcur : s.current_bank = n) :
    (∀ b i, b ≠ n → (setMemory s a v).memory_banks b i = s.memory_banks b i) ∧
    (getMemory (switchBank (setMemory s a v) m) a).1 = s.memory_banks m a ∧
    (getMemory (switchBank (switchBank (setMemory s a v) m) n) a).1 = v ∧
    (getMemory (switchBank (switchBank (setMemory s a v) m) n) a).2.fault = s.fault := by
  have hbn : inBounds n a = true := inBounds_of _ _ hn.1 hn.2 ha
  have hbm : inBounds m a = true := inBounds_of _ _ hm.1 hm.2 ha
  have hset : setMemory s a v =
      { s with memory_banks := fun b i => if b = n ∧ i = a then v else s.memory_banks b i } := by
    simp [setMemory, writeMem, hcur, hbn, Nat.mod_eq_of_lt ha, Nat.mod_eq_of_lt hv]
  have hsm : ∀ t : CPU8085, switchBank t m = { t with current_bank := m } := by
    intro t
    simp [switchBank, NUM_BANKS, hm.1, hm.2]
  have hsn : ∀ t : CPU8085, switchBank t n = { t with current_bank := n } := by
    intro t
    simp [switchBank, NUM_BANKS, hn.1, hn.2]
  rw [hsn, hsm, hset]
  refine ⟨?_, ?_, ?_, ?_⟩
  · intro b i hb
    simp [hb]
  · simp [getMemory, readMem, hbm, Nat.mod_eq_of_lt ha, Ne.symm hnm]
  · simp [getMemory, readMem, hbn, Nat.mod_eq_of_lt ha]
  · simp [getMemory, readMem, hbn, Nat.mod_eq_of_lt ha]

/-- Witness of C8: writing 0x5A at address 0x1234 of bank 2 of the freshly built engine,
then looking at bank 5. -/
theorem bank_isolation_witness :
    (((0 : Int) ≤ 2 ∧ (2 : Int) < 8) ∧ ((0 : Int) ≤ 5 ∧ (5 : Int) < 8) ∧ (2 : Int) ≠ 5 ∧
      0x1234 < 65536 ∧ 0x5A < 256 ∧ (switchBank init 2).current_bank = 2) ∧
    (getMemory (switchBank (setMemory (switchBank init 2) 0x1234 0x5A) 5) 0x1234).1 =
      (switchBank init 2).memory_banks 5 0x1234 ∧
    (getMemory (switchBank (switchBank (setMemory (switchBank init 2) 0x1234 0x5A) 5) 2)
      0x1234).1 = 0x5A :=
  have h := bank_isolation (switchBank init 2) 2 5 0x1234 0x5A (by decide) (by decide)
    (by decide) (by decide) (by decide) (by decide)
  ⟨⟨by decide, by decide, by decide, by decide, by decide, by decide⟩, h.2.1, h.2.2.1⟩

/-- C9: from every running well-formed state, one step whose opcode is OUT (0xD3) with port
operand 254 sets the current bank to `A & 0x07` and PC to PC + 2 and changes nothing else:
no register, no flag, no memory byte, and the write slot is not invoked; the next opcode
is fetched from the newly selected bank.  With A = 3 the current bank becomes 3 and reads
return the bytes of bank 3 until the bank is switched back. -/
theorem out_254_switches_bank (s : CPU8085) (hwf : WF s) (hrun : s.halted = false)
    (hop : cur s s.PC = 0xD3) (hport : cur s ((s.PC + 1) % 65536) = 254) :
    step s =
      { s with PC := (s.PC + 2) % 65536, current_bank := ((s.A &&& 0x07 : Nat) : Int) } ∧
    (step s).ioWritten = s.ioWritten ∧
    (step s).memory_banks = s.memory_banks ∧
    (fetchByte (step s)).1 = s.memory_banks ((s.A &&& 0x07 : Nat) : Int) ((s.PC + 2) % 65536) ∧
    (fetchByte (step s)).2.fault = s.fault ∧
    (s.A = 3 → (step s).current_bank = 3 ∧
      (∀ a, a < 65536 → (getMemory (step s) a).1 = s.memory_banks 3 a) ∧
      (∀ a, a < 65536 → (getMemory (switchBank (step s) s.current_bank) a).1 = cur s a)) := by
  have h7 : s.A &&& 7 < 8 := by
    rw [and_7]
    omega
  have hb0 : (0 : Int) ≤ ((s.A &&& 7 : Nat) : Int) := Int.ofNat_nonneg _
  have hb8 : ((s.A &&& 7 : Nat) : Int) < 8 := by omega
  have e2 : ((s.PC + 1) % 65536 + 1) % 65536 = (s.PC + 2) % 65536 := by omega
  have hf : fetchByte { s with PC := (s.PC + 1) % 65536 } =
      (254, { s with PC := (s.PC + 2) % 65536 }) := by
    rw [fetchByte_of _ hwf.advance.inBounds_PC]
    simp only [cur, e2] at hport ⊢
    rw [hport]
  have hs : step s =
      { s with PC := (s.PC + 2) % 65536, current_bank := ((s.A &&& 0x07 : Nat) : Int) } := by
    rw [step_running s hrun hwf.inBounds_PC, hop]
    simp [executeInstruction, nibble, execRowD, hf, switchBank, NUM_BANKS, hb8]
  have hin : inBounds ((s.A &&& 7 : Nat) : Int) ((s.PC + 2) % 65536) = true :=
    inBounds_of _ _ hb0 hb8 (Nat.mod_lt _ (by decide))
  refine ⟨hs, ?_, ?_, ?_, ?_, ?_⟩
  · rw [hs]
  · rw [hs]
  · rw [hs]
    simp [fetchByte, readMem, hin]
  · rw [hs]
    simp [fetchByte, readMem, hin]
  · intro hA
    have e3 : ((3 &&& 7 : Nat) : Int) = 3 := by decide
    rw [hs, hA]
    refine ⟨e3, ?_, ?_⟩
    · intro a ha
      have hia : inBounds 3 a = true := inBounds_of _ _ (by decide) (by decide) ha
      simp [getMemory, readMem, e3, hia, Nat.mod_eq_of_lt ha]
    · intro a ha
      have hia : inBounds s.current_bank a = true :=
        inBounds_of _ _ hwf.hbank.1 hwf.hbank.2 ha
      simp [getMemory, readMem, switchBank, NUM_BANKS, hwf.hbank.1, hwf.hbank.2, hia,
        Nat.mod_eq_of_lt ha, cur]

/-- Witness of C9: accumulator 3 and `OUT 254` at address 0 of bank 0. -/
theorem out_254_switches_bank_witness :
    (WF { withCode [0xD3, 254] with A := 3 } ∧
      ({ withCode [0xD3, 254] with A := 3 } : CPU8085).halted = false ∧
      cur { withCode [0xD3, 254] with A := 3 }
        ({ withCode [0xD3, 254] with A := 3 } : CPU8085).PC = 0xD3 ∧
      cur { withCode [0xD3, 254] with A := 3 }
        ((({ withCode [0xD3, 254] with A := 3 } : CPU8085).PC + 1) % 65536) = 254 ∧
      ({ withCode [0xD3, 254] with A := 3 } : CPU8085).A = 3) ∧
    (step { withCode [0xD3, 254] with A := 3 }).current_bank = 3 :=
  have hwf : WF { withCode [0xD3, 254] with A := 3 } :=
    { withCode_WF [0xD3, 254] (by decide) with hA := by decide }
  ⟨⟨hwf, rfl, by decide, by decide, rfl⟩,
    ((out_254_switches_bank _ hwf rfl (by decide) (by decide)).2.2.2.2.2 rfl).1⟩

/-! ## The current-bank index -/

theorem readMem_bank (s : CPU8085) (b : Int) (i : Nat) :
    (readMem s b i).2.current_bank = s.current_bank := by
  unfold readMem
  split <;> rfl

theorem writeMem_bank (s : CPU8085) (b : Int) (i v : Nat) :
    (writeMem s b i v).current_bank = s.current_bank := by
  unfold writeMem
  split <;> rfl

theorem fetchByte_bank (s : CPU8085) : (fetchByte s).2.current_bank = s.current_bank := by
  simp [fetchByte, readMem_bank]

theorem fetchWord_bank (s : CPU8085) : (fetchWord s).2.current_bank = s.current_bank := by
  simp [fetchWord, fetchByte_bank]

theorem updateFlags_bank (s : CPU8085) (x : Nat) :
    (updateFlags s x).current_bank = s.current_bank := rfl

theorem updateFlagsLogical_bank (s : CPU8085) (x : Nat) :
    (updateFlagsLogical s x).current_bank = s.current_bank := rfl

theorem add_bank (s : CPU8085) (v : Nat) (c : Bool) :
    (add s v c).2.current_bank = s.current_bank := rfl

theorem sub_bank (s : CPU8085) (v : Nat) (c : Bool) :
    (sub s v c).2.current_bank = s.current_bank := rfl

theorem push_bank (s : CPU8085) (v : Nat) : (push s v).current_bank = s.current_bank := by
  simp [push, writeMem_bank]

theorem pop_bank (s : CPU8085) : (pop s).2.current_bank = s.current_bank := by
  simp [pop, readMem_bank]

theorem setBC_bank (s : CPU8085) (v : Nat) : (setBC s v).current_bank = s.current_bank := rfl

theorem setDE_bank (s : CPU8085) (v : Nat) : (setDE s v).current_bank = s.current_bank := rfl

theorem setHL_bank (s : CPU8085) (v : Nat) : (setHL s v).current_bank = s.current_bank := rfl

theorem execRow0_bank (m : Int) (s : CPU8085) (i : Nibble) :
    (execRow0 m s i).current_bank = s.current_bank := by
  cases i <;>
    simp [execRow0, readMem_bank, writeMem_bank, fetchByte_bank, fetchWord_bank,
      updateFlags_bank, setBC_bank, setDE_bank, setHL_bank]

theorem execRow1_bank (m : Int) (s : CPU8085) (i : Nibble) :
    (execRow1 m s i).current_bank = s.current_bank := by
  cases i <;>
    simp [execRow1, readMem_bank, writeMem_bank, fetchByte_bank, fetchWord_bank,
      updateFlags_bank, setBC_bank, setDE_bank, setHL_bank]

theorem execRow2_bank (m : Int) (s : CPU8085) (i : Nibble) :
    (execRow2 m s i).current_bank = s.current_bank := by
  cases i <;>
    simp [execRow2, readMem_bank, writeMem_bank, fetchByte_bank, fetchWord_bank,
      updateFlags_bank, setBC_bank, setDE_bank, setHL_bank]
  split <;> rfl

theorem execRow3_bank (m : Int) (s : CPU8085) (i : Nibble) :
    (execRow3 m s i).current_bank = s.current_bank := by
  cases i <;>
    simp [execRow3, readMem_bank, writeMem_bank, fetchByte_bank, fetchWord_bank,
      updateFlags_bank, setBC_bank, setDE_bank, setHL_bank]

theorem execRow4_bank (m : Int) (s : CPU8085) (i : Nibble) :
    (execRow4 m s i).current_bank = s.current_bank := by
  cases i <;> simp [execRow4, readMem_bank, writeMem_bank]

theorem execRow5_bank (m : Int) (s : CPU8085) (i : Nibble) :
    (execRow5 m s i).current_bank = s.current_bank := by
  cases i <;> simp [execRow5, readMem_bank, writeMem_bank]

theorem execRow6_bank (m : Int) (s : CPU8085) (i : Nibble) :
    (execRow6 m s i).current_bank = s.current_bank := by
  cases i <;> simp [execRow6, readMem_bank, writeMem_bank]

theorem execRow7_bank (m : Int) (s : CPU8085) (i : Nibble) :
    (execRow7 m s i).current_bank = s.current_bank := by
  cases i <;> simp [execRow7, readMem_bank, writeMem_bank]

theorem execRow8_bank (m : Int) (s : CPU8085) (i : Nibble) :
    (execRow8 m s i).current_bank = s.current_bank := by
  cases i <;> simp [execRow8, readMem_bank, add_bank]

theorem execRow9_bank (m : Int) (s : CPU8085) (i : Nibble) :
    (execRow9 m s i).current_bank = s.current_bank := by
  cases i <;> simp [execRow9, readMem_bank, sub_bank]

theorem execRowA_bank (m : Int) (s : CPU8085) (i : Nibble) :
    (execRowA m s i).current_bank = s.current_bank := by
  cases i <;> simp [execRowA, readMem_bank, updateFlagsLogical_bank]

theorem execRowB_bank (m : Int) (s : CPU8085) (i : Nibble) :
    (execRowB m s i).current_bank = s.current_bank := by
  cases i <;> simp [execRowB, readMem_bank, updateFlagsLogical_bank, sub_bank]

theorem execRowC_bank (s : CPU8085) (i : Nibble) :
    (execRowC s i).current_bank = s.current_bank := by
  cases i <;>
    simp [execRowC, fetchByte_bank, fetchWord_bank, push_bank, pop_bank, add_bank, setBC_bank] <;>
    split <;> simp [fetchWord_bank, push_bank, pop_bank]

theorem switchBank_range (s : CPU8085) (n : Int)
    (h : 0 ≤ s.current_bank ∧ s.current_bank < 8) :
    0 ≤ (switchBank s n).current_bank ∧ (switchBank s n).current_bank < 8 := by
  unfold switchBank NUM_BANKS
  split
  · assumption
  · exact h

theorem execRowD_bank (s : CPU8085) (i : Nibble)
    (h : 0 ≤ s.current_bank ∧ s.current_bank < 8) :
    0 ≤ (execRowD s i).current_bank ∧ (execRowD s i).current_bank < 8 := by
  have hf : 0 ≤ (fetchByte s).2.current_bank ∧ (fetchByte s).2.current_bank < 8 := by
    rw [fetchByte_bank]
    exact h
  cases i
  case n3 =>
    simp only [execRowD]
    split
    · exact switchBank_range _ _ hf
    · split
      · exact hf
      · exact hf
  all_goals
    simp [execRowD, fetchByte_bank, fetchWord_bank, push_bank, pop_bank, sub_bank, setDE_bank,
      h]
  all_goals
    split <;> simp [fetchByte_bank, fetchWord_bank, push_bank, pop_bank, h]

theorem execRowE_bank (m : Int) (s : CPU8085) (i : Nibble) :
    (execRowE m s i).current_bank = s.current_bank := by
  cases i <;>
    simp [execRowE, fetchByte_bank, fetchWord_bank, push_bank, pop_bank, setHL_bank,
      updateFlagsLogical_bank, readMem_bank, writeMem_bank] <;>
    split <;> simp [fetchWord_bank, push_bank, pop_bank]

theorem execRowF_bank (s : CPU8085) (i : Nibble) :
    (execRowF s i).current_bank = s.current_bank := by
  cases i <;>
    simp [execRowF, fetchByte_bank, fetchWord_bank, push_bank, pop_bank,
      updateFlagsLogical_bank, sub_bank] <;>
    split <;> simp [fetchWord_bank, push_bank, pop_bank]

theorem executeInstruction_bank (opcode : Nat) (s : CPU8085)
    (h : 0 ≤ s.current_bank ∧ s.current_bank < 8) :
    0 ≤ (executeInstruction opcode s).current_bank ∧
      (executeInstruction opcode s).current_bank < 8 := by
  unfold executeInstruction
  simp only []
  split
  · rw [execRow0_bank]; exact h
  · rw [execRow1_bank]; exact h
  · rw [execRow2_bank]; exact h
  · rw [execRow3_bank]; exact h
  · rw [execRow4_bank]; exact h
  · rw [execRow5_bank]; exact h
  · rw [execRow6_bank]; exact h
  · rw [execRow7_bank]; exact h
  · rw [execRow8_bank]; exact h
  · rw [execRow9_bank]; exact h
  · rw [execRowA_bank]; exact h
  · rw [execRowB_bank]; exact h
  · rw [execRowC_bank]; exact h
  · exact execRowD_bank _ _ h
  · rw [execRowE_bank]; exact h
  · rw [execRowF_bank]; exact h

/-- C10: the current-bank index stays in [0,7]: it is 0 after construction and after
`reset`; `switchBank(n)` sets it to `n` when `0 <= n < 8` and leaves the whole engine state
unchanged for every other integer `n`; and no `step` that stays inside the bank arrays
(`fault` clear before and after), whatever the opcode and the state, takes it out of
[0,7]. -/
theorem current_bank_in_range :
    init.current_bank = 0 ∧
    (∀ s : CPU8085, (reset s).current_bank = 0) ∧
    (∀ (s : CPU8085) (n : Int), 0 ≤ n → n < 8 → (switchBank s n).current_bank = n) ∧
    (∀ (s : CPU8085) (n : Int), (n < 0 ∨ 8 ≤ n) → switchBank s n = s) ∧
    (∀ s : CPU8085, 0 ≤ s.current_bank ∧ s.current_bank < 8 →
      s.fault = false → (step s).fault = false →
      0 ≤ (step s).current_bank ∧ (step s).current_bank < 8) := by
  refine ⟨rfl, fun _ => rfl, ?_, ?_, ?_⟩
  · intro s n h0 h8
    simp [switchBank, NUM_BANKS, h0, h8]
  · intro s n h
    have hn : ¬ (0 ≤ n ∧ n < 8) := by omega
    simp [switchBank, NUM_BANKS, hn]
  · intro s h _ _
    have hs : step s =
        if s.halted then s else executeInstruction (fetchByte s).1 (fetchByte s).2 := rfl
    rw [hs]
    split
    · exact h
    · exact executeInstruction_bank _ _ (by rw [fetchByte_bank]; exact h)

/-- Witness of C10: bank 7 is accepted, bank 8 is ignored, and `OUT 254` with A = 0x0D, a
step that stays inside the bank arrays, leaves bank 5 active. -/
theorem current_bank_in_range_witness :
    ((0 : Int) ≤ 7 ∧ (7 : Int) < 8 ∧ ((8 : Int) < 0 ∨ (8 : Int) ≤ 8) ∧
      (0 ≤ ({ withCode [0xD3, 254] with A := 0x0D } : CPU8085).current_bank ∧
        ({ withCode [0xD3, 254] with A := 0x0D } : CPU8085).current_bank < 8) ∧
      ({ withCode [0xD3, 254] with A := 0x0D } : CPU8085).fault = false ∧
      (step { withCode [0xD3, 254] with A := 0x0D }).fault = false) ∧
    (switchBank init 7).current_bank = 7 ∧ switchBank init 8 = init ∧
    (0 ≤ (step { withCode [0xD3, 254] with A := 0x0D }).current_bank ∧
      (step { withCode [0xD3, 254] with A := 0x0D }).current_bank < 8) ∧
    (step { withCode [0xD3, 254] with A := 0x0D }).current_bank = 5 :=
  have hf : (step { withCode [0xD3, 254] with A := 0x0D }).fault = false := by
    simp [withCode, init, reset, step, fetchByte, readMem, inBounds, NUM_BANKS,
      executeInstruction, nibble, execRowD, switchBank]
    decide
  have hb : (step { withCode [0xD3, 254] with A := 0x0D }).current_bank = 5 := by
    simp [withCode, init, reset, step, fetchByte, readMem, inBounds, NUM_BANKS,
      executeInstruction, nibble, execRowD, switchBank]
    decide
  ⟨⟨by decide, by decide, by decide, by decide, rfl, hf⟩,
    current_bank_in_range.2.2.1 init 7 (by decide) (by decide),
    current_bank_in_range.2.2.2.1 init 8 (by decide),
    current_bank_in_range.2.2.2.2 _ (by decide) rfl hf, hb⟩

/-! ## Halting, reset and the opcodes without effect -/

theorem step_halted (s : CPU8085) (h : s.halted = true) : step s = s := by
  simp [step, h]

theorem iterate_step_halted (n : Nat) (s : CPU8085) (h : s.halted = true) :
    step^[n] s = s := by
  induction n with
  | zero => rfl
  | succ k ih => rw [Function.iterate_succ_apply, step_halted s h, ih]

theorem readMem_halted (s : CPU8085) (b : Int) (i : Nat) :
    (readMem s b i).2.halted = s.halted := by
  unfold readMem
  split <;> rfl

theorem writeMem_halted (s : CPU8085) (b : Int) (i v : Nat) :
    (writeMem s b i v).halted = s.halted := by
  unfold writeMem
  split <;> rfl

theorem copyBytes_halted (program : List Nat) (s : CPU8085) (b : Int) (start : Nat) :
    (copyBytes s b start program).halted = s.halted := by
  induction program generalizing s start with
  | nil => rfl
  | cons x rest ih =>
    simp only [copyBytes]
    rw [ih, writeMem_halted]

/-- C11: when `halted` is set, `step` leaves every component of the state unchanged;
executing opcode 0x76 from a running state sets `halted` and changes nothing else except
PC, which becomes PC + 1.  Hence after HLT the state stays fixed under any number of
further steps; `reset` clears `halted`, and none of `setMemory`, `setMemoryInBank`,
`switchBank`, `loadProgram` changes it. -/
theorem halt_is_terminal (s : CPU8085) :
    (s.halted = true → step s = s) ∧
    (s.halted = false → 0 ≤ s.current_bank → s.current_bank < 8 → s.PC < 65536 →
      cur s s.PC = 0x76 →
      step s = { s with PC := (s.PC + 1) % 65536, halted := true } ∧
      ∀ n, step^[n] (step s) = step s) ∧
    (∀ n, s.halted = true → step^[n] s = s) ∧
    (reset s).halted = false ∧
    (∀ a v, (setMemory s a v).halted = s.halted) ∧
    (∀ b a v, (setMemoryInBank s b a v).halted = s.halted) ∧
    (∀ b, (switchBank s b).halted = s.halted) ∧
    (∀ program start, (loadProgram s program start).halted = s.halted) := by
  refine ⟨step_halted s, ?_, fun n h => iterate_step_halted n s h, rfl, ?_, ?_, ?_, ?_⟩
  · intro hrun h0 h8 hPC hop
    have hs : step s = { s with PC := (s.PC + 1) % 65536, halted := true } := by
      rw [step_running s hrun (inBounds_of _ _ h0 h8 hPC), hop]
      simp [executeInstruction, nibble, execRow7]
    refine ⟨hs, fun n => iterate_step_halted n _ ?_⟩
    rw [hs]
  · intro a v
    exact writeMem_halted _ _ _ _
  · intro b a v
    unfold setMemoryInBank
    split
    · exact writeMem_halted _ _ _ _
    · rfl
  · intro b
    unfold switchBank
    split <;> rfl
  · intro program start
    exact copyBytes_halted _ _ _ _

/-- Witness of C11: the engine after construction with `HLT` at address 0. -/
theorem halt_is_terminal_witness :
    ((withCode [0x76]).halted = false ∧ 0 ≤ (withCode [0x76]).current_bank ∧
      (withCode [0x76]).current_bank < 8 ∧ (withCode [0x76]).PC < 65536 ∧
      cur (withCode [0x76]) (withCode [0x76]).PC = 0x76) ∧
    step (withCode [0x76]) =
      { withCode [0x76] with PC := ((withCode [0x76]).PC + 1) % 65536, halted := true } ∧
    ∀ n, step^[n] (step (withCode [0x76])) = step (withCode [0x76]) :=
  ⟨⟨rfl, by decide, by decide, by decide, by decide⟩,
    (halt_is_terminal (withCode [0x76])).2.1 rfl (by decide) (by decide) (by decide)
      (by decide)⟩

/-- C12: from any prior state, `reset` gives A = B = C = D = E = H = L = 0, SP = 0xFFFF,
PC = 0, all five flags false, every byte of all 8 banks 0, current bank 0, `halted` and
`interruptEnabled` false; these are the values the constructor leaves, they do not depend
on the prior state, and `reset` is idempotent. -/
theorem reset_gives_construction_state (s : CPU8085) :
    ((reset s).A = 0 ∧ (reset s).B = 0 ∧ (reset s).C = 0 ∧ (reset s).D = 0 ∧
      (reset s).E = 0 ∧ (reset s).H = 0 ∧ (reset s).L = 0) ∧
    (reset s).SP = 0xFFFF ∧ (reset s).PC = 0x0000 ∧
    (reset s).flags = { S := false, Z := false, AC := false, P := false, CY := false } ∧
    (∀ b i, 0 ≤ b → b < 8 → i < 65536 → (reset s).memory_banks b i = 0) ∧
    (reset s).current_bank = 0 ∧ (reset s).halted = false ∧
    (reset s).interruptEnabled = false ∧
    ((reset s).A = init.A ∧ (reset s).B = init.B ∧ (reset s).C = init.C ∧
      (reset s).D = init.D ∧ (reset s).E = init.E ∧ (reset s).H = init.H ∧
      (reset s).L = init.L ∧ (reset s).SP = init.SP ∧ (reset s).PC = init.PC ∧
      (reset s).flags = init.flags ∧
      (∀ b i, 0 ≤ b → b < 8 → i < 65536 →
        (reset s).memory_banks b i = init.memory_banks b i) ∧
      (reset s).current_bank = init.current_bank ∧ (reset s).halted = init.halted ∧
      (reset s).interruptEnabled = init.interruptEnabled) ∧
    reset (reset s) = reset s := by
  have hm : ∀ b i, 0 ≤ b → b < 8 → i < 65536 → (reset s).memory_banks b i = 0 := by
    intro b i h0 h8 hi
    simp [reset, NUM_BANKS, h0, h8, hi]
  have hi : ∀ b i, init.memory_banks b i = 0 := by
    intro b i
    simp [init, reset]
  refine ⟨⟨rfl, rfl, rfl, rfl, rfl, rfl, rfl⟩, rfl, rfl, rfl, hm, rfl, rfl, rfl,
    ⟨rfl, rfl, rfl, rfl, rfl, rfl, rfl, rfl, rfl, rfl, ?_, rfl, rfl, rfl⟩, ?_⟩
  · intro b i h0 h8 h
    rw [hm b i h0 h8 h, hi]
  · have hf : (reset (reset s)).memory_banks = (reset s).memory_banks := by
      funext b i
      simp only [reset]
      split <;> rfl
    simp only [reset] at hf ⊢
    rw [hf]

/-- Witness of C12: `reset` of an engine whose bank 3 is filled with 0xAA clears the byte at
address 0x1234 of bank 3. -/
theorem reset_gives_construction_state_witness :
    ((0 : Int) ≤ 3 ∧ (3 : Int) < 8 ∧ 0x1234 < 65536) ∧
    (reset { init with memory_banks := fun _ _ => 0xAA }).memory_banks 3 0x1234 = 0 :=
  ⟨⟨by decide, by decide, by decide⟩,
    (reset_gives_construction_state { init with memory_banks := fun _ _ => 0xAA }).2.2.2.2.1
      3 0x1234 (by decide) (by decide) (by decide)⟩

/-- C13: for NOP (0x00) and each of the undocumented opcodes 0x08, 0x10, 0x18, 0x28, 0x38,
0xCB, 0xD9, 0xDD, 0xED and 0xFD, one step from any running state changes only PC, to
(PC + 1) mod 65536: no operand byte is consumed and registers, flags, SP, memory, the
current bank, `halted` and `interruptEnabled` are unchanged. -/
theorem undocumented_opcodes_are_nops (s : CPU8085) (op : Nat)
    (hop : op ∈ [0x00, 0x08, 0x10, 0x18, 0x28, 0x38, 0xCB, 0xD9, 0xDD, 0xED, 0xFD])
    (hrun : s.halted = false) (hbank : 0 ≤ s.current_bank ∧ s.current_bank < 8)
    (hPC : s.PC < 65536) (hcode : cur s s.PC = op) :
    step s = { s with PC := (s.PC + 1) % 65536 } := by
  rw [step_running s hrun (inBounds_of _ _ hbank.1 hbank.2 hPC), hcode]
  simp only [List.mem_cons, List.mem_singleton, List.not_mem_nil, or_false] at hop
  rcases hop with h | h | h | h | h | h | h | h | h | h | h <;> subst h
  · simp [executeInstruction, nibble, execRow0]
  · simp [executeInstruction, nibble, execRow0]
  · simp [executeInstruction, nibble, execRow1]
  · simp [executeInstruction, nibble, execRow1]
  · simp [executeInstruction, nibble, execRow2]
  · simp [executeInstruction, nibble, execRow3]
  · simp [executeInstruction, nibble, execRowC]
  · simp [executeInstruction, nibble, execRowD]
  · simp [executeInstruction, nibble, execRowD]
  · simp [executeInstruction, nibble, execRowE]
  · simp [executeInstruction, nibble, execRowF]

/-- Witness of C13: the engine after construction with the undocumented opcode 0xD9 at
address 0. -/
theorem undocumented_opcodes_are_nops_witness :
    (0xD9 ∈ [0x00, 0x08, 0x10, 0x18, 0x28, 0x38, 0xCB, 0xD9, 0xDD, 0xED, 0xFD] ∧
      (withCode [0xD9]).halted = false ∧
      (0 ≤ (withCode [0xD9]).current_bank ∧ (withCode [0xD9]).current_bank < 8) ∧
      (withCode [0xD9]).PC < 65536 ∧ cur (withCode [0xD9]) (withCode [0xD9]).PC = 0xD9) ∧
    step (withCode [0xD9]) = { withCode [0xD9] with PC := ((withCode [0xD9]).PC + 1) % 65536 } :=
  ⟨⟨by decide, rfl, by decide, by decide, by decide⟩,
    undocumented_opcodes_are_nops (withCode [0xD9]) 0xD9 (by decide) rfl (by decide)
      (by decide) (by decide)⟩

theorem fetch_operand (s : CPU8085) (hbank : 0 ≤ s.current_bank ∧ s.current_bank < 8) :
    fetchByte { s with PC := (s.PC + 1) % 65536 } =
      (cur s ((s.PC + 1) % 65536), { s with PC := (s.PC + 2) % 65536 }) := by
  have hin : inBounds s.current_bank ((s.PC + 1) % 65536) = true :=
    inBounds_of _ _ hbank.1 hbank.2 (Nat.mod_lt _ (by decide))
  have e2 : ((s.PC + 1) % 65536 + 1) % 65536 = (s.PC + 2) % 65536 := by omega
  simp [fetchByte, readMem, hin, cur, e2]

/-- C14: with no read slot registered, one step whose opcode is IN (0xDB), with any port
operand, leaves A = 0xFF and changes nothing else except PC, which becomes PC + 2; with no
write slot registered, one step whose opcode is OUT (0xD3) with any port operand other
than 254 changes nothing except PC, which becomes PC + 2. -/
theorem io_without_slots (s : CPU8085) (hrun : s.halted = false)
    (hbank : 0 ≤ s.current_bank ∧ s.current_bank < 8) (hPC : s.PC < 65536) :
    (s.ioReadCallback = none → cur s s.PC = 0xDB →
      step s = { s with A := 0xFF, PC := (s.PC + 2) % 65536 }) ∧
    (s.ioWriteCallback = false → cur s s.PC = 0xD3 → cur s ((s.PC + 1) % 65536) ≠ 254 →
      step s = { s with PC := (s.PC + 2) % 65536 }) := by
  have hf := fetch_operand s hbank
  constructor
  · intro hcb hop
    rw [step_running s hrun (inBounds_of _ _ hbank.1 hbank.2 hPC), hop]
    simp [executeInstruction, nibble, execRowD, hf]
    simp [hcb]
  · intro hcb hop hport
    rw [step_running s hrun (inBounds_of _ _ hbank.1 hbank.2 hPC), hop]
    simp [executeInstruction, nibble, execRowD, hf]
    simp [hcb, hport]

/-- Witness of C14: the engine after construction (no slot registered) with `IN 7` at
address 0. -/
theorem io_without_slots_witness :
    ((withCode [0xDB, 7]).halted = false ∧
      (0 ≤ (withCode [0xDB, 7]).current_bank ∧ (withCode [0xDB, 7]).current_bank < 8) ∧
      (withCode [0xDB, 7]).PC < 65536 ∧ (withCode [0xDB, 7]).ioReadCallback = none ∧
      cur (withCode [0xDB, 7]) (withCode [0xDB, 7]).PC = 0xDB) ∧
    step (withCode [0xDB, 7]) =
      { withCode [0xDB, 7] with A := 0xFF, PC := ((withCode [0xDB, 7]).PC + 2) % 65536 } :=
  ⟨⟨rfl, by decide, by decide, rfl, by decide⟩,
    (io_without_slots (withCode [0xDB, 7]) rfl (by decide) (by decide)).1 rfl (by decide)⟩

/-! ## A program run -/

/-- C15: from the reset state, with the bytes [0x3E,0x05,0x06,0x03,0x80,0x76] loaded at
address 0 of the active bank and PC = 0, the engine is still running after one, two and
three steps, and the fourth step halts it with A = 0x08, B = 0x03, Z = false, S = false,
CY = false and PC = 6. -/
theorem demo_program_run (s : CPU8085) :
    (demoLoaded s).halted = false ∧
    (step (demoLoaded s)).halted = false ∧
    (step (step (demoLoaded s))).halted = false ∧
    (step (step (step (demoLoaded s)))).halted = false ∧
    (step (step (step (step (demoLoaded s))))).halted = true ∧
    (step (step (step (step (demoLoaded s))))).A = 0x08 ∧
    (step (step (step (step (demoLoaded s))))).B = 0x03 ∧
    (step (step (step (step (demoLoaded s))))).flags.Z = false ∧
    (step (step (step (step (demoLoaded s))))).flags.S = false ∧
    (step (step (step (step (demoLoaded s))))).flags.CY = false ∧
    (step (step (step (step (demoLoaded s))))).PC = 6 := by
  simp [demoLoaded, loadProgram, copyBytes, writeMem, reset, inBounds, NUM_BANKS, step, fetchByte,
    readMem, executeInstruction, nibble, execRow3, execRow0, execRow8, execRow7, add, updateFlags,
    and_255]
  decide

/-! ## Accesses at the top of a bank -/

/-- C16 at its failing inputs.  `SHLD 0xFFFF` stores L at index 0xFFFF and then indexes the
bank at 0xFFFF + 1 = 65536, outside the array: address 0 is not written (it keeps the
opcode byte instead of receiving H).  `LHLD 0xFFFF`, and `XTHL` with SP = 0xFFFF (the value
SP has after `reset`), index the bank at 65536 in the same way. -/
theorem second_byte_past_top_of_bank :
    ((step shldAtTop).fault = true ∧ (step shldAtTop).memory_banks 0 0xFFFF = 0x34 ∧
      (step shldAtTop).memory_banks 0 0 = 0x22 ∧ shldAtTop.H = 0x12 ∧
      shldAtTop.fault = false) ∧
    ((step (withCode [0x2A, 0xFF, 0xFF])).fault = true ∧
      (withCode [0x2A, 0xFF, 0xFF]).fault = false) ∧
    ((withCode [0xE3]).SP = 0xFFFF ∧ (step (withCode [0xE3])).fault = true ∧
      (withCode [0xE3]).fault = false) := by
  simp [shldAtTop, withCode, init, reset, step, fetchByte, fetchWord, readMem, writeMem, inBounds,
    NUM_BANKS, executeInstruction, nibble, execRow2, execRowE]

/-- C17 at its failing input: two bytes loaded at start address 0xFFFF.  The first goes to
index 0xFFFF; the second is copied to index 65536, past the end of the bank array, instead
of being dropped. -/
theorem loadProgram_runs_past_top_of_bank :
    (loadProgram init [0xAA, 0xBB] 0xFFFF).fault = true ∧
    (loadProgram init [0xAA, 0xBB] 0xFFFF).memory_banks 0 0xFFFF = 0xAA ∧
    init.fault = false ∧
    (loadProgram init [0xAA] 0xFFFF).fault = false := by
  simp [loadProgram, copyBytes, writeMem, inBounds, NUM_BANKS, init, reset]

/-! ## Loading a program -/

theorem writeMem_frame (s : CPU8085) (b : Int) (i v : Nat) :
    (writeMem s b i v).A = s.A ∧ (writeMem s b i v).B = s.B ∧ (writeMem s b i v).C = s.C ∧
    (writeMem s b i v).D = s.D ∧ (writeMem s b i v).E = s.E ∧ (writeMem s b i v).H = s.H ∧
    (writeMem s b i v).L = s.L ∧ (writeMem s b i v).SP = s.SP ∧ (writeMem s b i v).PC = s.PC ∧
    (writeMem s b i v).flags = s.flags ∧ (writeMem s b i v).halted = s.halted ∧
    (writeMem s b i v).current_bank = s.current_bank := by
  unfold writeMem
  split <;> simp

theorem copyBytes_frame (program : List Nat) (s : CPU8085) (b : Int) (start : Nat) :
    (copyBytes s b start program).A = s.A ∧ (copyBytes s b start program).B = s.B ∧
    (copyBytes s b start program).C = s.C ∧ (copyBytes s b start program).D = s.D ∧
    (copyBytes s b start program).E = s.E ∧ (copyBytes s b start program).H = s.H ∧
    (copyBytes s b start program).L = s.L ∧ (copyBytes s b start program).SP = s.SP ∧
    (copyBytes s b start program).PC = s.PC ∧
    (copyBytes s b start program).flags = s.flags ∧
    (copyBytes s b start program).halted = s.halted ∧
    (copyBytes s b start program).current_bank = s.current_bank := by
  induction program generalizing s start with
  | nil => simp [copyBytes]
  | cons x rest ih =>
    simp only [copyBytes]
    have h := ih (writeMem s b start x) (start + 1)
    have w := writeMem_frame s b start x
    refine ⟨h.1.trans w.1, h.2.1.trans w.2.1, h.2.2.1.trans w.2.2.1,
      h.2.2.2.1.trans w.2.2.2.1, h.2.2.2.2.1.trans w.2.2.2.2.1,
      h.2.2.2.2.2.1.trans w.2.2.2.2.2.1, h.2.2.2.2.2.2.1.trans w.2.2.2.2.2.2.1,
      h.2.2.2.2.2.2.2.1.trans w.2.2.2.2.2.2.2.1,
      h.2.2.2.2.2.2.2.2.1.trans w.2.2.2.2.2.2.2.2.1,
      h.2.2.2.2.2.2.2.2.2.1.trans w.2.2.2.2.2.2.2.2.2.1,
      h.2.2.2.2.2.2.2.2.2.2.1.trans w.2.2.2.2.2.2.2.2.2.2.1,
      h.2.2.2.2.2.2.2.2.2.2.2.trans w.2.2.2.2.2.2.2.2.2.2.2⟩

/-- C18 as stated fails: loading one byte at start address 0x0100 into the freshly built
engine, whose PC is 0, leaves PC = 0x0100. -/
theorem loadProgram_alters_PC :
    init.PC = 0 ∧ (loadProgram init [0x76] 0x0100).PC = 0x0100 ∧
    (loadProgram init [0x76] 0x0100).PC ≠ init.PC := by
  simp [loadProgram, init, reset]

theorem writeMem_fault_of (s : CPU8085) (b : Int) (i v : Nat) (h : inBounds b i = true) :
    (writeMem s b i v).fault = s.fault := by
  simp [writeMem, h]

theorem copyBytes_fault (program : List Nat) (s : CPU8085) (b : Int) (start : Nat)
    (hb : 0 ≤ b ∧ b < 8) (hfit : start + program.length ≤ 65536) :
    (copyBytes s b start program).fault = s.fault := by
  induction program generalizing s start with
  | nil => rfl
  | cons x rest ih =>
    simp only [List.length_cons] at hfit
    simp only [copyBytes]
    rw [ih _ _ (by omega), writeMem_fault_of _ _ _ _ (inBounds_of _ _ hb.1 hb.2 (by omega))]

/-- C18 amended: for a byte sequence that fits below the top of the bank
(`startAddress + size <= 65536`), `loadProgram(program, size, startAddress)` sets PC to
`startAddress`; for every prior state, SP, all registers, all flags, `halted` and the
current bank are the same after the load as before it, and the copy stays inside the bank
array. -/
theorem loadProgram_sets_PC_only (s : CPU8085) (program : List Nat) (startAddress : Nat)
    (hbank : 0 ≤ s.current_bank ∧ s.current_bank < 8)
    (hfit : startAddress % 65536 + program.length ≤ 65536) :
    (loadProgram s program startAddress).PC = startAddress % 65536 ∧
    (loadProgram s program startAddress).SP = s.SP ∧
    ((loadProgram s program startAddress).A = s.A ∧
      (loadProgram s program startAddress).B = s.B ∧
      (loadProgram s program startAddress).C = s.C ∧
      (loadProgram s program startAddress).D = s.D ∧
      (loadProgram s program startAddress).E = s.E ∧
      (loadProgram s program startAddress).H = s.H ∧
      (loadProgram s program startAddress).L = s.L) ∧
    (loadProgram s program startAddress).flags = s.flags ∧
    (loadProgram s program startAddress).halted = s.halted ∧
    (loadProgram s program startAddress).current_bank = s.current_bank ∧
    (loadProgram s program startAddress).fault = s.fault := by
  have h := copyBytes_frame program s s.current_bank (startAddress % 65536)
  have hf := copyBytes_fault program s s.current_bank (startAddress % 65536) hbank hfit
  exact ⟨rfl, h.2.2.2.2.2.2.2.1, ⟨h.1, h.2.1, h.2.2.1, h.2.2.2.1, h.2.2.2.2.1,
    h.2.2.2.2.2.1, h.2.2.2.2.2.2.1⟩, h.2.2.2.2.2.2.2.2.2.1, h.2.2.2.2.2.2.2.2.2.2.1,
    h.2.2.2.2.2.2.2.2.2.2.2, hf⟩

/-- Witness of the amended C18: the six bytes of `MVI A,5 ; MVI B,3 ; ADD B ; HLT` loaded at
0xFFFA, the highest start address at which they fit, into the engine after construction. -/
theorem loadProgram_sets_PC_only_witness :
    ((0 ≤ init.current_bank ∧ init.current_bank < 8) ∧
      0xFFFA % 65536 + [0x3E, 0x05, 0x06, 0x03, 0x80, 0x76].length ≤ 65536) ∧
    (loadProgram init [0x3E, 0x05, 0x06, 0x03, 0x80, 0x76] 0xFFFA).PC = 0xFFFA % 65536 ∧
    (loadProgram init [0x3E, 0x05, 0x06, 0x03, 0x80, 0x76] 0xFFFA).SP = init.SP ∧
    (loadProgram init [0x3E, 0x05, 0x06, 0x03, 0x80, 0x76] 0xFFFA).fault = init.fault :=
  have h := loadProgram_sets_PC_only init [0x3E, 0x05, 0x06, 0x03, 0x80, 0x76] 0xFFFA
    (by decide) (by decide)
  ⟨⟨by decide, by decide⟩, h.1, h.2.1, h.2.2.2.2.2.2⟩

/-! ## The half-carry of `add` -/

/-- C19 at its failing input: accumulator 0x0F, operand 0x00, `withCarry`, incoming Carry
set.  The sum is 0x10, so Carry is overwritten with false before the half-carry test reads
it: `add` leaves AC = false, although 0xF + 0x0 + 1 exceeds 0xF. -/
theorem add_half_carry_reads_new_carry :
    (accState 0x0F true).A = 0x0F ∧ (accState 0x0F true).flags.CY = true ∧
    (add (accState 0x0F true) 0x00 true).1 = 0x10 ∧
    (add (accState 0x0F true) 0x00 true).2.flags.CY = false ∧
    (add (accState 0x0F true) 0x00 true).2.flags.AC = false ∧
    (0x0F &&& 0x0F) + (0x00 &&& 0x0F) + 1 > 0x0F := by
  simp [accState, init, reset, add, updateFlags, and_255, and_15]

/-! ## DAD -/

theorem getBC_eq (s : CPU8085) (hB : s.B < 256) (hC : s.C < 256) :
    getBC s = s.B * 256 + s.C := by
  unfold getBC
  rw [shl8_or _ _ hC]
  omega

theorem getDE_eq (s : CPU8085) (hD : s.D < 256) (hE : s.E < 256) :
    getDE s = s.D * 256 + s.E := by
  unfold getDE
  rw [shl8_or _ _ hE]
  omega

theorem setHL_value (s : CPU8085) (v : Nat) (hv : v < 65536) :
    (setHL s v).H * 256 + (setHL s v).L = v ∧ (setHL s v).flags = s.flags := by
  refine ⟨?_, rfl⟩
  simp only [setHL, shr8, and_255, Nat.mod_mod, Nat.mod_eq_of_lt hv]
  omega

theorem exec_dad (s : CPU8085) (k : Nat) (hk : k < 4) (hwf : WF s) :
    (executeInstruction (0x09 + 16 * k) s).H * 256 + (executeInstruction (0x09 + 16 * k) s).L =
      (s.H * 256 + s.L + pairValue s k) % 65536 ∧
    ((executeInstruction (0x09 + 16 * k) s).flags.CY = true ↔
      s.H * 256 + s.L + pairValue s k > 0xFFFF) ∧
    (executeInstruction (0x09 + 16 * k) s).flags.S = s.flags.S ∧
    (executeInstruction (0x09 + 16 * k) s).flags.Z = s.flags.Z ∧
    (executeInstruction (0x09 + 16 * k) s).flags.AC = s.flags.AC ∧
    (executeInstruction (0x09 + 16 * k) s).flags.P = s.flags.P := by
  have hHL := getHL_eq s hwf.hH hwf.hL
  have hBC := getBC_eq s hwf.hB hwf.hC
  have hDE := getDE_eq s hwf.hD hwf.hE
  have hB := hwf.hB
  have hC := hwf.hC
  have hD := hwf.hD
  have hE := hwf.hE
  have hH := hwf.hH
  have hL := hwf.hL
  have hSP := hwf.hSP
  have hv : ∀ x, (setHL
      { s with flags := { s.flags with CY := decide ((s.H * 256 + s.L + x) % 65536 <
        s.H * 256 + s.L) } }
      ((s.H * 256 + s.L + x) % 65536)).H * 256 + (setHL
      { s with flags := { s.flags with CY := decide ((s.H * 256 + s.L + x) % 65536 <
        s.H * 256 + s.L) } }
      ((s.H * 256 + s.L + x) % 65536)).L = (s.H * 256 + s.L + x) % 65536 :=
    fun x => (setHL_value _ _ (Nat.mod_lt _ (by decide))).1
  interval_cases k <;> simp only [pairValue] <;>
    simp [executeInstruction, nibble, execRow0, execRow1, execRow2, execRow3, hHL, hBC, hDE] <;>
    refine ⟨hv _, ?_, ?_⟩ <;> simp [setHL] <;> omega

/-- C20: from every running well-formed state, one step whose opcode is DAD B, DAD D, DAD H
or DAD SP (0x09 + 16k with k = 0..3) sets HL to (HL + rp) mod 65536 and Carry to true iff
HL + rp > 0xFFFF (false otherwise), and leaves S, Z, AC and P unchanged; for DAD H the
operand is HL itself. -/
theorem dad_instructions (s : CPU8085) (hwf : WF s) (hrun : s.halted = false)
    (k : Nat) (hk : k < 4) (hop : cur s s.PC = 0x09 + 16 * k) :
    (step s).H * 256 + (step s).L = (s.H * 256 + s.L + pairValue s k) % 65536 ∧
    ((step s).flags.CY = true ↔ s.H * 256 + s.L + pairValue s k > 0xFFFF) ∧
    (step s).flags.S = s.flags.S ∧ (step s).flags.Z = s.flags.Z ∧
    (step s).flags.AC = s.flags.AC ∧ (step s).flags.P = s.flags.P ∧
    (k = 2 → (step s).H * 256 + (step s).L = (2 * (s.H * 256 + s.L)) % 65536) := by
  rw [step_running s hrun hwf.inBounds_PC, hop]
  have h := exec_dad { s with PC := (s.PC + 1) % 65536 } k hk hwf.advance
  have hp : pairValue { s with PC := (s.PC + 1) % 65536 } k = pairValue s k := by
    interval_cases k <;> rfl
  rw [hp] at h
  refine ⟨h.1, h.2.1, h.2.2.1, h.2.2.2.1, h.2.2.2.2.1, h.2.2.2.2.2, ?_⟩
  intro h2
  rw [h.1, h2]
  simp only [pairValue]
  congr 1
  omega

/-- Witness of C20: `DAD H` at address 0 with HL = 0x8001: HL becomes 0x0002 and Carry is
set. -/
theorem dad_instructions_witness :
    (WF { withCode [0x29] with H := 0x80, L := 0x01 } ∧
      ({ withCode [0x29] with H := 0x80, L := 0x01 } : CPU8085).halted = false ∧ 2 < 4 ∧
      cur { withCode [0x29] with H := 0x80, L := 0x01 }
        ({ withCode [0x29] with H := 0x80, L := 0x01 } : CPU8085).PC = 0x09 + 16 * 2) ∧
    (step { withCode [0x29] with H := 0x80, L := 0x01 }).H * 256 +
        (step { withCode [0x29] with H := 0x80, L := 0x01 }).L =
      (({ withCode [0x29] with H := 0x80, L := 0x01 } : CPU8085).H * 256 +
        ({ withCode [0x29] with H := 0x80, L := 0x01 } : CPU8085).L +
        pairValue { withCode [0x29] with H := 0x80, L := 0x01 } 2) % 65536 :=
  have hwf : WF { withCode [0x29] with H := 0x80, L := 0x01 } :=
    { withCode_WF [0x29] (by decide) with hH := by decide, hL := by decide }
  ⟨⟨hwf, rfl, by decide, by decide⟩,
    (dad_instructions _ hwf rfl 2 (by decide) (by decide)).1⟩

/-! ## Compare -/

theorem sub_plain (s : CPU8085) (v : Nat) (hA : s.A < 256) (hv : v < 256) :
    (sub s v false).2 = { s with flags := (sub s v false).2.flags } ∧
    ((sub s v false).2.flags.Z = true ↔ s.A = v) ∧
    ((sub s v false).2.flags.CY = true ↔ s.A < v) := by
  refine ⟨rfl, ?_, ?_⟩
  · simp only [sub, updateFlags, wrap16, and_255, Nat.mod_mod, Nat.mod_eq_of_lt hv,
      decide_eq_true_eq]
    simp
    omega
  · simp only [sub, updateFlags, wrap16, decide_eq_true_eq, Nat.mod_eq_of_lt hv]
    simp
    omega

theorem sub_flags_of_acc (s t : CPU8085) (v : Nat) (h : s.A = t.A) :
    (sub s v false).2.flags = (sub t v false).2.flags := by
  simp [sub, updateFlags, h]

theorem exec_cmp_reg (s : CPU8085) (r : Nat) (hr : r < 8) (hwf : WF s) :
    executeInstruction (0xB8 + r) s = (sub s (loc s r) false).2 := by
  have hHL := getHL_eq s hwf.hH hwf.hL
  have hb := hwf.inBounds_HL
  interval_cases r <;> simp only [loc, cur] <;>
    simp [executeInstruction, nibble, execRowB, hHL, readMem, hb]

theorem exec_sub_reg (s : CPU8085) (r : Nat) (hr : r < 8) (hwf : WF s) :
    executeInstruction (0x90 + r) s =
      { (sub s (loc s r) false).2 with A := (sub s (loc s r) false).1 } := by
  have hHL := getHL_eq s hwf.hH hwf.hL
  have hb := hwf.inBounds_HL
  interval_cases r <;> simp only [loc, cur] <;>
    simp [executeInstruction, nibble, execRow9, hHL, readMem, hb]

theorem exec_cpi (s : CPU8085) (hbank : 0 ≤ s.current_bank ∧ s.current_bank < 8) :
    executeInstruction 0xFE { s with PC := (s.PC + 1) % 65536 } =
      (sub { s with PC := (s.PC + 2) % 65536 } (cur s ((s.PC + 1) % 65536)) false).2 := by
  simp [executeInstruction, nibble, execRowF, fetch_operand s hbank]

theorem exec_sui (s : CPU8085) (hbank : 0 ≤ s.current_bank ∧ s.current_bank < 8) :
    executeInstruction 0xD6 { s with PC := (s.PC + 1) % 65536 } =
      { (sub { s with PC := (s.PC + 2) % 65536 } (cur s ((s.PC + 1) % 65536)) false).2 with
        A := (sub { s with PC := (s.PC + 2) % 65536 } (cur s ((s.PC + 1) % 65536)) false).1 } := by
  simp [executeInstruction, nibble, execRowD, fetch_operand s hbank]

/-- C21: from every running well-formed state, one step whose opcode is CMP on any of the 8
addressable locations (0xB8 + r) changes only PC (to PC + 1) and the flags, and one whose
opcode is CPI (0xFE) changes only PC (to PC + 2) and the flags: the accumulator, the other
registers, SP and memory are unchanged.  The five flags are those that SUB (0x90 + r),
respectively SUI (0xD6), leaves when run with the same accumulator and the same operand;
Zero is set iff A equals the operand and Carry iff A is below the operand. -/
theorem cmp_cpi_instructions (s : CPU8085) (hwf : WF s) (hrun : s.halted = false) :
    (∀ r, r < 8 → cur s s.PC = 0xB8 + r →
      step s = { s with PC := (s.PC + 1) % 65536, flags := (step s).flags } ∧
      ((step s).flags.Z = true ↔ s.A = loc s r) ∧
      ((step s).flags.CY = true ↔ s.A < loc s r) ∧
      ∀ t : CPU8085, WF t → t.halted = false → cur t t.PC = 0x90 + r → t.A = s.A →
        loc t r = loc s r → (step s).flags = (step t).flags) ∧
    (cur s s.PC = 0xFE →
      step s = { s with PC := (s.PC + 2) % 65536, flags := (step s).flags } ∧
      ((step s).flags.Z = true ↔ s.A = cur s ((s.PC + 1) % 65536)) ∧
      ((step s).flags.CY = true ↔ s.A < cur s ((s.PC + 1) % 65536)) ∧
      ∀ t : CPU8085, WF t → t.halted = false → cur t t.PC = 0xD6 → t.A = s.A →
        cur t ((t.PC + 1) % 65536) = cur s ((s.PC + 1) % 65536) →
        (step s).flags = (step t).flags) := by
  constructor
  · intro r hr hop
    have hs : step s = (sub { s with PC := (s.PC + 1) % 65536 } (loc s r) false).2 := by
      rw [step_running s hrun hwf.inBounds_PC, hop]
      exact exec_cmp_reg _ r hr hwf.advance
    have hp := sub_plain { s with PC := (s.PC + 1) % 65536 } (loc s r) hwf.hA (hwf.loc_lt r)
    rw [hs]
    refine ⟨hp.1, hp.2.1, hp.2.2, ?_⟩
    intro t hwt hrt hopt hA hloc
    rw [step_running t hrt hwt.inBounds_PC, hopt, exec_sub_reg _ r hr hwt.advance]
    have e : loc { t with PC := (t.PC + 1) % 65536 } r = loc s r := hloc
    rw [e]
    exact sub_flags_of_acc _ _ _ hA.symm
  · intro hop
    have hs : step s =
        (sub { s with PC := (s.PC + 2) % 65536 } (cur s ((s.PC + 1) % 65536)) false).2 := by
      rw [step_running s hrun hwf.inBounds_PC, hop]
      exact exec_cpi s hwf.hbank
    have hp := sub_plain { s with PC := (s.PC + 2) % 65536 } (cur s ((s.PC + 1) % 65536))
      hwf.hA (hwf.cur_lt _ (Nat.mod_lt _ (by decide)))
    rw [hs]
    refine ⟨hp.1, hp.2.1, hp.2.2, ?_⟩
    intro t hwt hrt hopt hA hv
    rw [step_running t hrt hwt.inBounds_PC, hopt, exec_sui t hwt.hbank, hv]
    exact sub_flags_of_acc _ _ _ hA.symm

/-- Witness of C21: `CMP B` at address 0 with A = 5 and B = 7: Carry is set since 5 < 7, and
the flags are those `SUB B` leaves from the same accumulator and operand. -/
theorem cmp_cpi_instructions_witness :
    (WF { withCode [0xB8] with A := 5, B := 7 } ∧
      ({ withCode [0xB8] with A := 5, B := 7 } : CPU8085).halted = false ∧ 0 < 8 ∧
      cur { withCode [0xB8] with A := 5, B := 7 }
        ({ withCode [0xB8] with A := 5, B := 7 } : CPU8085).PC = 0xB8 + 0 ∧
      WF { withCode [0x90] with A := 5, B := 7 } ∧
      ({ withCode [0x90] with A := 5, B := 7 } : CPU8085).halted = false ∧
      cur { withCode [0x90] with A := 5, B := 7 }
        ({ withCode [0x90] with A := 5, B := 7 } : CPU8085).PC = 0x90 + 0 ∧
      ({ withCode [0x90] with A := 5, B := 7 } : CPU8085).A =
        ({ withCode [0xB8] with A := 5, B := 7 } : CPU8085).A ∧
      loc { withCode [0x90] with A := 5, B := 7 } 0 =
        loc { withCode [0xB8] with A := 5, B := 7 } 0) ∧
    ((step { withCode [0xB8] with A := 5, B := 7 }).flags.CY = true ↔
      ({ withCode [0xB8] with A := 5, B := 7 } : CPU8085).A <
        loc { withCode [0xB8] with A := 5, B := 7 } 0) ∧
    (step { withCode [0xB8] with A := 5, B := 7 }).flags =
      (step { withCode [0x90] with A := 5, B := 7 }).flags :=
  have hwf : WF { withCode [0xB8] with A := 5, B := 7 } :=
    { withCode_WF [0xB8] (by decide) with hA := by decide, hB := by decide }
  have hwt : WF { withCode [0x90] with A := 5, B := 7 } :=
    { withCode_WF [0x90] (by decide) with hA := by decide, hB := by decide }
  have h := (cmp_cpi_instructions _ hwf rfl).1 0 (by decide) (by decide)
  ⟨⟨hwf, rfl, by decide, by decide, hwt, rfl, by decide, rfl, rfl⟩,
    h.2.2.1, h.2.2.2 _ hwt rfl (by decide) rfl rfl⟩

/-! ## Calls, restarts and conditional branches -/

theorem fetch_word_operand (s : CPU8085) (hwf : WF s) :
    fetchWord { s with PC := (s.PC + 1) % 65536 } =
      (operand16 s, { s with PC := (s.PC + 3) % 65536 }) := by
  have f1 := fetch_operand s hwf.hbank
  have h2 : inBounds s.current_bank ((s.PC + 2) % 65536) = true :=
    inBounds_of _ _ hwf.hbank.1 hwf.hbank.2 (Nat.mod_lt _ (by decide))
  have e3 : ((s.PC + 2) % 65536 + 1) % 65536 = (s.PC + 3) % 65536 := by omega
  have f2 : fetchByte { s with PC := (s.PC + 2) % 65536 } =
      (cur s ((s.PC + 2) % 65536), { s with PC := (s.PC + 3) % 65536 }) := by
    simp only [fetchByte, readMem, h2, if_true, cur, e3]
  have hl := hwf.cur_lt ((s.PC + 1) % 65536) (Nat.mod_lt _ (by decide))
  have hh := hwf.cur_lt ((s.PC + 2) % 65536) (Nat.mod_lt _ (by decide))
  have hw : (cur s ((s.PC + 2) % 65536) <<< 8 ||| cur s ((s.PC + 1) % 65536)) % 65536 =
      operand16 s := by
    rw [shl8_or _ _ hl]
    unfold operand16
    omega
  simp only [fetchWord, f1, f2, hw]

theorem push_pushed (s : CPU8085) (v w : Nat)
    (hbank : 0 ≤ s.current_bank ∧ s.current_bank < 8) (p : Nat) :
    ({ push { s with PC := p } v with PC := w } : CPU8085) = { withPushed s v with PC := w } := by
  rw [push_eq { s with PC := p } v hbank]
  rfl

theorem exec_call (s : CPU8085) (hwf : WF s) :
    executeInstruction 0xCD { s with PC := (s.PC + 1) % 65536 } =
      { withPushed s ((s.PC + 3) % 65536) with PC := operand16 s } := by
  rw [← push_pushed s _ _ hwf.hbank ((s.PC + 3) % 65536)]
  simp [executeInstruction, nibble, execRowC, fetch_word_operand s hwf]

theorem exec_ccc (s : CPU8085) (hwf : WF s) (c : Nat) (hc : c < 8) :
    executeInstruction (0xC4 + 8 * c) { s with PC := (s.PC + 1) % 65536 } =
      if condHolds s.flags c then
        { withPushed s ((s.PC + 3) % 65536) with PC := operand16 s }
      else { s with PC := (s.PC + 3) % 65536 } := by
  rw [← push_pushed s _ _ hwf.hbank ((s.PC + 3) % 65536)]
  have hf := fetch_word_operand s hwf
  interval_cases c <;>
    simp [executeInstruction, nibble, execRowC, execRowD, execRowE, execRowF, hf, condHolds]

theorem exec_rst (s : CPU8085) (hwf : WF s) (n : Nat) (hn : n < 8) :
    executeInstruction (0xC7 + 8 * n) { s with PC := (s.PC + 1) % 65536 } =
      { withPushed s ((s.PC + 1) % 65536) with PC := 8 * n } := by
  rw [← push_pushed s _ _ hwf.hbank ((s.PC + 1) % 65536)]
  interval_cases n <;>
    simp [executeInstruction, nibble, execRowC, execRowD, execRowE, execRowF]

theorem exec_jcc (s : CPU8085) (hwf : WF s) (c : Nat) (hc : c < 8) :
    executeInstruction (0xC2 + 8 * c) { s with PC := (s.PC + 1) % 65536 } =
      { s with PC := if condHolds s.flags c then operand16 s
          else (s.PC + 3) % 65536 } := by
  have hf := fetch_word_operand s hwf
  interval_cases c <;>
    simp [executeInstruction, nibble, execRowC, execRowD, execRowE, execRowF, hf, condHolds] <;>
    split <;> simp [*]

theorem pop_word (s : CPU8085) (hwf : WF s) (p : Nat) :
    pop { s with PC := p } = (stackTop s, { s with PC := p, SP := (s.SP + 2) % 65536 }) := by
  rw [pop_eq { s with PC := p } hwf.hSP hwf.hbank]
  have hl := hwf.cur_lt s.SP hwf.hSP
  have hh := hwf.cur_lt ((s.SP + 1) % 65536) (Nat.mod_lt _ (by decide))
  have hw : (cur s ((s.SP + 1) % 65536) <<< 8 ||| cur s s.SP) % 65536 = stackTop s := by
    rw [shl8_or _ _ hl]
    unfold stackTop
    omega
  simp only [cur] at hw ⊢
  rw [hw]

theorem exec_rcc (s : CPU8085) (hwf : WF s) (c : Nat) (hc : c < 8) :
    executeInstruction (0xC0 + 8 * c) { s with PC := (s.PC + 1) % 65536 } =
      if condHolds s.flags c then { s with PC := stackTop s, SP := (s.SP + 2) % 65536 }
      else { s with PC := (s.PC + 1) % 65536 } := by
  have hp := pop_word s hwf ((s.PC + 1) % 65536)
  interval_cases c <;>
    simp [executeInstruction, nibble, execRowC, execRowD, execRowE, execRowF, hp, condHolds]

/-- C22: from every running well-formed state with PC = p, one step whose opcode is CALL
(0xCD), or a conditional call (0xC4 + 8c) whose condition holds, stores (p + 3) mod 65536 on
the stack of the active bank (high byte at SP - 1, low byte at SP - 2, addresses modulo
65536), sets SP to SP - 2 and PC to the 16-bit operand (low byte at p + 1, high byte at
p + 2); one whose opcode is RST n (0xC7 + 8n) stores (p + 1) mod 65536 the same way and sets
PC to 8n.  Nothing else changes: flags and the other registers are as before. -/
theorem call_and_rst (s : CPU8085) (hwf : WF s) (hrun : s.halted = false) :
    (cur s s.PC = 0xCD →
      step s = { withPushed s ((s.PC + 3) % 65536) with PC := operand16 s }) ∧
    (∀ c, c < 8 → cur s s.PC = 0xC4 + 8 * c → condHolds s.flags c = true →
      step s = { withPushed s ((s.PC + 3) % 65536) with PC := operand16 s }) ∧
    (∀ n, n < 8 → cur s s.PC = 0xC7 + 8 * n →
      step s = { withPushed s ((s.PC + 1) % 65536) with PC := 8 * n }) ∧
    (∀ v, v < 65536 →
      (withPushed s v).SP = (s.SP + 65534) % 65536 ∧
      cur (withPushed s v) ((s.SP + 65535) % 65536) = v / 256 ∧
      cur (withPushed s v) ((s.SP + 65534) % 65536) = v % 256 ∧
      (withPushed s v).flags = s.flags ∧
      (withPushed s v).A = s.A ∧ (withPushed s v).B = s.B ∧ (withPushed s v).C = s.C ∧
      (withPushed s v).D = s.D ∧ (withPushed s v).E = s.E ∧ (withPushed s v).H = s.H ∧
      (withPushed s v).L = s.L) := by
  refine ⟨?_, ?_, ?_, ?_⟩
  · intro hop
    rw [step_running s hrun hwf.inBounds_PC, hop]
    exact exec_call s hwf
  · intro c hc hop hcond
    rw [step_running s hrun hwf.inBounds_PC, hop, exec_ccc s hwf c hc, hcond]
    rfl
  · intro n hn hop
    rw [step_running s hrun hwf.inBounds_PC, hop]
    exact exec_rst s hwf n hn
  · intro v hv
    have n2 : (s.SP + 65535) % 65536 ≠ (s.SP + 65534) % 65536 := by omega
    have e : v / 256 % 256 = v / 256 := by omega
    refine ⟨?_, ?_, ?_, ?_, ?_, ?_, ?_, ?_, ?_, ?_, ?_⟩ <;> simp [cur, withPushed, n2, e]

/-- Witness of C22: `CALL 0x1234` at address 0 of the engine after construction. -/
theorem call_and_rst_witness :
    (WF (withCode [0xCD, 0x34, 0x12]) ∧ (withCode [0xCD, 0x34, 0x12]).halted = false ∧
      cur (withCode [0xCD, 0x34, 0x12]) (withCode [0xCD, 0x34, 0x12]).PC = 0xCD) ∧
    step (withCode [0xCD, 0x34, 0x12]) =
      { withPushed (withCode [0xCD, 0x34, 0x12])
          (((withCode [0xCD, 0x34, 0x12]).PC + 3) % 65536) with
        PC := operand16 (withCode [0xCD, 0x34, 0x12]) } :=
  ⟨⟨withCode_WF _ (by decide), rfl, by decide⟩,
    (call_and_rst (withCode [0xCD, 0x34, 0x12]) (withCode_WF _ (by decide)) rfl).1 (by decide)⟩

/-- C23: from every running well-formed state with PC = p and for each condition code
c = 0..7 (NZ, Z, NC, C, PO, PE, P, M, tested as Z = 0, Z = 1, CY = 0, CY = 1, P = 0, P = 1,
S = 0, S = 1): the conditional jump 0xC2 + 8c changes only PC, to its operand when the
condition holds and to p + 3 otherwise; the conditional call 0xC4 + 8c jumps to its operand
with SP lowered by 2 when the condition holds and otherwise changes only PC, to p + 3; the
conditional return 0xC0 + 8c pops PC (SP raised by 2) when the condition holds and otherwise
changes only PC, to p + 1.  None of them changes a flag. -/
theorem conditional_branches (s : CPU8085) (hwf : WF s) (hrun : s.halted = false)
    (c : Nat) (hc : c < 8) :
    (cur s s.PC = 0xC2 + 8 * c →
      step s =
        { s with PC := if condHolds s.flags c then operand16 s else (s.PC + 3) % 65536 }) ∧
    (cur s s.PC = 0xC4 + 8 * c →
      (condHolds s.flags c = true →
        (step s).PC = operand16 s ∧ (step s).SP = (s.SP + 65534) % 65536 ∧
        (step s).flags = s.flags) ∧
      (condHolds s.flags c = false → step s = { s with PC := (s.PC + 3) % 65536 })) ∧
    (cur s s.PC = 0xC0 + 8 * c →
      (condHolds s.flags c = true →
        step s = { s with PC := stackTop s, SP := (s.SP + 2) % 65536 }) ∧
      (condHolds s.flags c = false → step s = { s with PC := (s.PC + 1) % 65536 })) ∧
    ((condHolds s.flags 0 = true ↔ s.flags.Z = false) ∧
      (condHolds s.flags 1 = true ↔ s.flags.Z = true) ∧
      (condHolds s.flags 2 = true ↔ s.flags.CY = false) ∧
      (condHolds s.flags 3 = true ↔ s.flags.CY = true) ∧
      (condHolds s.flags 4 = true ↔ s.flags.P = false) ∧
      (condHolds s.flags 5 = true ↔ s.flags.P = true) ∧
      (condHolds s.flags 6 = true ↔ s.flags.S = false) ∧
      (condHolds s.flags 7 = true ↔ s.flags.S = true)) := by
  refine ⟨?_, ?_, ?_, ?_⟩
  · intro hop
    rw [step_running s hrun hwf.inBounds_PC, hop]
    exact exec_jcc s hwf c hc
  · intro hop
    rw [step_running s hrun hwf.inBounds_PC, hop, exec_ccc s hwf c hc]
    constructor
    · intro hcond
      rw [hcond]
      refine ⟨?_, ?_, ?_⟩ <;> simp [withPushed]
    · intro hcond
      rw [hcond]
      rfl
  · intro hop
    rw [step_running s hrun hwf.inBounds_PC, hop, exec_rcc s hwf c hc]
    constructor
    · intro hcond
      rw [hcond]
      rfl
    · intro hcond
      rw [hcond]
      rfl
  · simp [condHolds]

/-- Witness of C23: `JNZ 0x1234` at address 0 of the engine after construction, where Zero
is clear: the jump is taken. -/
theorem conditional_branches_witness :
    (WF (withCode [0xC2, 0x34, 0x12]) ∧ (withCode [0xC2, 0x34, 0x12]).halted = false ∧ 0 < 8 ∧
      cur (withCode [0xC2, 0x34, 0x12]) (withCode [0xC2, 0x34, 0x12]).PC = 0xC2 + 8 * 0) ∧
    step (withCode [0xC2, 0x34, 0x12]) =
      { withCode [0xC2, 0x34, 0x12] with
        PC := if condHolds (withCode [0xC2, 0x34, 0x12]).flags 0 then
            operand16 (withCode [0xC2, 0x34, 0x12])
          else ((withCode [0xC2, 0x34, 0x12]).PC + 3) % 65536 } :=
  ⟨⟨withCode_WF _ (by decide), rfl, by decide, by decide⟩,
    (conditional_branches (withCode [0xC2, 0x34, 0x12]) (withCode_WF _ (by decide)) rfl 0
      (by decide)).1 (by decide)⟩

/-! ## MOV -/

theorem mov_opcode (d src : Nat) (hd : d < 8) (hsrc : src < 8) :
    0x40 ||| (d <<< 3) ||| src = 0x40 + 8 * d + src := by
  interval_cases d <;> interval_cases src <;> rfl

theorem exec_mov (s : CPU8085) (d src : Nat) (hd : d < 8) (hsrc : src < 8)
    (hne : d = 6 → src = 6 → False) (hwf : WF s) :
    executeInstruction (0x40 + 8 * d + src) s = setLoc s d (loc s src) := by
  have hHL := getHL_eq s hwf.hH hwf.hL
  have hb := hwf.inBounds_HL
  have mA := Nat.mod_eq_of_lt hwf.hA
  have mB := Nat.mod_eq_of_lt hwf.hB
  have mC := Nat.mod_eq_of_lt hwf.hC
  have mD := Nat.mod_eq_of_lt hwf.hD
  have mE := Nat.mod_eq_of_lt hwf.hE
  have mH := Nat.mod_eq_of_lt hwf.hH
  have mL := Nat.mod_eq_of_lt hwf.hL
  interval_cases d <;> interval_cases src <;>
    first
    | exact absurd rfl (hne rfl)
    | simp [executeInstruction, nibble, execRow4, execRow5, execRow6, execRow7, setLoc, loc, cur,
        hHL, readMem, writeMem, hb, mA, mB, mC, mD, mE, mH, mL]

theorem loc_setLoc (s : CPU8085) (d v : Nat) (hd : d < 8) : loc (setLoc s d v) d = v := by
  interval_cases d <;> simp [loc, setLoc, cur]

/-- C24: from every running well-formed state, one step whose opcode is
0x40 | (d << 3) | src with d, src in 0..7 and not both 6 (0x76 is HLT), where 0..7 denote B,
C, D, E, H, L, memory-at-HL, A, stores the pre-step value of location src in location d and
sets PC to PC + 1; nothing else changes: no flag, no other register, no other memory byte.
After the step location d holds the value location src had before it. -/
theorem mov_instructions (s : CPU8085) (hwf : WF s) (hrun : s.halted = false)
    (d src : Nat) (hd : d < 8) (hsrc : src < 8) (hne : ¬ (d = 6 ∧ src = 6))
    (hop : cur s s.PC = 0x40 ||| (d <<< 3) ||| src) :
    step s = setLoc { s with PC := (s.PC + 1) % 65536 } d (loc s src) ∧
    loc (step s) d = loc s src ∧
    (step s).flags = s.flags := by
  have hs : step s = setLoc { s with PC := (s.PC + 1) % 65536 } d (loc s src) := by
    rw [step_running s hrun hwf.inBounds_PC, hop, mov_opcode d src hd hsrc]
    exact exec_mov _ d src hd hsrc (fun h1 h2 => hne ⟨h1, h2⟩) hwf.advance
  refine ⟨hs, ?_, ?_⟩
  · rw [hs]
    exact loc_setLoc _ d _ hd
  · rw [hs]
    interval_cases d <;> rfl

/-- Witness of C24: `MOV H,M` (0x66) at address 0 with HL = 0x0001 and the byte 0x5A at
address 1: H becomes 0x5A. -/
theorem mov_instructions_witness :
    (WF { withCode [0x66, 0x5A] with L := 1 } ∧
      ({ withCode [0x66, 0x5A] with L := 1 } : CPU8085).halted = false ∧ 4 < 8 ∧ 6 < 8 ∧
      ¬ (4 = 6 ∧ 6 = 6) ∧
      cur { withCode [0x66, 0x5A] with L := 1 }
        ({ withCode [0x66, 0x5A] with L := 1 } : CPU8085).PC = 0x40 ||| (4 <<< 3) ||| 6) ∧
    loc (step { withCode [0x66, 0x5A] with L := 1 }) 4 =
      loc { withCode [0x66, 0x5A] with L := 1 } 6 :=
  have hwf : WF { withCode [0x66, 0x5A] with L := 1 } :=
    { withCode_WF [0x66, 0x5A] (by decide) with hL := by decide }
  ⟨⟨hwf, rfl, by decide, by decide, by decide, by decide⟩,
    (mov_instructions _ hwf rfl 4 6 (by decide) (by decide) (by decide) (by decide)).2.1⟩

/-! ## Rotates -/

set_option maxRecDepth 100000 in
theorem rot_table : ∀ a : Fin 256, ∀ c : Bool, rotOK a.val c = true := by
  decide

theorem rot_facts (a : Nat) (ha : a < 256) (c : Bool) :
    rotl8 a c = ((a <<< 1) % 256) ||| (if c then 1 else 0) ∧
    rotr8 a c = (a >>> 1) ||| ((if c then 1 else 0) <<< 7) ∧
    rotl8 a c = ((a <<< 1) ||| (if c then 1 else 0)) % 256 ∧
    rotr8 a c = ((a >>> 1) ||| (if c then 0x80 else 0)) % 256 ∧
    ∀ i, i < 8 → (rotl8 a c).testBit i = (if i = 0 then c else a.testBit (i - 1)) ∧
      (rotr8 a c).testBit i = (if i = 7 then c else a.testBit (i + 1)) := by
  have h := rot_table ⟨a, ha⟩ c
  simp only [rotOK, Bool.and_eq_true, decide_eq_true_eq, List.all_eq_true, List.mem_range,
    beq_iff_eq] at h
  obtain ⟨⟨⟨⟨h1, h2⟩, h3⟩, h4⟩, h5⟩ := h
  exact ⟨h1, h2, h3, h4, h5⟩

theorem decide_bit7 (x : Nat) : decide (x &&& 0x80 ≠ 0) = x.testBit 7 := by
  have h := and_128_ne_zero x
  cases hb : x.testBit 7
  · rw [hb] at h
    simpa using h
  · rw [hb] at h
    simpa using h

theorem decide_bit0 (x : Nat) : decide (x &&& 0x01 ≠ 0) = x.testBit 0 := by
  have h := and_one_shiftLeft_ne_zero x 0
  cases hb : x.testBit 0
  · rw [hb] at h
    simpa using h
  · rw [hb] at h
    simpa using h

theorem exec_rotates (s : CPU8085) (hA : s.A < 256) :
    executeInstruction 0x07 s =
      { s with A := rotl8 s.A (s.A.testBit 7), flags := { s.flags with CY := s.A.testBit 7 } } ∧
    executeInstruction 0x0F s =
      { s with A := rotr8 s.A (s.A.testBit 0), flags := { s.flags with CY := s.A.testBit 0 } } ∧
    executeInstruction 0x17 s =
      { s with A := rotl8 s.A s.flags.CY, flags := { s.flags with CY := s.A.testBit 7 } } ∧
    executeInstruction 0x1F s =
      { s with A := rotr8 s.A s.flags.CY, flags := { s.flags with CY := s.A.testBit 0 } } := by
  have l7 := (rot_facts s.A hA (s.A.testBit 7)).2.2.1
  have r0 := (rot_facts s.A hA (s.A.testBit 0)).2.2.2.1
  have lc := (rot_facts s.A hA s.flags.CY).2.2.1
  have rc := (rot_facts s.A hA s.flags.CY).2.2.2.1
  refine ⟨?_, ?_, ?_, ?_⟩
  · simp only [executeInstruction, nibble, execRow0, decide_bit7, l7]
  · simp only [executeInstruction, nibble, execRow0, decide_bit0, r0]
  · simp only [executeInstruction, nibble, execRow1, decide_bit7, lc]
  · simp only [executeInstruction, nibble, execRow1, decide_bit0, rc]

/-- C25: from every running well-formed state (every accumulator byte, either incoming
Carry), one step whose opcode is RLC (0x07) sets Carry to old bit 7 and A to A rotated left
by one, old bit 7 entering bit 0; RRC (0x0F) sets Carry to old bit 0 and A to A rotated
right by one, old bit 0 entering bit 7; RAL (0x17) sets A to ((A << 1) mod 256) | old CY
and Carry to old bit 7; RAR (0x1F) sets A to (A >> 1) | (old CY << 7) and Carry to old
bit 0.  Besides A, Carry and PC (which becomes PC + 1) nothing changes: S, Z, AC and P are
as before. -/
theorem rotate_instructions (s : CPU8085) (hwf : WF s) (hrun : s.halted = false) :
    (cur s s.PC = 0x07 →
      step s = { s with PC := (s.PC + 1) % 65536, A := rotl8 s.A (s.A.testBit 7)
                        flags := { s.flags with CY := s.A.testBit 7 } }) ∧
    (cur s s.PC = 0x0F →
      step s = { s with PC := (s.PC + 1) % 65536, A := rotr8 s.A (s.A.testBit 0)
                        flags := { s.flags with CY := s.A.testBit 0 } }) ∧
    (cur s s.PC = 0x17 →
      step s = { s with PC := (s.PC + 1) % 65536, A := rotl8 s.A s.flags.CY
                        flags := { s.flags with CY := s.A.testBit 7 } }) ∧
    (cur s s.PC = 0x1F →
      step s = { s with PC := (s.PC + 1) % 65536, A := rotr8 s.A s.flags.CY
                        flags := { s.flags with CY := s.A.testBit 0 } }) ∧
    (∀ c : Bool,
      rotl8 s.A c = ((s.A <<< 1) % 256) ||| (if c then 1 else 0) ∧
      rotr8 s.A c = (s.A >>> 1) ||| ((if c then 1 else 0) <<< 7) ∧
      ∀ i, i < 8 →
        (rotl8 s.A c).testBit i = (if i = 0 then c else s.A.testBit (i - 1)) ∧
        (rotr8 s.A c).testBit i = (if i = 7 then c else s.A.testBit (i + 1))) := by
  have h := exec_rotates { s with PC := (s.PC + 1) % 65536 } hwf.hA
  rw [step_running s hrun hwf.inBounds_PC]
  refine ⟨?_, ?_, ?_, ?_, ?_⟩
  · intro hop
    rw [hop]
    exact h.1
  · intro hop
    rw [hop]
    exact h.2.1
  · intro hop
    rw [hop]
    exact h.2.2.1
  · intro hop
    rw [hop]
    exact h.2.2.2
  · intro c
    have f := rot_facts s.A hwf.hA c
    exact ⟨f.1, f.2.1, f.2.2.2.2⟩

/-- Witness of C25: `RAL` at address 0 with A = 0x81 and Carry clear: A becomes 0x02 and
Carry is set. -/
theorem rotate_instructions_witness :
    (WF { withCode [0x17] with A := 0x81 } ∧
      ({ withCode [0x17] with A := 0x81 } : CPU8085).halted = false ∧
      cur { withCode [0x17] with A := 0x81 }
        ({ withCode [0x17] with A := 0x81 } : CPU8085).PC = 0x17) ∧
    (step { withCode [0x17] with A := 0x81 }).A = 0x02 ∧
    (step { withCode [0x17] with A := 0x81 }).flags.CY = true :=
  have hwf : WF { withCode [0x17] with A := 0x81 } :=
    { withCode_WF [0x17] (by decide) with hA := by decide }
  have h := (rotate_instructions _ hwf rfl).2.2.1 (by decide)
  ⟨⟨hwf, rfl, by decide⟩, by rw [h]; decide, by rw [h]; decide⟩

/-! ## The layout of the PSW -/

theorem flagByte_bits (f : Flags) :
    (flagByte f).testBit 7 = f.S ∧ (flagByte f).testBit 6 = f.Z ∧
    (flagByte f).testBit 5 = false ∧ (flagByte f).testBit 4 = f.AC ∧
    (flagByte f).testBit 3 = false ∧ (flagByte f).testBit 2 = f.P ∧
    (flagByte f).testBit 1 = true ∧ (flagByte f).testBit 0 = f.CY := by
  obtain ⟨fS, fZ, fAC, fP, fCY⟩ := f
  cases fS <;> cases fZ <;> cases fAC <;> cases fP <;> cases fCY <;> decide

theorem word_bit (h l i : Nat) (hi : i < 8) :
    decide ((h * 256 + l) &&& 2 ^ i ≠ 0) = l.testBit i := by
  rw [Nat.testBit_to_div_mod]
  apply decide_eq_decide.mpr
  rw [and_bit]
  interval_cases i <;> simp only [Nat.reducePow] <;> omega

theorem unpack_word (h l : Nat) (hh : h < 256) (hl : l < 256) :
    (((h * 256 + l) >>> 8) &&& 0xFF) % 256 = h ∧
    ({ S := decide ((h * 256 + l) &&& 0x80 ≠ 0)
       Z := decide ((h * 256 + l) &&& 0x40 ≠ 0)
       AC := decide ((h * 256 + l) &&& 0x10 ≠ 0)
       P := decide ((h * 256 + l) &&& 0x04 ≠ 0)
       CY := decide ((h * 256 + l) &&& 0x01 ≠ 0) } : Flags) =
      { S := l.testBit 7, Z := l.testBit 6, AC := l.testBit 4, P := l.testBit 2,
        CY := l.testBit 0 } := by
  constructor
  · rw [shr8, and_255]
    omega
  · have h7 := word_bit h l 7 (by decide)
    have h6 := word_bit h l 6 (by decide)
    have h4 := word_bit h l 4 (by decide)
    have h2 := word_bit h l 2 (by decide)
    have h0 := word_bit h l 0 (by decide)
    simp only [Nat.reducePow] at h7 h6 h4 h2 h0
    rw [h7, h6, h4, h2, h0]

theorem push_advanced (s : CPU8085) (v p : Nat)
    (hbank : 0 ≤ s.current_bank ∧ s.current_bank < 8) :
    push { s with PC := p } v = { withPushed s v with PC := p } := by
  rw [push_eq { s with PC := p } v hbank]
  rfl

/-- C26: from every running well-formed state, one step whose opcode is PUSH PSW (0xF5)
stores the accumulator at address SP - 1 and the flag byte at address SP - 2 of the active
bank (addresses modulo 65536) and lowers SP by 2; bit 7 of the flag byte is S, bit 6 is Z,
bit 4 is AC, bit 2 is P, bit 1 is 1, bit 0 is CY and bits 5 and 3 are 0.  One step whose
opcode is POP PSW (0xF1) sets A to the byte at SP + 1 and the five flags to bits 7, 6, 4, 2
and 0 of the byte at SP, whatever that byte is, and raises SP by 2. -/
theorem psw_byte_layout (s : CPU8085) (hwf : WF s) (hrun : s.halted = false) :
    (cur s s.PC = 0xF5 →
      step s = { withPushed s (s.A * 256 + flagByte s.flags) with PC := (s.PC + 1) % 65536 } ∧
      (step s).SP = (s.SP + 65534) % 65536 ∧
      cur (step s) ((s.SP + 65535) % 65536) = s.A ∧
      cur (step s) ((s.SP + 65534) % 65536) = flagByte s.flags) ∧
    ((flagByte s.flags).testBit 7 = s.flags.S ∧ (flagByte s.flags).testBit 6 = s.flags.Z ∧
      (flagByte s.flags).testBit 5 = false ∧ (flagByte s.flags).testBit 4 = s.flags.AC ∧
      (flagByte s.flags).testBit 3 = false ∧ (flagByte s.flags).testBit 2 = s.flags.P ∧
      (flagByte s.flags).testBit 1 = true ∧ (flagByte s.flags).testBit 0 = s.flags.CY ∧
      flagByte s.flags < 256) ∧
    (cur s s.PC = 0xF1 →
      step s =
        { s with
          PC := (s.PC + 1) % 65536
          SP := (s.SP + 2) % 65536
          A := cur s ((s.SP + 1) % 65536)
          flags :=
            { S := (cur s s.SP).testBit 7
              Z := (cur s s.SP).testBit 6
              AC := (cur s s.SP).testBit 4
              P := (cur s s.SP).testBit 2
              CY := (cur s s.SP).testBit 0 } }) := by
  have hb := flagByte_bits s.flags
  have hlt := flagByte_lt s.flags
  have hA := hwf.hA
  refine ⟨?_, ⟨hb.1, hb.2.1, hb.2.2.1, hb.2.2.2.1, hb.2.2.2.2.1, hb.2.2.2.2.2.1,
    hb.2.2.2.2.2.2.1, hb.2.2.2.2.2.2.2, hlt⟩, ?_⟩
  · intro hop
    have hs : step s =
        { withPushed s (s.A * 256 + flagByte s.flags) with PC := (s.PC + 1) % 65536 } := by
      rw [step_running s hrun hwf.inBounds_PC, hop, exec_push_psw, psw_word]
      exact push_advanced s _ _ hwf.hbank
    have n2 : (s.SP + 65535) % 65536 ≠ (s.SP + 65534) % 65536 := by omega
    have e1 : (s.A * 256 + flagByte s.flags) / 256 % 256 = s.A := by omega
    have e2 : (s.A * 256 + flagByte s.flags) % 256 = flagByte s.flags := by omega
    rw [hs]
    refine ⟨rfl, ?_, ?_, ?_⟩
    · simp only [withPushed]
    · simp [cur, withPushed, n2, e1]
    · simp [cur, withPushed, e2]
  · intro hop
    rw [step_running s hrun hwf.inBounds_PC, hop, exec_pop_psw,
      pop_eq { s with PC := (s.PC + 1) % 65536 } hwf.hSP hwf.hbank]
    have hl := hwf.cur_lt s.SP hwf.hSP
    have hh := hwf.cur_lt ((s.SP + 1) % 65536) (Nat.mod_lt _ (by decide))
    have hw : (cur s ((s.SP + 1) % 65536) <<< 8 ||| cur s s.SP) % 65536 =
        cur s ((s.SP + 1) % 65536) * 256 + cur s s.SP := by
      rw [shl8_or _ _ hl]
      omega
    have hu := unpack_word (cur s ((s.SP + 1) % 65536)) (cur s s.SP) hh hl
    simp only [cur] at hw hu ⊢
    simp only [hw, hu.1, hu.2]

/-- Witness of C26: `POP PSW` at address 0 with SP = 1, where the byte at address 1 is 0x2A
(bits 5, 3 and 1 set, the five flag bits clear) and the byte at address 2 is 0x77: all five
flags come out clear and A becomes 0x77. -/
theorem psw_byte_layout_witness :
    (WF { withCode [0xF1, 0x2A, 0x77] with SP := 1 } ∧
      ({ withCode [0xF1, 0x2A, 0x77] with SP := 1 } : CPU8085).halted = false ∧
      cur { withCode [0xF1, 0x2A, 0x77] with SP := 1 }
        ({ withCode [0xF1, 0x2A, 0x77] with SP := 1 } : CPU8085).PC = 0xF1) ∧
    (step { withCode [0xF1, 0x2A, 0x77] with SP := 1 }).A = 0x77 ∧
    (step { withCode [0xF1, 0x2A, 0x77] with SP := 1 }).flags =
      { S := false, Z := false, AC := false, P := false, CY := false } ∧
    (step { withCode [0xF1, 0x2A, 0x77] with SP := 1 }).SP = 3 :=
  have hwf : WF { withCode [0xF1, 0x2A, 0x77] with SP := 1 } :=
    { withCode_WF [0xF1, 0x2A, 0x77] (by decide) with hSP := by decide }
  have h := (psw_byte_layout _ hwf rfl).2.2 (by decide)
  ⟨⟨hwf, rfl, by decide⟩, by rw [h]; decide, by rw [h]; decide, by rw [h]; decide⟩

/-! ## DAA and the two-stage rule -/

set_option maxRecDepth 100000 in
theorem daa_two_stage_table :
    ∀ a : Fin 256, ∀ ac cy : Bool, daaTwoStageOK a.val ac cy = true := by
  decide

theorem exec_daa_flags (s : CPU8085) :
    FlagsZSP (executeInstruction 0x27 s) (executeInstruction 0x27 s).A := by
  simp only [executeInstruction, nibble, execRow2]
  by_cases h1 : (s.A &&& 0x0F) > 9 ∨ s.flags.AC = true <;>
    by_cases h2 : (s.A >>> 4) > 9 ∨ s.flags.CY = true ∨ ((s.A >>> 4) ≥ 9 ∧ (s.A &&& 0x0F) > 9) <;>
    simp [h1, h2, FlagsZSP, updateFlags, and_128_ne_zero, countBits_eq_bitCount8]

/-- C27: from every running well-formed state (every accumulator byte, every incoming AC
and CY), one step whose opcode is DAA (0x27) leaves the accumulator and the Carry that the
specification's two-stage rule `daaTwoStage` gives, and Zero, Sign and Parity are those of
the final accumulator. -/
theorem daa_matches_two_stage_rule (s : CPU8085) (hwf : WF s) (hrun : s.halted = false)
    (hop : cur s s.PC = 0x27) :
    (step s).A = (daaTwoStage s.A s.flags.AC s.flags.CY).1 ∧
    (step s).flags.CY = (daaTwoStage s.A s.flags.AC s.flags.CY).2 ∧
    FlagsZSP (step s) (step s).A := by
  rw [step_running s hrun hwf.inBounds_PC, hop]
  have h := daa_two_stage_table ⟨s.A, hwf.hA⟩ s.flags.AC s.flags.CY
  simp only [daaTwoStageOK, Bool.and_eq_true, decide_eq_true_eq, beq_iff_eq] at h
  have e := exec_daa { s with PC := (s.PC + 1) % 65536 }
  exact ⟨e.1.trans h.1, e.2.trans h.2, exec_daa_flags _⟩

/-- Witness of C27: `DAA` at address 0 with A = 0x9A: both stages apply, A becomes 0x00 and
Carry is set. -/
theorem daa_matches_two_stage_rule_witness :
    (WF { withCode [0x27] with A := 0x9A } ∧
      ({ withCode [0x27] with A := 0x9A } : CPU8085).halted = false ∧
      cur { withCode [0x27] with A := 0x9A }
        ({ withCode [0x27] with A := 0x9A } : CPU8085).PC = 0x27) ∧
    (step { withCode [0x27] with A := 0x9A }).A = 0x00 ∧
    (step { withCode [0x27] with A := 0x9A }).flags.CY = true :=
  have hwf : WF { withCode [0x27] with A := 0x9A } :=
    { withCode_WF [0x27] (by decide) with hA := by decide }
  have h := daa_matches_two_stage_rule _ hwf rfl (by decide)
  ⟨⟨hwf, rfl, by decide⟩, h.1.trans (by decide), h.2.1.trans (by decide)⟩

/-! ## The half-carry with carry-in -/

/-- C28: for every accumulator byte A, operand byte v and incoming Carry, `add` with
`withCarry` (ADC / ACI) sets AC iff (A & 0x0F) + (v & 0x0F) + c > 0x0F and `sub` with
`withBorrow` (SBB / SBI) sets AC iff (A & 0x0F) < (v & 0x0F) + c, where c is 1 when the Carry
computed by this same operation is set and 0 otherwise; that Carry is set iff
A + v + (incoming Carry) > 0xFF, respectively A < v + (incoming Carry).  The incoming Carry
is not what the half-carry test reads: with incoming Carry set, `add` on A = 0x0F, v = 0 and
`sub` on A = 0x10, v = 0 both leave AC clear. -/
theorem half_carry_uses_updated_carry (s : CPU8085) (v : Nat) (hA : s.A < 256)
    (hv : v < 256) :
    ((add s v true).2.flags.AC = true ↔
      (s.A &&& 0x0F) + (v &&& 0x0F) + (if (add s v true).2.flags.CY then 1 else 0) > 0x0F) ∧
    ((sub s v true).2.flags.AC = true ↔
      (s.A &&& 0x0F) < (v &&& 0x0F) + (if (sub s v true).2.flags.CY then 1 else 0)) ∧
    ((add s v true).2.flags.CY = true ↔ s.A + v + (if s.flags.CY then 1 else 0) > 0xFF) ∧
    ((sub s v true).2.flags.CY = true ↔ s.A < v + (if s.flags.CY then 1 else 0)) ∧
    (s.A = 0x0F → v = 0x00 → s.flags.CY = true →
      (add s v true).2.flags.AC = false ∧ (add s v true).2.flags.CY = false) ∧
    (s.A = 0x10 → v = 0x00 → s.flags.CY = true →
      (sub s v true).2.flags.AC = false ∧ (sub s v true).2.flags.CY = false) := by
  have hc : (if s.flags.CY = true then 1 else 0) ≤ 1 := by split <;> omega
  refine ⟨?_, ?_, ?_, ?_, ?_, ?_⟩
  · simp [add, updateFlags, Nat.mod_eq_of_lt hv]
  · simp [sub, updateFlags, Nat.mod_eq_of_lt hv]
  · simp only [add, updateFlags, decide_eq_true_eq, Nat.mod_eq_of_lt hv, Bool.true_and]
    omega
  · simp only [sub, updateFlags, wrap16, decide_eq_true_eq, Nat.mod_eq_of_lt hv, Bool.true_and]
    split <;> omega
  · intro h1 h2 h3
    simp [add, updateFlags, h1, h2, h3]
  · intro h1 h2 h3
    simp [sub, updateFlags, wrap16, h1, h2, h3]

/-- Witness of C28: accumulator 0x0F, operand 0x00, incoming Carry set. -/
theorem half_carry_uses_updated_carry_witness :
    ((accState 0x0F true).A < 256 ∧ 0x00 < 256 ∧ (accState 0x0F true).A = 0x0F ∧
      (accState 0x0F true).flags.CY = true) ∧
    (add (accState 0x0F true) 0x00 true).2.flags.AC = false ∧
    (add (accState 0x0F true) 0x00 true).2.flags.CY = false :=
  ⟨⟨by decide, by decide, rfl, rfl⟩,
    (half_carry_uses_updated_carry (accState 0x0F true) 0x00 (by decide) (by decide)).2.2.2.2.1
      rfl rfl rfl⟩

/-! ## Only the active bank is addressed -/

theorem swap_fields (s : CPU8085) (n : Int) (g : Int → Nat → Nat) :
    (withOtherBanks s n g).A = s.A ∧ (withOtherBanks s n g).B = s.B ∧
    (withOtherBanks s n g).C = s.C ∧ (withOtherBanks s n g).D = s.D ∧
    (withOtherBanks s n g).E = s.E ∧ (withOtherBanks s n g).H = s.H ∧
    (withOtherBanks s n g).L = s.L ∧ (withOtherBanks s n g).SP = s.SP ∧
    (withOtherBanks s n g).PC = s.PC ∧ (withOtherBanks s n g).flags = s.flags ∧
    (withOtherBanks s n g).current_bank = s.current_bank ∧
    (withOtherBanks s n g).halted = s.halted ∧
    (withOtherBanks s n g).interruptEnabled = s.interruptEnabled ∧
    (withOtherBanks s n g).ioReadCallback = s.ioReadCallback ∧
    (withOtherBanks s n g).ioWriteCallback = s.ioWriteCallback ∧
    (withOtherBanks s n g).ioWritten = s.ioWritten ∧
    (withOtherBanks s n g).fault = s.fault :=
  ⟨rfl, rfl, rfl, rfl, rfl, rfl, rfl, rfl, rfl, rfl, rfl, rfl, rfl, rfl, rfl, rfl, rfl⟩

theorem mk_swap (s : CPU8085) (n : Int) (g : Int → Nat → Nat) (a b c d e h l sp pc : Nat)
    (f : Flags) (cb : Int) (ha ie : Bool) (rc : Option (Nat → Nat)) (wc : Bool)
    (wr : List (Nat × Nat)) (fa : Bool) :
    CPU8085.mk a b c d e h l sp pc f (withOtherBanks s n g).memory_banks cb ha ie rc wc wr fa =
      withOtherBanks (CPU8085.mk a b c d e h l sp pc f s.memory_banks cb ha ie rc wc wr fa) n g :=
  rfl

theorem readMem_swap (s : CPU8085) (n : Int) (g : Int → Nat → Nat) (i : Nat) :
    readMem (withOtherBanks s n g) n i =
      ((readMem s n i).1, withOtherBanks (readMem s n i).2 n g) := by
  unfold readMem
  split <;> simp [withOtherBanks]

theorem writeMem_swap (s : CPU8085) (n : Int) (g : Int → Nat → Nat) (i v : Nat) :
    writeMem (withOtherBanks s n g) n i v = withOtherBanks (writeMem s n i v) n g := by
  unfold writeMem
  split
  · simp only [withOtherBanks]
    congr 1
    funext b j
    by_cases hb : b = n <;> simp [hb]
  · rfl

theorem fetchByte_swap (s : CPU8085) (n : Int) (g : Int → Nat → Nat) (hn : s.current_bank = n) :
    fetchByte (withOtherBanks s n g) = ((fetchByte s).1, withOtherBanks (fetchByte s).2 n g) := by
  have h := readMem_swap s n g s.PC
  subst hn
  simp only [fetchByte]
  rw [show (withOtherBanks s s.current_bank g).current_bank = s.current_bank from rfl,
    show (withOtherBanks s s.current_bank g).PC = s.PC from rfl, h]
  rfl

theorem fetchWord_swap (s : CPU8085) (n : Int) (g : Int → Nat → Nat) (hn : s.current_bank = n) :
    fetchWord (withOtherBanks s n g) = ((fetchWord s).1, withOtherBanks (fetchWord s).2 n g) := by
  simp only [fetchWord]
  rw [fetchByte_swap s n g hn, fetchByte_swap _ n g ((fetchByte_bank s).trans hn)]

theorem push_swap (s : CPU8085) (n : Int) (g : Int → Nat → Nat) (hn : s.current_bank = n)
    (v : Nat) :
    push (withOtherBanks s n g) v = withOtherBanks (push s v) n g := by
  subst hn
  simp [push, (swap_fields s s.current_bank g).2.2.2.2.2.2.2.1,
    (swap_fields s s.current_bank g).2.2.2.2.2.2.2.2.2.2.1, swap_fields, mk_swap, writeMem_swap,
    writeMem_bank]

theorem pop_swap (s : CPU8085) (n : Int) (g : Int → Nat → Nat) (hn : s.current_bank = n) :
    pop (withOtherBanks s n g) = ((pop s).1, withOtherBanks (pop s).2 n g) := by
  subst hn
  simp [pop, swap_fields, mk_swap, readMem_swap, readMem_bank]

theorem switchBank_swap (s : CPU8085) (n : Int) (g : Int → Nat → Nat) (k : Int) :
    switchBank (withOtherBanks s n g) k = withOtherBanks (switchBank s k) n g := by
  unfold switchBank
  split <;> rfl

theorem updateFlags_swap (s : CPU8085) (n : Int) (g : Int → Nat → Nat) (x : Nat) :
    updateFlags (withOtherBanks s n g) x = withOtherBanks (updateFlags s x) n g := rfl

theorem updateFlagsLogical_swap (s : CPU8085) (n : Int) (g : Int → Nat → Nat) (x : Nat) :
    updateFlagsLogical (withOtherBanks s n g) x = withOtherBanks (updateFlagsLogical s x) n g :=
  rfl

theorem add_swap (s : CPU8085) (n : Int) (g : Int → Nat → Nat) (v : Nat) (c : Bool) :
    add (withOtherBanks s n g) v c = ((add s v c).1, withOtherBanks (add s v c).2 n g) := rfl

theorem sub_swap (s : CPU8085) (n : Int) (g : Int → Nat → Nat) (v : Nat) (c : Bool) :
    sub (withOtherBanks s n g) v c = ((sub s v c).1, withOtherBanks (sub s v c).2 n g) := rfl

theorem setBC_swap (s : CPU8085) (n : Int) (g : Int → Nat → Nat) (v : Nat) :
    setBC (withOtherBanks s n g) v = withOtherBanks (setBC s v) n g := rfl

theorem setDE_swap (s : CPU8085) (n : Int) (g : Int → Nat → Nat) (v : Nat) :
    setDE (withOtherBanks s n g) v = withOtherBanks (setDE s v) n g := rfl

theorem setHL_swap (s : CPU8085) (n : Int) (g : Int → Nat → Nat) (v : Nat) :
    setHL (withOtherBanks s n g) v = withOtherBanks (setHL s v) n g := rfl

theorem getBC_swap (s : CPU8085) (n : Int) (g : Int → Nat → Nat) :
    getBC (withOtherBanks s n g) = getBC s := rfl

theorem getDE_swap (s : CPU8085) (n : Int) (g : Int → Nat → Nat) :
    getDE (withOtherBanks s n g) = getDE s := rfl

theorem getHL_swap (s : CPU8085) (n : Int) (g : Int → Nat → Nat) :
    getHL (withOtherBanks s n g) = getHL s := rfl

theorem execRow0_swap (s : CPU8085) (n : Int) (g : Int → Nat → Nat) (hn : s.current_bank = n)
    (i : Nibble) :
    execRow0 n (withOtherBanks s n g) i = withOtherBanks (execRow0 n s i) n g := by
  cases i <;>
    simp [execRow0, swap_fields, mk_swap, readMem_swap, writeMem_swap, fetchByte_swap,
      fetchWord_swap, updateFlags_swap, setBC_swap, setDE_swap, setHL_swap, getBC_swap,
      getDE_swap, getHL_swap, hn, fetchByte_bank, fetchWord_bank, readMem_bank, writeMem_bank]

theorem execRow1_swap (s : CPU8085) (n : Int) (g : Int → Nat → Nat) (hn : s.current_bank = n)
    (i : Nibble) :
    execRow1 n (withOtherBanks s n g) i = withOtherBanks (execRow1 n s i) n g := by
  cases i <;>
    simp [execRow1, swap_fields, mk_swap, readMem_swap, writeMem_swap, fetchByte_swap,
      fetchWord_swap, updateFlags_swap, setBC_swap, setDE_swap, setHL_swap, getBC_swap,
      getDE_swap, getHL_swap, hn, fetchByte_bank, fetchWord_bank, readMem_bank, writeMem_bank]

theorem execRow2_swap (s : CPU8085) (n : Int) (g : Int → Nat → Nat) (hn : s.current_bank = n)
    (i : Nibble) :
    execRow2 n (withOtherBanks s n g) i = withOtherBanks (execRow2 n s i) n g := by
  cases i
  case n7 =>
    simp only [execRow2, swap_fields]
    split <;> rfl
  all_goals
    simp [execRow2, swap_fields, mk_swap, readMem_swap, writeMem_swap, fetchByte_swap,
      fetchWord_swap, updateFlags_swap, setBC_swap, setDE_swap, setHL_swap, getBC_swap,
      getDE_swap, getHL_swap, hn, fetchByte_bank, fetchWord_bank, readMem_bank, writeMem_bank]

theorem execRow3_swap (s : CPU8085) (n : Int) (g : Int → Nat → Nat) (hn : s.current_bank = n)
    (i : Nibble) :
    execRow3 n (withOtherBanks s n g) i = withOtherBanks (execRow3 n s i) n g := by
  cases i <;>
    simp [execRow3, swap_fields, mk_swap, readMem_swap, writeMem_swap, fetchByte_swap,
      fetchWord_swap, updateFlags_swap, setBC_swap, setDE_swap, setHL_swap, getBC_swap,
      getDE_swap, getHL_swap, hn, fetchByte_bank, fetchWord_bank, readMem_bank, writeMem_bank]

theorem execRow4_swap (s : CPU8085) (n : Int) (g : Int → Nat → Nat) (i : Nibble) :
    execRow4 n (withOtherBanks s n g) i = withOtherBanks (execRow4 n s i) n g := by
  cases i <;>
    simp [execRow4, swap_fields, mk_swap, readMem_swap, writeMem_swap, getHL_swap]

theorem execRow5_swap (s : CPU8085) (n : Int) (g : Int → Nat → Nat) (i : Nibble) :
    execRow5 n (withOtherBanks s n g) i = withOtherBanks (execRow5 n s i) n g := by
  cases i <;>
    simp [execRow5, swap_fields, mk_swap, readMem_swap, writeMem_swap, getHL_swap]

theorem execRow6_swap (s : CPU8085) (n : Int) (g : Int → Nat → Nat) (i : Nibble) :
    execRow6 n (withOtherBanks s n g) i = withOtherBanks (execRow6 n s i) n g := by
  cases i <;>
    simp [execRow6, swap_fields, mk_swap, readMem_swap, writeMem_swap, getHL_swap]

theorem execRow7_swap (s : CPU8085) (n : Int) (g : Int → Nat → Nat) (i : Nibble) :
    execRow7 n (withOtherBanks s n g) i = withOtherBanks (execRow7 n s i) n g := by
  cases i <;>
    simp [execRow7, swap_fields, mk_swap, readMem_swap, writeMem_swap, getHL_swap]

theorem execRow8_swap (s : CPU8085) (n : Int) (g : Int → Nat → Nat) (i : Nibble) :
    execRow8 n (withOtherBanks s n g) i = withOtherBanks (execRow8 n s i) n g := by
  cases i <;>
    simp [execRow8, swap_fields, mk_swap, readMem_swap, getHL_swap, add_swap]

theorem execRow9_swap (s : CPU8085) (n : Int) (g : Int → Nat → Nat) (i : Nibble) :
    execRow9 n (withOtherBanks s n g) i = withOtherBanks (execRow9 n s i) n g := by
  cases i <;>
    simp [execRow9, swap_fields, mk_swap, readMem_swap, getHL_swap, sub_swap]

theorem execRowA_swap (s : CPU8085) (n : Int) (g : Int → Nat → Nat) (i : Nibble) :
    execRowA n (withOtherBanks s n g) i = withOtherBanks (execRowA n s i) n g := by
  cases i <;>
    simp [execRowA, swap_fields, mk_swap, readMem_swap, getHL_swap, updateFlagsLogical_swap]

theorem execRowB_swap (s : CPU8085) (n : Int) (g : Int → Nat → Nat) (i : Nibble) :
    execRowB n (withOtherBanks s n g) i = withOtherBanks (execRowB n s i) n g := by
  cases i <;>
    simp [execRowB, swap_fields, mk_swap, readMem_swap, getHL_swap, updateFlagsLogical_swap, sub_swap]

theorem execRowC_swap (s : CPU8085) (n : Int) (g : Int → Nat → Nat) (hn : s.current_bank = n)
    (i : Nibble) :
    execRowC (withOtherBanks s n g) i = withOtherBanks (execRowC s i) n g := by
  cases i <;>
    simp [execRowC, swap_fields, mk_swap, fetchByte_swap, fetchWord_swap, push_swap, pop_swap,
      add_swap, setBC_swap, getBC_swap, hn, fetchByte_bank, fetchWord_bank] <;>
    split <;> rfl

theorem execRowD_swap (s : CPU8085) (n : Int) (g : Int → Nat → Nat) (hn : s.current_bank = n)
    (i : Nibble) :
    execRowD (withOtherBanks s n g) i = withOtherBanks (execRowD s i) n g := by
  cases i
  case n3 =>
    simp only [execRowD, fetchByte_swap s n g hn, swap_fields, switchBank_swap]
    split
    · rfl
    · split <;> rfl
  case nB =>
    simp only [execRowD, fetchByte_swap s n g hn, swap_fields]
    split <;> rfl
  all_goals
    simp [execRowD, swap_fields, mk_swap, fetchByte_swap, fetchWord_swap, push_swap, pop_swap,
      sub_swap, setDE_swap, getDE_swap, hn, fetchByte_bank, fetchWord_bank]
  all_goals
    split <;> rfl

theorem execRowE_swap (s : CPU8085) (n : Int) (g : Int → Nat → Nat) (hn : s.current_bank = n)
    (i : Nibble) :
    execRowE n (withOtherBanks s n g) i = withOtherBanks (execRowE n s i) n g := by
  cases i <;>
    simp [execRowE, swap_fields, mk_swap, fetchByte_swap, fetchWord_swap, push_swap, pop_swap,
      setHL_swap, getHL_swap, updateFlagsLogical_swap, readMem_swap, writeMem_swap, hn,
      fetchByte_bank, fetchWord_bank, readMem_bank, writeMem_bank] <;>
    split <;> rfl

theorem execRowF_swap (s : CPU8085) (n : Int) (g : Int → Nat → Nat) (hn : s.current_bank = n)
    (i : Nibble) :
    execRowF (withOtherBanks s n g) i = withOtherBanks (execRowF s i) n g := by
  cases i <;>
    simp [execRowF, swap_fields, mk_swap, fetchByte_swap, fetchWord_swap, push_swap, pop_swap,
      updateFlagsLogical_swap, sub_swap, getHL_swap, hn, fetchByte_bank, fetchWord_bank] <;>
    split <;> rfl

theorem executeInstruction_swap (opcode : Nat) (s : CPU8085) (g : Int → Nat → Nat) :
    executeInstruction opcode (withOtherBanks s s.current_bank g) =
      withOtherBanks (executeInstruction opcode s) s.current_bank g := by
  unfold executeInstruction
  simp only [swap_fields]
  cases nibble (opcode % 256 / 16)
  · exact execRow0_swap s _ g rfl _
  · exact execRow1_swap s _ g rfl _
  · exact execRow2_swap s _ g rfl _
  · exact execRow3_swap s _ g rfl _
  · exact execRow4_swap s _ g _
  · exact execRow5_swap s _ g _
  · exact execRow6_swap s _ g _
  · exact execRow7_swap s _ g _
  · exact execRow8_swap s _ g _
  · exact execRow9_swap s _ g _
  · exact execRowA_swap s _ g _
  · exact execRowB_swap s _ g _
  · exact execRowC_swap s _ g rfl _
  · exact execRowD_swap s _ g rfl _
  · exact execRowE_swap s _ g rfl _
  · exact execRowF_swap s _ g rfl _

theorem step_swap (s : CPU8085) (g : Int → Nat → Nat) :
    step (withOtherBanks s s.current_bank g) = withOtherBanks (step s) s.current_bank g := by
  have hs : ∀ t : CPU8085, step t =
      if t.halted then t else executeInstruction (fetchByte t).1 (fetchByte t).2 := fun _ => rfl
  rw [hs, hs, fetchByte_swap s _ g rfl]
  simp only [swap_fields]
  split
  · rfl
  · have h := executeInstruction_swap (fetchByte s).1 (fetchByte s).2 g
    rw [fetchByte_bank] at h
    exact h

theorem withOtherBanks_self (s : CPU8085) (n : Int) : withOtherBanks s n s.memory_banks = s := by
  have h : (fun b i => if b = n then s.memory_banks b i else s.memory_banks b i) =
      s.memory_banks := by
    funext b i
    split <;> rfl
  simp only [withOtherBanks, h]

/-- C29: for every opcode and every state, one step that stays inside the bank arrays
(`fault` clear before and after) leaves every byte of every bank other than the bank that is
active when the step begins unchanged, and the step does not look at those banks: replacing
them by any contents `g` before the step gives the same result, with `g` still in the other
banks, and that step stays inside the bank arrays too.  This covers fetch, loads, stores and
stack traffic of all 256 opcodes, OUT to port 254 included.  (The read slot is a function of
the port and the write slot only records its calls, so neither mutates the engine.) -/
theorem step_addresses_active_bank_only (s : CPU8085) (hs : s.fault = false)
    (hstep : (step s).fault = false) :
    (∀ b i, b ≠ s.current_bank → (step s).memory_banks b i = s.memory_banks b i) ∧
    (∀ g : Int → Nat → Nat,
      step (withOtherBanks s s.current_bank g) = withOtherBanks (step s) s.current_bank g ∧
      (withOtherBanks s s.current_bank g).fault = false ∧
      (step (withOtherBanks s s.current_bank g)).fault = false) := by
  refine ⟨?_, fun g => ⟨step_swap s g, hs, ?_⟩⟩
  · intro b i hb
    have h := step_swap s s.memory_banks
    rw [withOtherBanks_self] at h
    have e : (step s).memory_banks b i =
        (withOtherBanks (step s) s.current_bank s.memory_banks).memory_banks b i := by rw [← h]
    rw [e]
    simp [withOtherBanks, hb]
  · rw [step_swap s g]
    exact hstep

/-- Witness of C29: `STA 0x1000` at address 0 of bank 0 with A = 0x5A, a step that stays
inside the bank arrays: the byte at 0x1000 of bank 3 is not touched, while bank 0 receives
0x5A. -/
theorem step_addresses_active_bank_only_witness :
    (({ withCode [0x32, 0x00, 0x10] with A := 0x5A } : CPU8085).fault = false ∧
      (step { withCode [0x32, 0x00, 0x10] with A := 0x5A }).fault = false ∧
      (3 : Int) ≠ ({ withCode [0x32, 0x00, 0x10] with A := 0x5A } : CPU8085).current_bank) ∧
    (step { withCode [0x32, 0x00, 0x10] with A := 0x5A }).memory_banks 3 0x1000 =
      ({ withCode [0x32, 0x00, 0x10] with A := 0x5A } : CPU8085).memory_banks 3 0x1000 ∧
    (step { withCode [0x32, 0x00, 0x10] with A := 0x5A }).memory_banks 0 0x1000 = 0x5A :=
  have hf : (step { withCode [0x32, 0x00, 0x10] with A := 0x5A }).fault = false := by
    simp [withCode, init, reset, step, fetchByte, fetchWord, readMem, writeMem, inBounds,
      NUM_BANKS, executeInstruction, nibble, execRow3]
  ⟨⟨rfl, hf, by decide⟩,
    (step_addresses_active_bank_only { withCode [0x32, 0x00, 0x10] with A := 0x5A } rfl
      hf).1 3 0x1000 (by decide),
    by simp [withCode, init, reset, step, fetchByte, fetchWord, readMem, writeMem, inBounds,
      NUM_BANKS, executeInstruction, nibble, execRow3]⟩

end CPU8085
